import Mathlib

/-! Crosschain transaction builders: a shallow embedding.

The definitions below follow the Go sources of the repository
(`blockchain/btc/builder.go`, `blockchain/solana/builder/builder.go`,
`blockchain/evm/client/fetch_input.go`, `blockchain/tron/address.go`,
`blockchain/cosmos/builder/builder_staking.go`).  Go values of type `xc.BigInt`
(a wrapper of `math/big.Int`) are integers of `Int`; machine integers are
reduced modulo their width where the source converts to them.  The signing of a
Bitcoin transaction (`tx.Tx.AddSignatures`), which the sources do not contain,
follows the spec.
-/

namespace Crosschain

/-! ## Package `types` -/

/-- Modelled from the spec: `xc.BigInt` is the arbitrary-precision signed integer
type of amounts ("all arithmetic (add/sub/mul/cmp) must be exact"); its
declaration is not part of the sources, so `Add`, `Sub`, `Mul` and `Cmp` are the
exact operations of `Int`. -/
abbrev BigInt := Int

/-- The conversion `int64(u)` of Go for an unsigned 64-bit value `u`. -/
def int64OfUint64 (u : Nat) : Int :=
  if u % 2 ^ 64 < 2 ^ 63 then ((u % 2 ^ 64 : Nat) : Int) else ((u % 2 ^ 64 : Nat) : Int) - 2 ^ 64

/-- Negation of an `int64` in Go: two's complement, so the least value is its own negation. -/
def negInt64 (v : Int) : Int :=
  if v = -(2 ^ 63) then v else -v

/-- The method `big.Int.Uint64`: the low 64 bits of the magnitude (`low64(x.abs)`). The
method `xc.BigInt.Uint64` is the same conversion, written `Int().Uint64()` in the native
transfer of the Solana builder. -/
def BigInt.Uint64 (x : BigInt) : Nat :=
  x.natAbs % 2 ^ 64

/-- The method `big.Int.Int64`: `v := int64(low64(x.abs)); if x.neg { v = -v }`. -/
def BigInt.Int64 (x : BigInt) : Int :=
  let v := int64OfUint64 (BigInt.Uint64 x)
  if x < 0 then negInt64 v else v

/-- An `xc.Address` is a Go string. -/
abbrev Address := String

/-- An `xc.NativeAsset` is a Go string naming the chain. -/
abbrev NativeAsset := String

/-- The constant `xc.BCH`. -/
def BCH : NativeAsset := "BCH"

/-- The constant `xc.ArbETH`. -/
def ArbETH : NativeAsset := "ArbETH"

/-- The fields of `xc.ChainConfig` that the builders and clients read. -/
structure ChainConfig where
  Chain : NativeAsset
  Network : String
  Decimals : Int
  NoGasFees : Bool
deriving DecidableEq, Repr

/-- The fields of `xc.TokenAssetConfig` that the builders read; `ChainConfig` is what
`GetChain()` returns. -/
structure TokenAssetConfig where
  Asset : String
  Contract : String
  Decimals : Int
  ChainConfig : ChainConfig
deriving DecidableEq, Repr

/-- The interface `xc.IAsset` with its dynamic types: `*xc.ChainConfig`,
`*xc.TokenAssetConfig`, or any other implementation (named by its type). -/
inductive IAsset where
  | chain (c : ChainConfig)
  | token (t : TokenAssetConfig)
  | other (typeName : String) (c : ChainConfig) (contract : String) (decimals : Int)
deriving DecidableEq, Repr

/-- The method `IAsset.GetChain`. -/
def IAsset.GetChain : IAsset → ChainConfig
  | .chain c => c
  | .token t => t.ChainConfig
  | .other _ c _ _ => c

/-- The method `IAsset.GetContract`; a chain has no contract. -/
def IAsset.GetContract : IAsset → String
  | .chain _ => ""
  | .token t => t.Contract
  | .other _ _ contract _ => contract

/-- The method `IAsset.GetDecimals` (an `int32`). -/
def IAsset.GetDecimals : IAsset → Int
  | .chain c => c.Decimals
  | .token t => t.Decimals
  | .other _ _ _ d => d

/-- The fields of `xcbuilder.TransferArgs` read through `GetFrom`, `GetTo`, `GetAmount`,
`GetAsset` and `GetFeePayer`; an absent optional is `none`. -/
structure TransferArgs where
  From : Address
  To : Address
  Amount : BigInt
  Asset : Option IAsset
  FeePayer : Option Address
deriving DecidableEq, Repr

/-! ## Package `blockchain/btc` -/

namespace Btc

/-- An unspent output of `tx_input.Output`: `Hash []byte`, `Index uint32`, `Value xc.BigInt`. -/
structure Output where
  Hash : List Nat
  Index : Nat
  Value : BigInt
deriving DecidableEq, Repr

/-- The UTXO variant `tx_input.TxInput`. -/
structure TxInput where
  UnspentOutputs : List Output
  GasPricePerByte : BigInt
deriving DecidableEq, Repr

/-- Modelled from the spec: `TxInput.SumUtxo` is declared outside the sources; the spec
says "Sum all unspent-output values = `totalAvailable`". -/
def TxInput.SumUtxo (input : TxInput) : BigInt :=
  (input.UnspentOutputs.map Output.Value).sum

/-- A `wire.OutPoint`: a 32-byte `chainhash.Hash` and an index. -/
structure OutPoint where
  Hash : List Nat
  Index : Nat
deriving DecidableEq, Repr

/-- A `wire.TxIn` as `wire.NewTxIn(prevOut, nil, nil)` builds it. -/
structure TxIn where
  PreviousOutPoint : OutPoint
  SignatureScript : List Nat
  Witness : List (List Nat)
  Sequence : Nat
deriving DecidableEq, Repr

/-- A `wire.TxOut`: `Value int64` and `PkScript []byte`. -/
structure TxOut where
  Value : Int
  PkScript : List Nat
deriving DecidableEq, Repr

/-- A `wire.MsgTx`. -/
structure MsgTx where
  Version : Int
  TxIn : List TxIn
  TxOut : List TxOut
  LockTime : Nat
deriving DecidableEq, Repr

/-- The constant `TxVersion`. -/
def TxVersion : Int := 2

/-- The function `wire.NewMsgTx`. -/
def NewMsgTx (version : Int) : MsgTx :=
  { Version := version, TxIn := [], TxOut := [], LockTime := 0 }

/-- The method `MsgTx.AddTxIn`. -/
def MsgTx.AddTxIn (m : MsgTx) (ti : Btc.TxIn) : MsgTx :=
  { m with TxIn := m.TxIn ++ [ti] }

/-- The method `MsgTx.AddTxOut`. -/
def MsgTx.AddTxOut (m : MsgTx) (txOut : Btc.TxOut) : MsgTx :=
  { m with TxOut := m.TxOut ++ [txOut] }

/-- The statements `hash := chainhash.Hash{}; copy(hash[:], input.Hash)`: the first 32 bytes
of the source, zero-filled to 32 bytes. -/
def copyHash (src : List Nat) : List Nat :=
  src.take 32 ++ List.replicate (32 - src.length) 0

/-- The function `wire.NewTxIn(wire.NewOutPoint(&hash, index), nil, nil)`; the sequence
number is `wire.MaxTxInSequenceNum`. -/
def NewTxIn (hash : List Nat) (index : Nat) : TxIn :=
  { PreviousOutPoint := { Hash := hash, Index := index },
    SignatureScript := [], Witness := [], Sequence := 4294967295 }

/-- A `tx.Recipient`. -/
structure Recipient where
  To : Address
  Value : BigInt
deriving DecidableEq, Repr

/-- An `xc.TxSignature`: the bytes of a raw signature. -/
abbrev TxSignature := List Nat

/-- The fields of `tx.Tx` that the builder sets, and its signature slot. Modelled from the
spec: the declaration of `tx.Tx` is not part of the sources; the spec says a transaction
"holds the unsigned wire structure, the originating TxInput, and a mutable signature slot",
with the lifecycle "`Built` (no signatures) → `Signed`". `Signed` tells the two states apart
and `Signatures` holds the signatures bound to the inputs, in order. The builder sets neither,
so a transaction it returns has the zero values `false` and nil. -/
structure Tx where
  MsgTx : MsgTx
  From : Address
  To : Address
  Amount : BigInt
  Input : TxInput
  Recipients : List Recipient
  Signed : Bool := false
  Signatures : List TxSignature := []
deriving DecidableEq, Repr

/-- The errors the Bitcoin builder returns. `notEnoughFunds fee diff decimals` stands for
`fmt.Errorf("not enough funds for fees, estimated fee is %s but only %s is left after transfer",
fee.ToHuman(decimals), diff.ToHuman(decimals))`. -/
inductive BuildError where
  | notBitcoinInput
  | decode (e : String)
  | payToAddr (e : String)
  | notEnoughFunds (fee : BigInt) (diff : BigInt) (decimals : Int)
  | notImplemented
  | newTransferNotImplemented (typeName : String)
deriving DecidableEq, Repr

/-- The text of an error; `toHuman` is `BigInt.ToHuman(decimals).String()`, which the
sources do not contain. -/
def BuildError.Error (toHuman : BigInt → Int → String) : BuildError → String
  | .notBitcoinInput => "xc.TxInput is not from a bitcoin chain"
  | .decode e => e
  | .payToAddr e => e
  | .notEnoughFunds fee diff decimals =>
      "not enough funds for fees, estimated fee is " ++ toHuman fee decimals ++
        " but only " ++ toHuman diff decimals ++ " is left after transfer"
  | .notImplemented => "not implemented"
  | .newTransferNotImplemented t => "NewTransfer not implemented for " ++ t

/-- What a Go builder returns: the pair `(xc.Tx, error)`, each possibly nil. -/
structure BuildResult where
  tx : Option Tx
  err : Option BuildError
deriving DecidableEq, Repr

/-- The builder `TxBuilder`. `AddressDecoder` is the external `address.AddressDecoder.Decode`
and `PayToAddrScript` the external `txscript.PayToAddrScript`; a decoded address is kept as
a string and a script as its bytes. -/
structure TxBuilder where
  Asset : IAsset
  Params : String
  AddressDecoder : Address → String → Except String String
  PayToAddrScript : String → Except String (List Nat)

/-- The size estimate of `NewNativeTransfer`: `uint64(255 * len(UnspentOutputs))`, replaced by
`uint64(300 * len(UnspentOutputs))` when the chain is BCH. A Go slice of outputs has far fewer
than `2^63 / 300` elements, so the product does not leave the range of `int`. -/
def estimatedTxBytesLength (txBuilder : TxBuilder) (input : TxInput) : BigInt :=
  if txBuilder.Asset.GetChain.Chain = BCH then
    ((300 * input.UnspentOutputs.length : Nat) : Int)
  else
    ((255 * input.UnspentOutputs.length : Nat) : Int)

/-- The local `fee := gasPrice.Mul(&estimatedTxBytesLength)`. -/
def estimatedFee (txBuilder : TxBuilder) (input : TxInput) : BigInt :=
  input.GasPricePerByte * estimatedTxBytesLength txBuilder input

/-- The local `recipients` of `NewNativeTransfer`. -/
def recipientsOf (txBuilder : TxBuilder) (args : TransferArgs) (input : TxInput) :
    List Recipient :=
  let totalSpend := input.SumUtxo
  let fee := estimatedFee txBuilder input
  let amount := args.Amount
  let transferAmountAndFee := amount + fee
  let unspentAmountMinusTransferAndFee := totalSpend - transferAmountAndFee
  [ { To := args.To, Value := amount },
    { To := args.From, Value := unspentAmountMinusTransferAndFee } ]

/-- The loop `for _, input := range local_input.UnspentOutputs { msgTx.AddTxIn(...) }`. -/
def addInputs (msgTx : MsgTx) : List Output → MsgTx
  | [] => msgTx
  | o :: rest => addInputs (msgTx.AddTxIn (NewTxIn (copyHash o.Hash) o.Index)) rest

/-- The loop `for _, recipient := range recipients { ... }` of `NewNativeTransfer`: it
returns the first error met, else the transaction with one more output per recipient. -/
def addOutputs (txBuilder : TxBuilder) (args : TransferArgs) (input : TxInput)
    (msgTx : MsgTx) : List Recipient → Except BuildError MsgTx
  | [] => .ok msgTx
  | recipient :: rest =>
    match txBuilder.AddressDecoder recipient.To txBuilder.Params with
    | .error e => .error (.decode e)
    | .ok addr =>
      match txBuilder.PayToAddrScript addr with
      | .error e => .error (.payToAddr e)
      | .ok script =>
        let value := BigInt.Int64 recipient.Value
        if value < 0 then
          let diff := input.SumUtxo - args.Amount
          .error (.notEnoughFunds (estimatedFee txBuilder input) diff
            txBuilder.Asset.GetDecimals)
        else
          addOutputs txBuilder args input (msgTx.AddTxOut { Value := value, PkScript := script })
            rest

/-- The body of `NewNativeTransfer` after the type assertion on the input succeeded. -/
def buildNative (txBuilder : TxBuilder) (args : TransferArgs) (local_input : TxInput) :
    BuildResult :=
  let recipients := recipientsOf txBuilder args local_input
  let msgTx := addInputs (NewMsgTx TxVersion) local_input.UnspentOutputs
  match addOutputs txBuilder args local_input msgTx recipients with
  | .error e => { tx := none, err := some e }
  | .ok msgTx =>
    { tx := some { MsgTx := msgTx, From := args.From, To := args.To, Amount := args.Amount,
                   Input := local_input, Recipients := recipients },
      err := none }

/-- The failures of `AddSignatures` the spec names: `AlreadySigned`, `SignatureLengthInvalid`
and `SignatureCountMismatch`, the last with the number of signatures expected and given. -/
inductive SignError where
  | alreadySigned
  | lengthInvalid
  | countMismatch (expected got : Nat)
deriving DecidableEq, Repr

/-- The text of a signing failure, as the tests of the package look for it
(`btc_test.go`, lines 335, 349 and 356). -/
def SignError.Error : SignError → String
  | .alreadySigned => "already signed"
  | .lengthInvalid => "signature must be 64 or 65 length"
  | .countMismatch expected got =>
      "expected " ++ toString expected ++ " signatures, got " ++ toString got ++ " signatures"

/-- Whether a signature is "exactly 64 or 65 bytes" long. -/
def validLength (signature : TxSignature) : Bool :=
  signature.length = 64 || signature.length = 65

/-- Modelled from the spec: the method `tx.Tx.AddSignatures` of the Bitcoin package is not
part of the sources. The spec says it "fails `AlreadySigned` if called on a `Signed`
transaction", "fails `SignatureLengthInvalid` if any signature is not exactly 64 or 65 bytes",
"fails `SignatureCountMismatch` if `len(sigs) != number of required signatures` (UTXO: one per
unspent output consumed)", and "on success, binds each signature positionally to its
input/signer and transitions to `Signed`"; "a failed `AddSignatures` leaves the Tx in its prior
state". The result is the transaction after the call and the error, if any. The spec does not
say which failure is reported when a call has both a signature of a wrong length and a wrong
number of signatures: with `lengthFirst` it is the length, without it the number. -/
def Tx.AddSignatures (lengthFirst : Bool) (tx : Tx) (signatures : List TxSignature) :
    Tx × Option SignError :=
  let required := tx.Input.UnspentOutputs.length
  let lengthFailure : Option SignError :=
    if signatures.all validLength then none else some .lengthInvalid
  let countFailure : Option SignError :=
    if signatures.length = required then none
    else some (.countMismatch required signatures.length)
  if tx.Signed then (tx, some .alreadySigned)
  else
    match (if lengthFirst then lengthFailure.orElse fun _ => countFailure
           else countFailure.orElse fun _ => lengthFailure) with
    | some e => (tx, some e)
    | none => ({ tx with Signed := true, Signatures := signatures }, none)

end Btc

/-! ## Package `blockchain/solana` -/

namespace Solana

/-- A `solana.PublicKey`: the 32 bytes of the key. -/
abbrev PublicKey := List Nat

/-- The zero key, for which `PublicKey.IsZero` holds. -/
def zeroPublicKey : PublicKey := List.replicate 32 0

/-- The method `PublicKey.IsZero`. -/
def PublicKey.IsZero (p : PublicKey) : Bool := decide (p = zeroPublicKey)

/-- An entry of `TxInput.SourceTokenAccounts`. -/
structure TokenAccount where
  Account : PublicKey
  Balance : BigInt
deriving DecidableEq, Repr

/-- The instruction variant `tx_input.TxInput`. -/
structure TxInput where
  RecentBlockHash : List Nat
  ToIsATA : Bool
  ShouldCreateATA : Bool
  SourceTokenAccounts : List TokenAccount
  PrioritizationFee : BigInt
  TokenProgram : PublicKey
deriving DecidableEq, Repr

/-- The instructions the builder emits, each with the arguments it was constructed from.
`createAta` keeps the `AccountMetaSlice` of the `ata.Create` instruction;
`transferChecked` is `token.NewTransferCheckedInstruction(amount, decimals, source, mint,
destination, owner, signers)`; `setComputeUnitPrice` is
`compute_budget.NewSetComputeUnitPriceInstruction(fee)`; `systemTransfer` is
`system.NewTransferInstruction(lamports, from, to)`. -/
inductive Instruction where
  | createAta (payer wallet mint : PublicKey) (accountMetaSlice : List PublicKey)
  | transferChecked (amount : Nat) (decimals : Nat) (source mint destination owner : PublicKey)
      (signers : List PublicKey)
  | setComputeUnitPrice (microLamports : Nat)
  | systemTransfer (lamports : Nat) (fromAccount toAccount : PublicKey)
deriving DecidableEq, Repr

/-- The arguments from which `solana.NewTransaction` assembled the transaction, and the value
of the package variable `token.ProgramID` at that moment (the program the token
instructions are addressed to). -/
structure SolTx where
  Instructions : List Instruction
  RecentBlockHash : List Nat
  FeePayer : Option PublicKey
  TokenProgramID : PublicKey
deriving DecidableEq, Repr

/-- A `tx.Tx` of the Solana package. -/
structure Tx where
  SolTx : SolTx
deriving DecidableEq, Repr

/-- The outcome of a Go call returning `(T, error)`: a value with a nil error, a nil value
with an error, or a run-time panic. -/
inductive Outcome (α : Type) where
  | ok (a : α)
  | err (e : String)
  | panic (msg : String)
deriving DecidableEq, Repr

/-- Sequencing of Go statements: an error return or a panic ends the function. -/
def Outcome.bind {α β : Type} (x : Outcome α) (f : α → Outcome β) : Outcome β :=
  match x with
  | .ok a => f a
  | .err e => .err e
  | .panic m => .panic m

/-- An external call returning `(T, error)`. -/
def Outcome.ofExcept {α : Type} : Except String α → Outcome α
  | .ok a => .ok a
  | .error e => .err e

/-- What the builder calls outside the sources: the `solana-go` library, the helper
`solana_types.FindAssociatedTokenAddress` and the method
`TxInput.GetLimitedPrioritizationFee`.
`sdkFindAssociatedTokenAddress` is the derivation `ata.Create.Build` performs itself;
`checkTransaction` is the error, if any, with which `solana.NewTransaction` refuses its
arguments. -/
structure Library where
  PublicKeyFromBase58 : String → Except String PublicKey
  FindAssociatedTokenAddress : String → String → PublicKey → Except String String
  sdkFindAssociatedTokenAddress : PublicKey → PublicKey → PublicKey
  SystemProgramID : PublicKey
  TokenProgramID : PublicKey
  SysVarRentPubkey : PublicKey
  GetLimitedPrioritizationFee : TxInput → ChainConfig → Nat
  checkTransaction : List Instruction → List Nat → Option PublicKey → Option String

/-- The function `solana.MustPublicKeyFromBase58`, which panics when the string does not parse. -/
def Library.MustPublicKeyFromBase58 (lib : Library) (s : String) : Outcome PublicKey :=
  match lib.PublicKeyFromBase58 s with
  | .ok k => .ok k
  | .error e => .panic e

/-- The constant `MaxTokenTransfers`. -/
def MaxTokenTransfers : Nat := 20

/-- The builder `TxBuilder`. -/
structure TxBuilder where
  Chain : ChainConfig
deriving DecidableEq, Repr

/-- The conversion `uint8(decimals)`. -/
def uint8 (n : Int) : Nat := (n % 256).toNat

/-- The accounts `NewTokenTransfer` resolves before it builds instructions. -/
structure Accounts where
  accountFrom : PublicKey
  accountContract : PublicKey
  accountTo : PublicKey
  ataFrom : PublicKey
  ataTo : PublicKey
  decimals : Int
deriving DecidableEq, Repr

/-- Lines 52 to 95 of `NewTokenTransfer`: the asset and contract checks and the resolution of
the sender, contract, recipient and token accounts. -/
def resolveAccounts (lib : Library) (args : TransferArgs) (txInput : TxInput) :
    Outcome Accounts :=
  match args.Asset with
  | none => .err "asset missing"
  | some asset =>
    let contract := asset.GetContract
    if contract = "" then .err "contract missing"
    else
      let decimals := asset.GetDecimals
      (Outcome.ofExcept (lib.PublicKeyFromBase58 args.From)).bind fun accountFrom =>
      (Outcome.ofExcept (lib.PublicKeyFromBase58 contract)).bind fun accountContract =>
      (Outcome.ofExcept (lib.PublicKeyFromBase58 args.To)).bind fun accountTo =>
      (Outcome.ofExcept
        (lib.FindAssociatedTokenAddress args.To contract txInput.TokenProgram)).bind
        fun ataFromStr =>
      (lib.MustPublicKeyFromBase58 ataFromStr).bind fun ataFrom0 =>
      let ataFrom :=
        match txInput.SourceTokenAccounts with
        | [] => ataFrom0
        | first :: _ => first.Account
      if txInput.ToIsATA then
        .ok { accountFrom := accountFrom, accountContract := accountContract,
              accountTo := accountTo, ataFrom := ataFrom, ataTo := accountTo,
              decimals := decimals }
      else
        (Outcome.ofExcept
          (lib.FindAssociatedTokenAddress args.To contract txInput.TokenProgram)).bind
          fun ataToStr =>
        (lib.MustPublicKeyFromBase58 ataToStr).bind fun ataTo =>
        .ok { accountFrom := accountFrom, accountContract := accountContract,
              accountTo := accountTo, ataFrom := ataFrom, ataTo := ataTo,
              decimals := decimals }

/-- Lines 99 to 103: the value of `token.ProgramID` while the instructions are built. -/
def overriddenProgramID (originalTokenId : PublicKey) (txInput : TxInput) : PublicKey :=
  if !PublicKey.IsZero txInput.TokenProgram && !decide (txInput.TokenProgram = originalTokenId)
  then txInput.TokenProgram else originalTokenId

/-- Replace the element at index `i` of a slice; an index out of range is a Go panic and is
not reached here, the slice of `ata.Create` having seven entries. -/
def setAt (l : List PublicKey) (i : Nat) (v : PublicKey) : List PublicKey :=
  l.set i v

/-- Lines 105 to 120: the optional create-account instruction with its entries 1 and 5
replaced. -/
def createAtaInstructions (lib : Library) (txInput : TxInput) (acc : Accounts) :
    List Instruction :=
  if txInput.ShouldCreateATA then
    let built : List PublicKey :=
      [ acc.accountFrom,
        lib.sdkFindAssociatedTokenAddress acc.accountTo acc.accountContract,
        acc.accountTo, acc.accountContract, lib.SystemProgramID, lib.TokenProgramID,
        lib.SysVarRentPubkey ]
    [ .createAta acc.accountFrom acc.accountTo acc.accountContract
        (setAt (setAt built 1 acc.ataTo) 5 txInput.TokenProgram) ]
  else []

/-- The transfer instruction of lines 124 to 132 and 148 to 156, from the given source. -/
def transferInstruction (acc : Accounts) (amount : Nat) (source : PublicKey) : Instruction :=
  .transferChecked amount (uint8 acc.decimals) source acc.accountContract acc.ataTo
    acc.accountFrom []

/-- The loop of lines 140 to 166 over the remaining source token accounts: the instruction
list and the remaining balance when the loop ends (by `break` or by exhausting the accounts),
or the error returned from inside it. -/
def spendLoop (acc : Accounts) :
    List TokenAccount → BigInt → List Instruction → Outcome (List Instruction × BigInt)
  | [], remainingBalanceToSend, instructions => .ok (instructions, remainingBalanceToSend)
  | tokenAcc :: rest, remainingBalanceToSend, instructions =>
    let amountToSend :=
      if tokenAcc.Balance < remainingBalanceToSend then tokenAcc.Balance
      else remainingBalanceToSend
    let amountToSendUint := BigInt.Uint64 amountToSend
    let instructions := instructions ++ [transferInstruction acc amountToSendUint tokenAcc.Account]
    let remainingBalanceToSend := remainingBalanceToSend - amountToSend
    if remainingBalanceToSend ≤ 0 then .ok (instructions, remainingBalanceToSend)
    else if instructions.length > MaxTokenTransfers then
      .err "cannot send total amount in single tx, try sending smaller amount"
    else spendLoop acc rest remainingBalanceToSend instructions

/-- Lines 121 to 170: the transfer instructions appended to `instructions`. -/
def transferInstructions (args : TransferArgs) (txInput : TxInput) (acc : Accounts)
    (instructions : List Instruction) : Outcome (List Instruction) :=
  if txInput.SourceTokenAccounts.length ≤ 1 then
    .ok (instructions ++ [transferInstruction acc (BigInt.Uint64 args.Amount) acc.ataFrom])
  else
    (spendLoop acc txInput.SourceTokenAccounts args.Amount instructions).bind fun r =>
      if r.2 > 0 then
        .err "cannot send requested amount in single tx, try sending smaller amount"
      else .ok r.1

/-- Lines 172 to 178: the prioritization fee instruction, appended last when positive. -/
def withPriorityFee (lib : Library) (b : TxBuilder) (txInput : TxInput)
    (instructions : List Instruction) : List Instruction :=
  let priorityFee := lib.GetLimitedPrioritizationFee txInput b.Chain
  if priorityFee > 0 then instructions ++ [.setComputeUnitPrice priorityFee] else instructions

/-- Lines 105 to 178 of `NewTokenTransfer`: the whole instruction list. -/
def tokenInstructions (lib : Library) (b : TxBuilder) (args : TransferArgs)
    (txInput : TxInput) (acc : Accounts) : Outcome (List Instruction) :=
  (transferInstructions args txInput acc (createAtaInstructions lib txInput acc)).bind
    fun instructions => .ok (withPriorityFee lib b txInput instructions)

/-- The method `buildSolanaTx`, called while `token.ProgramID` has the value `programID`. -/
def buildSolanaTx (lib : Library) (programID : PublicKey) (instructions : List Instruction)
    (feePayer : Option PublicKey) (txInput : TxInput) : Outcome Tx :=
  match lib.checkTransaction instructions txInput.RecentBlockHash feePayer with
  | some e => .err e
  | none =>
    .ok { SolTx := { Instructions := instructions, RecentBlockHash := txInput.RecentBlockHash,
                     FeePayer := feePayer, TokenProgramID := programID } }

/-- Lines 180 to 188: the fee payer, the explicit one when given and the sender otherwise. -/
def resolveFeePayer (lib : Library) (args : TransferArgs) (acc : Accounts) :
    Outcome PublicKey :=
  match args.FeePayer with
  | some fee => Outcome.ofExcept (lib.PublicKeyFromBase58 fee)
  | none => .ok acc.accountFrom

/-- The body of `NewTokenTransfer` after the type assertion, with `token.ProgramID` holding
`originalTokenId` on entry. -/
def tokenTransferBody (lib : Library) (b : TxBuilder) (originalTokenId : PublicKey)
    (args : TransferArgs) (txInput : TxInput) : Outcome Tx :=
  (resolveAccounts lib args txInput).bind fun acc =>
  (tokenInstructions lib b args txInput acc).bind fun instructions =>
  (resolveFeePayer lib args acc).bind fun feePayer =>
  buildSolanaTx lib (overriddenProgramID originalTokenId txInput) instructions (some feePayer)
    txInput

end Solana

/-! ## Package `blockchain/evm/client` -/

namespace Evm

/-- The account variant `tx_input.TxInput`. -/
structure TxInput where
  Nonce : Nat
  ChainId : BigInt
  GasFeeCap : BigInt
  GasTipCap : BigInt
  GasLimit : Nat
deriving DecidableEq, Repr

/-- The entry of the pending pool for the sender, as `InfoFor` returns it. -/
structure PendingTx where
  Hash : String
  MaxFeePerGas : BigInt
  MaxPriorityFeePerGas : BigInt
deriving DecidableEq, Repr

/-- An `ethereum.CallMsg`. -/
structure CallMsg where
  From : String
  To : Option String
  Gas : Nat
  GasFeeCap : BigInt
  GasTipCap : BigInt
  Value : BigInt
  Data : List Nat
deriving DecidableEq, Repr

/-- The fields of the transaction `trans.EthTx` that the simulation reads. -/
structure EthTx where
  To : Option String
  Value : BigInt
  Data : List Nat
deriving DecidableEq, Repr

/-- The external node as one call of the client observes it. `EstimateGas n msg` is the
answer to the `n`-th estimation request of the call (counted from 0);
`HeaderByNumber` answers with the base fee of the latest header, `none` when the header
has a nil `BaseFee`; `TxPoolContentFrom` answers with the lookup `InfoFor`. -/
structure EthClient where
  FromHex : Address → Except String String
  NonceAt : String → Except String Nat
  ChainID : Except String BigInt
  HeaderByNumber : Except String (Option BigInt)
  SuggestGasTipCap : Except String BigInt
  TxPoolContentFrom : String → Except String (String → Option PendingTx)
  EstimateGas : Nat → CallMsg → Except String Nat
  FetchNativeBalance : Address → Except String BigInt

/-- The client. `DEFAULT_GAS_TIP`, `tx_input.NewTxInput`, `BigInt.ApplyGasPriceMultiplier`
(for the chain of the client) and `xc.MultiplyByFloat(·, 1.15)` are declared outside the
sources and are taken as given. -/
structure Client where
  Chain : ChainConfig
  EthClient : EthClient
  DEFAULT_GAS_TIP : Nat
  NewTxInput : TxInput
  ApplyGasPriceMultiplier : BigInt → BigInt
  MultiplyByFloat115 : BigInt → BigInt

/-- Go's `strings.Contains` on the characters of the two strings. -/
def containsChars (s sub : List Char) : Bool :=
  s.tails.any fun t => sub.isPrefixOf t

/-- Go's `strings.Contains`. -/
def stringsContains (s sub : String) : Bool :=
  containsChars s.data sub.data

/-- The method `DefaultGasLimit`. -/
def Client.DefaultGasLimit (client : Client) (asset : Option IAsset) : Nat :=
  let gasLimit : Nat := 90000
  let gasLimit : Nat :=
    match asset with
    | some a => if a.GetContract ≠ "" then 500000 else gasLimit
    | none => gasLimit
  if client.Chain.Chain = ArbETH then 4000000 else gasLimit

/-- The address `fromAddr, _ := address.FromHex(from)`: the zero address on error. -/
def Client.fromAddr (client : Client) (sender : Address) : String :=
  match client.EthClient.FromHex sender with
  | .ok a => a
  | .error _ => "0x0000000000000000000000000000000000000000"

/-- Lines 75 to 89 of `SimulateGasWithLimit`: the padding of a successful estimate, which is
the value of `gasLimit` when line 91 tests it. `gasLimit` is a `uint64`, so the additions
wrap. One whole native unit, `oneEth`, is 1 shifted by the decimals of the chain. -/
def Client.paddedGasLimit (client : Client) (sender : Address) (msg : CallMsg)
    (gasLimit : Nat) : Nat :=
  if msg.Data.length > 0 then
    let gasLimit := (gasLimit + 1000) % 2 ^ 64
    let oneEth : BigInt := 10 ^ client.Chain.Decimals.toNat
    match client.EthClient.FetchNativeBalance sender with
    | .ok amountEth =>
      if amountEth ≥ oneEth then (gasLimit + 70000) % 2 ^ 64 else gasLimit
    | .error _ => gasLimit
  else gasLimit

/-- Lines 75 to 94 of `SimulateGasWithLimit`: the padding of a successful estimate and the
replacement of a zero result. -/
def Client.padGasLimit (client : Client) (sender : Address) (msg : CallMsg)
    (asset : Option IAsset) (gasLimit : Nat) : Nat :=
  let gasLimit : Nat := client.paddedGasLimit sender msg gasLimit
  if gasLimit = 0 then client.DefaultGasLimit asset else gasLimit

/-- Lines 42 to 59 of `SimulateGasWithLimit`: the first estimation request and, when its
error contains "gas limit is too high", the second one under the lower ceiling. The result is
the answer in effect, the message as it then stands, and the number of requests made. -/
def Client.estimateWithCeiling (client : Client) (sender : Address) (trans : EthTx) :
    Except String Nat × CallMsg × Nat :=
  let msg : CallMsg :=
    { From := client.fromAddr sender, To := trans.To, Gas := 8000000, GasFeeCap := 0,
      GasTipCap := 0, Value := trans.Value, Data := trans.Data }
  match client.EthClient.EstimateGas 0 msg with
  | .ok gasLimit => (.ok gasLimit, msg, 1)
  | .error e =>
    if stringsContains e "gas limit is too high" then
      let msg : CallMsg := { msg with Gas := 1000000 }
      (client.EthClient.EstimateGas 1 msg, msg, 2)
    else (.error e, msg, 1)

/-- The method `SimulateGasWithLimit`: the pair `(uint64, error)` it returns. -/
def Client.SimulateGasWithLimit (client : Client) (sender : Address) (trans : EthTx)
    (asset : Option IAsset) : Nat × Option String :=
  let first := client.estimateWithCeiling sender trans
  let msg := first.2.1
  match first.1 with
  | .ok gasLimit => (client.padGasLimit sender msg asset gasLimit, none)
  | .error e =>
    if stringsContains e "insufficient funds" then
      -- try getting gas estimate without sending funds
      let msg : CallMsg := { msg with Value := 0 }
      match client.EthClient.EstimateGas first.2.2 msg with
      | .ok gasLimit => (client.padGasLimit sender msg asset gasLimit, none)
      | .error e2 => (0, some ("could not simulate tx: " ++ e2))
    else if stringsContains e "less than the block's baseFeePerGas" then
      -- this estimate does not work with hardhat -> use defaults
      (client.DefaultGasLimit asset, none)
    else (0, some ("could not simulate tx: " ++ e))

/-- The method `GetNonce`. -/
def Client.GetNonce (client : Client) (sender : Address) : Except String Nat :=
  match client.EthClient.FromHex sender with
  | .error e => .error ("bad to address '" ++ sender ++ "': " ++ e)
  | .ok fromAddr => client.EthClient.NonceAt fromAddr

/-- What `FetchUnsimulatedInput` does: it returns `(result, err)`, or panics. -/
inductive FetchOutcome where
  | ret (result : TxInput) (err : Option String)
  | panic (msg : String)
deriving DecidableEq, Repr

/-- Lines 192 to 221 of `FetchUnsimulatedInput`: the adjustment to a pending transaction of
the sender, when the pool is visible and holds one. -/
def Client.adjustToPending (client : Client) (sender : Address) (result : TxInput) : TxInput :=
  match client.EthClient.TxPoolContentFrom (client.fromAddr sender) with
  | .error _ => result
  | .ok pendingTxInfo =>
    match pendingTxInfo sender with
    | none => result
    | some pending =>
      let minMaxFee := client.MultiplyByFloat115 pending.MaxFeePerGas
      let minPriorityFee := client.MultiplyByFloat115 pending.MaxPriorityFeePerGas
      let result : TxInput :=
        if result.GasFeeCap < minMaxFee then { result with GasFeeCap := minMaxFee } else result
      if result.GasTipCap < minPriorityFee then { result with GasTipCap := minPriorityFee }
      else result

/-- The method `FetchUnsimulatedInput`. -/
def Client.FetchUnsimulatedInput (client : Client) (sender : Address) : FetchOutcome :=
  let result : TxInput :=
    { client.NewTxInput with GasTipCap := (client.DEFAULT_GAS_TIP : Int), GasFeeCap := 0 }
  match client.GetNonce sender with
  | .error e => .ret result (some e)
  | .ok nonce =>
    let result : TxInput := { result with Nonce := nonce }
    match client.EthClient.ChainID with
    | .error e => .ret result (some ("could not lookup chain_id: " ++ e))
    | .ok chainId =>
      let result : TxInput := { result with ChainId := chainId }
      if !client.Chain.NoGasFees then
        match client.EthClient.HeaderByNumber with
        | .error e => .ret result (some e)
        | .ok latestBaseFee =>
          match client.EthClient.SuggestGasTipCap with
          | .error e => .ret result (some e)
          | .ok gasTipCap =>
            match latestBaseFee with
            | none => .panic "invalid memory address or nil pointer dereference"
            | some baseFee =>
              let result : TxInput := { result with GasFeeCap := baseFee }
              let result : TxInput :=
                { result with GasTipCap := client.ApplyGasPriceMultiplier gasTipCap }
              let result : TxInput :=
                if result.GasFeeCap < result.GasTipCap then
                  { result with GasFeeCap := result.GasTipCap }
                else result
              .ret (client.adjustToPending sender result) none
      else
        .ret { result with GasTipCap := 0 } none

end Evm

/-! ## The interface `xc.TxInput` and the entry points of the builders -/

/-- The interface `xc.TxInput` with its dynamic types: the input of the Bitcoin, EVM or
Solana package, or that of another chain family (named by its blockchain). -/
inductive TxInput where
  | btc (i : Btc.TxInput)
  | evm (i : Evm.TxInput)
  | solana (i : Solana.TxInput)
  | other (blockchain : String)
deriving DecidableEq, Repr

/-- The dynamic (concrete) types of the values of the interface `xc.TxInput`: the pointer type
of the Bitcoin, EVM or Solana package, or that of another chain family. -/
inductive InputType where
  | btc
  | evm
  | solana
  | other (blockchain : String)
deriving DecidableEq, Repr

/-- The dynamic type of an input. -/
def TxInput.dynamicType : TxInput → InputType
  | .btc _ => .btc
  | .evm _ => .evm
  | .solana _ => .solana
  | .other blockchain => .other blockchain

/-- A type argument for the parameter `T TxInput` of `SameTxInputTypes`: a concrete type, or
an interface type that implements `TxInput`, known by the concrete types implementing it. -/
inductive TypeArgument where
  | concrete (t : InputType)
  | interface (implementedBy : InputType → Bool)

/-- The comma-ok type assertion `_, ok := input.(T)` on an interface value, `none` being the
nil interface: for a concrete `T` the dynamic type of the value must be `T`, for an interface
`T` it must implement `T`; the nil interface passes neither. -/
def assertsType (T : TypeArgument) : Option TxInput → Bool
  | none => false
  | some input =>
    match T with
    | .concrete t => decide (input.dynamicType = t)
    | .interface implementedBy => implementedBy input.dynamicType

/-- The function `SameTxInputTypes[T TxInput](as T, inputs ...TxInput)`; the value `as` is
not read, only its type `T` is. -/
def SameTxInputTypes (T : TypeArgument) (as : Option TxInput) :
    List (Option TxInput) → Bool
  | [] => true
  | input :: rest => if !assertsType T input then false else SameTxInputTypes T as rest

namespace Btc

/-- The zero value `&tx.Tx{}`. -/
def zeroTx : Tx :=
  { MsgTx := { Version := 0, TxIn := [], TxOut := [], LockTime := 0 },
    From := "", To := "", Amount := 0,
    Input := { UnspentOutputs := [], GasPricePerByte := 0 }, Recipients := [] }

/-- The method `TxBuilder.NewNativeTransfer` of the Bitcoin builder. -/
def TxBuilder.NewNativeTransfer (txBuilder : TxBuilder) (args : TransferArgs)
    (input : Crosschain.TxInput) : BuildResult :=
  match input with
  | .btc local_input => buildNative txBuilder args local_input
  | _ => { tx := some zeroTx, err := some .notBitcoinInput }

/-- The method `TxBuilder.NewTokenTransfer` of the Bitcoin builder. -/
def TxBuilder.NewTokenTransfer (_txBuilder : TxBuilder) (_args : TransferArgs)
    (_input : Crosschain.TxInput) : BuildResult :=
  { tx := none, err := some .notImplemented }

/-- The method `TxBuilder.NewTransfer` of the Bitcoin builder. -/
def TxBuilder.NewTransfer (txBuilder : TxBuilder) (args : TransferArgs)
    (input : Crosschain.TxInput) : BuildResult :=
  match txBuilder.Asset with
  | .chain _ => txBuilder.NewNativeTransfer args input
  | .token _ => txBuilder.NewTokenTransfer args input
  | .other typeName _ _ _ => { tx := none, err := some (.newTransferNotImplemented typeName) }

end Btc

namespace Solana

/-- The function `token.SetProgramID`: the value of the package variable `token.ProgramID`
after the call. -/
def SetProgramID (_current new : PublicKey) : PublicKey := new

/-- The value of the package variable `token.ProgramID` when `NewTokenTransfer`, entered with
the value `programID` and an instruction input, has returned or panicked. A return before
line 99 leaves the variable untouched. From line 100 on the deferred
`token.SetProgramID(originalTokenId)` is registered; line 102 may set the variable to the
token program of the input; the deferred call runs when the function returns and when it
panics. -/
def programIDAfter (lib : Library) (programID : PublicKey) (args : TransferArgs)
    (txInput : TxInput) : PublicKey :=
  match resolveAccounts lib args txInput with
  | .ok _ =>
    let originalTokenId := programID
    let during := overriddenProgramID originalTokenId txInput
    SetProgramID during originalTokenId
  | .err _ => programID
  | .panic _ => programID

/-- The method `TxBuilder.NewTokenTransfer` of the Solana builder, called while the package
variable `token.ProgramID` holds `programID`: the outcome and the value of the variable
afterwards. The type assertion `input.(*tx_input.TxInput)` panics on another variant, before
anything else is done. -/
def TxBuilder.NewTokenTransfer (lib : Library) (b : TxBuilder) (programID : PublicKey)
    (args : TransferArgs) (input : Crosschain.TxInput) : Outcome Tx × PublicKey :=
  match input with
  | .solana txInput =>
    let originalTokenId := programID
    (tokenTransferBody lib b originalTokenId args txInput,
      programIDAfter lib programID args txInput)
  | _ => (.panic "interface conversion: types.TxInput is not *tx_input.TxInput", programID)

/-- The method `TxBuilder.NewNativeTransfer` of the Solana builder. -/
def TxBuilder.NewNativeTransfer (lib : Library) (b : TxBuilder) (programID : PublicKey)
    (args : TransferArgs) (input : Crosschain.TxInput) : Outcome Tx :=
  match input with
  | .solana txInput =>
    (Outcome.ofExcept (lib.PublicKeyFromBase58 args.From)).bind fun accountFrom =>
    (Outcome.ofExcept (lib.PublicKeyFromBase58 args.To)).bind fun accountTo =>
    let instructions : List Instruction :=
      [ .systemTransfer (BigInt.Uint64 args.Amount) accountFrom accountTo ]
    buildSolanaTx lib programID (withPriorityFee lib b txInput instructions) none txInput
  | _ => .panic "interface conversion: types.TxInput is not *tx_input.TxInput"

/-- The method `TxBuilder.NewTransfer` of the Solana builder. -/
def TxBuilder.NewTransfer (lib : Library) (b : TxBuilder) (programID : PublicKey)
    (args : TransferArgs) (input : Crosschain.TxInput) : Outcome Tx × PublicKey :=
  let asset : IAsset :=
    match args.Asset with
    | some a => a
    | none => .chain b.Chain
  match asset with
  | .token _ => b.NewTokenTransfer lib programID args input
  | _ => (b.NewNativeTransfer lib programID args input, programID)

end Solana

/-! ## Package `blockchain/tron` -/

namespace Tron

/-- The digit `hex.EncodeToString` writes for a value below 16. -/
def hexDigit (n : Nat) : Char :=
  "0123456789abcdef".data.getD n '0'

/-- The value `hex.DecodeString` reads from a digit, of either case. -/
def hexValue (c : Char) : Option Nat :=
  if '0' ≤ c ∧ c ≤ '9' then some (c.toNat - 48)
  else if 'a' ≤ c ∧ c ≤ 'f' then some (c.toNat - 87)
  else if 'A' ≤ c ∧ c ≤ 'F' then some (c.toNat - 55)
  else none

/-- The characters of `hex.EncodeToString`: two digits per byte. -/
def encodeChars : List Nat → List Char
  | [] => []
  | b :: rest => hexDigit (b / 16 % 16) :: hexDigit (b % 16) :: encodeChars rest

/-- The function `hex.EncodeToString`. -/
def EncodeToString (src : List Nat) : String :=
  String.mk (encodeChars src)

/-- The bytes `hex.DecodeString` reads, `none` for an odd length or a character that is no
digit. -/
def decodeChars : List Char → Option (List Nat)
  | [] => some []
  | [_] => none
  | a :: b :: rest =>
    match hexValue a, hexValue b, decodeChars rest with
    | some x, some y, some r => some ((x * 16 + y) :: r)
    | _, _, _ => none

/-- The function `hex.DecodeString`. -/
def DecodeString (s : String) : Except String (List Nat) :=
  match decodeChars s.data with
  | some b => .ok b
  | none => .error "encoding/hex: invalid byte or odd length hex string"

/-- A parsed `btcec.PublicKey`, known by its uncompressed serialisation (65 bytes). -/
structure PublicKey where
  SerializeUncompressed : List Nat
deriving DecidableEq, Repr

/-- What the address functions call outside the sources: `btcec.ParsePubKey` (which returns
a nil key with its error), the legacy Keccak-256 of `sha3` and `base58.CheckEncode`. -/
structure Library where
  ParsePubKey : List Nat → Except String PublicKey
  Keccak256 : List Nat → List Nat
  CheckEncode : List Nat → Nat → String

/-- What an address function does: it returns `(address, err)`, or panics. -/
inductive AddressOutcome where
  | ret (address : Address) (err : Option String)
  | panic (msg : String)
deriving DecidableEq, Repr

/-- The function `GetNetWork`. -/
def GetNetWork : List Nat := [65]

/-- The function `GetAddressByPublicKey`. Line 25 calls `pk.SerializeUncompressed()` before
line 26 looks at the error of `ParsePubKey`; with an error `pk` is nil and the call
dereferences it. -/
def GetAddressByPublicKey (lib : Library) (pubKey : String) : AddressOutcome :=
  match DecodeString pubKey with
  | .error _ => .ret "" (some "failed to parse public key")
  | .ok pubKeyByte =>
    match lib.ParsePubKey pubKeyByte with
    | .error _ => .panic "runtime error: invalid memory address or nil pointer dereference"
    | .ok pk =>
      let uncompressedPubKey := pk.SerializeUncompressed
      let hash := (lib.Keccak256 (uncompressedPubKey.drop 1)).drop 12
      .ret (lib.CheckEncode hash (GetNetWork.headD 0)) none

/-- The method `AddressBuilder.GetAddressFromPublicKey`. -/
def GetAddressFromPublicKey (lib : Library) (publicKeyBytes : List Nat) : AddressOutcome :=
  if publicKeyBytes.length < 32 then .ret "" (some "invalid secp256k1 public key")
  else GetAddressByPublicKey lib (EncodeToString publicKeyBytes)

end Tron

/-! ## Package `blockchain/cosmos/builder` -/

namespace Cosmos

/-- The base input `tx_input.TxInput` of the Cosmos package; the staking builders hand it on
without reading it. -/
structure TxInput where
  AccountNumber : Nat
  Sequence : Nat
  GasLimit : Nat
deriving DecidableEq, Repr

/-- The dynamic types of the inputs the staking builders receive: `*tx_input.StakingInput`,
`*tx_input.UnstakingInput`, `*tx_input.WithdrawInput`, each embedding a `TxInput`, or another
type (named). -/
inductive StakeTxInput where
  | staking (i : TxInput)
  | unstaking (i : TxInput)
  | withdraw (i : TxInput)
  | other (typeName : String)
deriving DecidableEq, Repr

/-- The name `%T` prints for the dynamic type of an input. -/
def StakeTxInput.typeName : StakeTxInput → String
  | .staking _ => "*tx_input.StakingInput"
  | .unstaking _ => "*tx_input.UnstakingInput"
  | .withdraw _ => "*tx_input.WithdrawInput"
  | .other n => n

/-- The fields of `xcbuilder.StakeArgs` read through `GetFrom`, `GetAmount`, `GetAsset`,
`GetValidator`, `GetMemo` and `GetPublicKey`; an absent optional is `none`. -/
structure StakeArgs where
  From : Address
  Amount : BigInt
  Asset : Option IAsset
  Validator : Option String
  Memo : Option String
  PublicKey : Option (List Nat)
deriving DecidableEq, Repr

/-- A `types.Coin`. -/
structure Coin where
  Denom : String
  Amount : BigInt
deriving DecidableEq, Repr

/-- The protocol messages the staking builders construct. -/
inductive Msg where
  | MsgDelegate (DelegatorAddress ValidatorAddress : String) (Amount : Coin)
  | MsgUndelegate (DelegatorAddress ValidatorAddress : String) (Amount : Coin)
  | MsgWithdrawDelegatorReward (DelegatorAddress ValidatorAddress : String)
deriving DecidableEq, Repr

/-- The struct `txArgs`. -/
structure TxArgs where
  Memo : String
  FromPublicKey : List Nat
deriving DecidableEq, Repr

/-- The arguments from which `createTxWithMsg` assembled the transaction. -/
structure Tx where
  Input : TxInput
  Msg : Msg
  Args : TxArgs
  Fees : List Coin
deriving DecidableEq, Repr

/-- The builder `TxBuilder`. -/
structure TxBuilder where
  Chain : ChainConfig
deriving DecidableEq, Repr

/-- What the staking builders call outside the sources. `GetDenom` and `calculateFees` are
methods of the builder; `NewCoin denom amount` is
`types.NewCoin(denom, math.NewIntFromBigInt(amount.Int()))` of the Cosmos SDK, which panics
instead of returning an error; `checkTx` is the error, if any, that `createTxWithMsg`
returns. -/
structure Library where
  GetDenom : TxBuilder → IAsset → String
  NewCoin : String → BigInt → Solana.Outcome Coin
  calculateFees : TxBuilder → IAsset → BigInt → TxInput → Bool → List Coin
  checkTx : TxInput → Msg → TxArgs → List Coin → Option String

/-- The method `createTxWithMsg`. -/
def createTxWithMsg (lib : Library) (input : TxInput) (msg : Msg) (args : TxArgs)
    (fees : List Coin) : Solana.Outcome Tx :=
  match lib.checkTx input msg args fees with
  | some e => .err e
  | none => .ok { Input := input, Msg := msg, Args := args, Fees := fees }

/-- The asset of a staking call: that of the arguments, else the chain of the builder. -/
def assetOf (txBuilder : TxBuilder) (args : StakeArgs) : IAsset :=
  match args.Asset with
  | some a => a
  | none => .chain txBuilder.Chain

/-- The method `TxBuilder.Stake`. -/
def TxBuilder.Stake (lib : Library) (txBuilder : TxBuilder) (args : StakeArgs)
    (input : StakeTxInput) : Solana.Outcome Tx :=
  let asset := assetOf txBuilder args
  match input with
  | .staking stakeInput =>
    match args.Validator with
    | none => .err "validator address required to stake"
    | some validatorAddress =>
      let sender := args.From
      let denom := lib.GetDenom txBuilder asset
      let amount := args.Amount
      (lib.NewCoin denom amount).bind fun coin =>
      let msg := Msg.MsgDelegate sender validatorAddress coin
      let fees := lib.calculateFees txBuilder asset amount stakeInput false
      let memo := args.Memo.getD ""
      match args.PublicKey with
      | none =>
        .err ("associated public key for " ++ sender ++ " was not passed as an argument")
      | some pubkey =>
        createTxWithMsg lib stakeInput msg { Memo := memo, FromPublicKey := pubkey } fees
  | other =>
    .err ("invalid input " ++ other.typeName ++ ", expected *tx_input.StakingInput")

/-- The method `TxBuilder.Unstake`. -/
def TxBuilder.Unstake (lib : Library) (txBuilder : TxBuilder) (args : StakeArgs)
    (input : StakeTxInput) : Solana.Outcome Tx :=
  let asset := assetOf txBuilder args
  match input with
  | .unstaking stakeInput =>
    match args.Validator with
    | none => .err "validator address required to unstake"
    | some validatorAddress =>
      let sender := args.From
      let denom := lib.GetDenom txBuilder asset
      let amount := args.Amount
      (lib.NewCoin denom amount).bind fun coin =>
      let msg := Msg.MsgUndelegate sender validatorAddress coin
      let fees := lib.calculateFees txBuilder asset amount stakeInput false
      let memo := args.Memo.getD ""
      match args.PublicKey with
      | none =>
        .err ("associated public key for " ++ sender ++ " was not passed as an argument")
      | some pubkey =>
        createTxWithMsg lib stakeInput msg { Memo := memo, FromPublicKey := pubkey } fees
  | other =>
    .err ("invalid input " ++ other.typeName ++ ", expected *tx_input.UnstakingInput")

/-- The method `TxBuilder.Withdraw`. -/
def TxBuilder.Withdraw (lib : Library) (txBuilder : TxBuilder) (args : StakeArgs)
    (input : StakeTxInput) : Solana.Outcome Tx :=
  let asset := assetOf txBuilder args
  match input with
  | .withdraw withdrawInput =>
    match args.Validator with
    | none => .err "validator address required to unstake"
    | some validatorAddress =>
      let sender := args.From
      let amount := args.Amount
      let msg := Msg.MsgWithdrawDelegatorReward sender validatorAddress
      let fees := lib.calculateFees txBuilder asset amount withdrawInput false
      let memo := args.Memo.getD ""
      match args.PublicKey with
      | none =>
        .err ("associated public key for " ++ sender ++ " was not passed as an argument")
      | some pubkey =>
        createTxWithMsg lib withdrawInput msg { Memo := memo, FromPublicKey := pubkey } fees
  | other =>
    .err ("invalid input " ++ other.typeName ++ ", expected *tx_input.WithdrawInput")

end Cosmos

/-! ## Values used in the worked examples -/

namespace Btc

/-- A builder for the chain `chain` whose address decoder accepts every address and whose
script is the list of character codes of the address. -/
def exampleBuilder (chain : NativeAsset) : TxBuilder :=
  { Asset := .chain { Chain := chain, Network := "testnet", Decimals := 8, NoGasFees := false },
    Params := "testnet",
    AddressDecoder := fun a _ => .ok a,
    PayToAddrScript := fun a => .ok (a.data.map Char.toNat) }

/-- A transfer of `amount` from `"from"` to `"to"`. -/
def exampleArgs (amount : BigInt) : TransferArgs :=
  { From := "from", To := "to", Amount := amount, Asset := none, FeePayer := none }

/-- An input with one unspent output per value of `values` (nil hash, index 0) and fee rate
`gasPrice`, as the tests of the package build them. -/
def exampleInput (values : List BigInt) (gasPrice : BigInt) : TxInput :=
  { UnspentOutputs := values.map fun v => { Hash := [], Index := 0, Value := v },
    GasPricePerByte := gasPrice }

end Btc

namespace Solana

/-- The spend-down in the words of the spec, for comparison with `spendLoop`: "spend them in
the order given: for each, transfer min(remaining requested amount, that account's balance),
decrement remaining, stop once remaining reaches zero". The result lists, per transfer, the
account drawn from and the amount. -/
def spendDownSpec : List TokenAccount → BigInt → List (PublicKey × BigInt)
  | [], _ => []
  | tokenAcc :: rest, remaining =>
    let amount := min remaining tokenAcc.Balance
    (tokenAcc.Account, amount) ::
      (if remaining - amount ≤ 0 then [] else spendDownSpec rest (remaining - amount))

/-- The assumption on the helper `FindAssociatedTokenAddress` that the string it returns is
the base58 form of a key, so that `MustPublicKeyFromBase58` does not panic on it. -/
def Library.AtaParses (lib : Library) : Prop :=
  ∀ (owner contract : String) (program : PublicKey) (s : String),
    lib.FindAssociatedTokenAddress owner contract program = .ok s →
      ∃ k, lib.PublicKeyFromBase58 s = .ok k

/-- A key of 32 bytes made of the character codes of a string, zero-filled. -/
def exampleKey (s : String) : PublicKey :=
  (s.data.map Char.toNat ++ List.replicate 32 0).take 32

/-- A library in which a string parses to the key of its characters, the associated token
address of an owner for a contract is named `owner/contract`, the prioritization fee is capped
at 10000000 and a transaction needs at least one instruction. -/
def exampleLibrary : Library :=
  { PublicKeyFromBase58 := fun s => .ok (exampleKey s),
    FindAssociatedTokenAddress := fun owner contract _ => .ok (owner ++ "/" ++ contract),
    sdkFindAssociatedTokenAddress := fun wallet mint => (wallet.take 16 ++ mint.take 16),
    SystemProgramID := exampleKey "system",
    TokenProgramID := exampleKey "token",
    SysVarRentPubkey := exampleKey "rent",
    GetLimitedPrioritizationFee := fun i _ => min (BigInt.Uint64 i.PrioritizationFee) 10000000,
    checkTransaction := fun instructions _ _ =>
      if instructions.isEmpty then
        some "requires at-least one instruction to create a transaction"
      else none }

/-- A builder for an unnamed chain, as the tests of the client build it. -/
def exampleBuilder : TxBuilder :=
  { Chain := { Chain := "SOL", Network := "", Decimals := 9, NoGasFees := false } }

/-- A token transfer of `amount` of the contract `mint` (6 decimals) from `alice` to `bob`. -/
def exampleTokenArgs (amount : BigInt) : TransferArgs :=
  { From := "alice", To := "bob", Amount := amount,
    Asset := some (.token { Asset := "", Contract := "mint", Decimals := 6,
                            ChainConfig := exampleBuilder.Chain }),
    FeePayer := none }

/-- Source token accounts with the given balances; the `i`-th is the key of 32 bytes `i + 1`. -/
def exampleAccounts (balances : List BigInt) : List TokenAccount :=
  balances.enum.map fun p => { Account := List.replicate 32 (p.1 + 1), Balance := p.2 }

/-- An input listing source token accounts with the given balances, for an existing
destination token account, with no prioritization fee and the default token program. -/
def exampleTokenInput (balances : List BigInt) : TxInput :=
  { RecentBlockHash := List.replicate 32 7, ToIsATA := false, ShouldCreateATA := false,
    SourceTokenAccounts := exampleAccounts balances, PrioritizationFee := 0,
    TokenProgram := zeroPublicKey }

/-- Whether a call returned a value and a nil error. -/
def Outcome.isOk {α : Type} : Outcome α → Bool
  | .ok _ => true
  | _ => false

/-- The amounts of the `transferChecked` instructions of a list, in order. -/
def transferAmounts : List Instruction → List Nat
  | [] => []
  | .transferChecked amount _ _ _ _ _ _ :: rest => amount :: transferAmounts rest
  | _ :: rest => transferAmounts rest

/-- The source accounts of the `transferChecked` instructions of a list, in order. -/
def transferSources : List Instruction → List PublicKey
  | [] => []
  | .transferChecked _ _ source _ _ _ _ :: rest => source :: transferSources rest
  | _ :: rest => transferSources rest

end Solana

namespace Evm

/-- A node that answers every request of `FetchUnsimulatedInput` (nonce 7, chain 1, base
fee 100, suggested tip 10), shows `pending` in its pool for every sender and answers
estimation requests with `estimate`. -/
def exampleEthClient (pending : Option PendingTx)
    (estimate : Nat → CallMsg → Except String Nat) : EthClient :=
  { FromHex := fun a => .ok a,
    NonceAt := fun _ => .ok 7,
    ChainID := .ok 1,
    HeaderByNumber := .ok (some 100),
    SuggestGasTipCap := .ok 10,
    TxPoolContentFrom := fun _ => .ok fun _ => pending,
    EstimateGas := estimate,
    FetchNativeBalance := fun _ => .ok 0 }

/-- A client of a gas-charging chain over `exampleEthClient`, with the gas price multiplier 1
and the replacement margin 1.15 taken as `x * 115 / 100`. -/
def exampleClient (pending : Option PendingTx)
    (estimate : Nat → CallMsg → Except String Nat) : Client :=
  { Chain := { Chain := "ETH", Network := "", Decimals := 18, NoGasFees := false },
    EthClient := exampleEthClient pending estimate,
    DEFAULT_GAS_TIP := 20,
    NewTxInput := { Nonce := 0, ChainId := 0, GasFeeCap := 0, GasTipCap := 0, GasLimit := 0 },
    ApplyGasPriceMultiplier := fun x => x,
    MultiplyByFloat115 := fun x => x * 115 / 100 }

/-- A node whose first estimation fails for lack of funds and whose second, with zero value,
fails because the call reverts. -/
def revertingEstimate (n : Nat) (_msg : CallMsg) : Except String Nat :=
  if n = 0 then .error "insufficient funds for transfer" else .error "execution reverted"

/-- A node whose first estimation fails for lack of funds and whose second, with zero value,
answers 21000. -/
def recoveringEstimate (n : Nat) (_msg : CallMsg) : Except String Nat :=
  if n = 0 then .error "insufficient funds for transfer" else .ok 21000

/-- A transfer of value 5 with no call data. -/
def exampleEthTx : EthTx :=
  { To := some "0xrecipient", Value := 5, Data := [] }

end Evm

namespace Tron

/-- A library that accepts a key by its length and format byte alone (33 bytes starting with
2 or 3, or 65 bytes starting with 4), as `btcec.ParsePubKey` does before it validates the
point, and whose hash and encoding are stand-ins. -/
def exampleLibrary : Library :=
  { ParsePubKey := fun b =>
      if b.length = 33 ∧ (b.head? = some 2 ∨ b.head? = some 3) then
        .ok { SerializeUncompressed := 4 :: (b.drop 1 ++ List.replicate 32 0) }
      else if b.length = 65 ∧ b.head? = some 4 then .ok { SerializeUncompressed := b }
      else .error "malformed public key",
    Keccak256 := fun b => (b ++ List.replicate 32 0).take 32,
    CheckEncode := fun payload version => EncodeToString (version :: payload) }

end Tron

namespace Btc

/-- The arguments of `exampleArgs` with a token asset of the contract `token`. -/
def exampleTokenArgs (amount : BigInt) : TransferArgs :=
  { exampleArgs amount with
    Asset := some (.token { Asset := "BTC", Contract := "token", Decimals := 8,
                            ChainConfig := { Chain := "BTC", Network := "testnet",
                                             Decimals := 8, NoGasFees := false } }) }

end Btc

namespace Cosmos

/-- A library whose coin construction behaves as the Cosmos SDK documents it: `types.NewCoin`
"will panic if the amount is negative or if the denomination is invalid" (here: empty), and
`math.NewIntFromBigInt` panics on more than 256 bits. The denomination is `uatom`, the fee
2000 of it, and every transaction is accepted. -/
def exampleLibrary : Library :=
  { GetDenom := fun _ _ => "uatom",
    NewCoin := fun denom amount =>
      if amount.natAbs ≥ 2 ^ 256 then .panic "NewIntFromBigInt() out of bound"
      else if amount < 0 then .panic "negative coin amount"
      else if denom = "" then .panic "invalid denom"
      else .ok { Denom := denom, Amount := amount },
    calculateFees := fun _ _ _ _ _ => [{ Denom := "uatom", Amount := 2000 }],
    checkTx := fun _ _ _ _ => none }

/-- A builder for the chain ATOM. -/
def exampleBuilder : TxBuilder :=
  { Chain := { Chain := "ATOM", Network := "", Decimals := 6, NoGasFees := false } }

/-- Staking arguments for `amount` from `cosmos1sender` to the validator `cosmosvaloper1`,
with the given public key. -/
def exampleArgs (amount : BigInt) (publicKey : Option (List Nat)) : StakeArgs :=
  { From := "cosmos1sender", Amount := amount, Asset := none,
    Validator := some "cosmosvaloper1", Memo := none, PublicKey := publicKey }

/-- A base input. -/
def exampleInput : TxInput :=
  { AccountNumber := 1, Sequence := 2, GasLimit := 200000 }

end Cosmos

namespace Evm

/-- The condition of the second padding in the words of the claims: the native balance of
the sender was fetched without error and is at least one whole native unit. -/
def Client.canAffordPadding (client : Client) (sender : Address) : Bool :=
  match client.EthClient.FetchNativeBalance sender with
  | .ok amountEth => decide (amountEth ≥ (10 : Int) ^ client.Chain.Decimals.toNat)
  | .error _ => false

/-- A gas simulation succeeds with the external estimate `e` for the message `msg`: either
the estimation in effect after lines 54 to 59 answered `e`, or it failed with an error
containing "insufficient funds" and the retry with zero value answered `e`. -/
def Client.SucceedsWith (client : Client) (sender : Address) (trans : EthTx) (e : Nat)
    (msg : CallMsg) : Prop :=
  ((client.estimateWithCeiling sender trans).1 = .ok e ∧
      msg = (client.estimateWithCeiling sender trans).2.1) ∨
    (∃ err, (client.estimateWithCeiling sender trans).1 = .error err ∧
      stringsContains err "insufficient funds" = true ∧
      msg = { (client.estimateWithCeiling sender trans).2.1 with Value := 0 } ∧
      client.EthClient.EstimateGas (client.estimateWithCeiling sender trans).2.2 msg = .ok e)

/-- A node that answers every estimation request with `e`. -/
def constantEstimate (e : Nat) (_n : Nat) (_msg : CallMsg) : Except String Nat :=
  .ok e

/-- A contract call of value 0 with four bytes of call data. -/
def exampleCallTx : EthTx :=
  { To := some "0xcontract", Value := 0, Data := [169, 5, 156, 187] }

/-- The client of `exampleClient` on the chain `chain`. -/
def exampleClientOn (chain : NativeAsset) (estimate : Nat → CallMsg → Except String Nat) :
    Client :=
  { exampleClient none estimate with
    Chain := { Chain := chain, Network := "", Decimals := 18, NoGasFees := false } }

/-- A token asset of the contract `0xtoken`. -/
def exampleToken : IAsset :=
  .token { Asset := "USDC", Contract := "0xtoken", Decimals := 6,
           ChainConfig := { Chain := "ETH", Network := "", Decimals := 18, NoGasFees := false } }

end Evm

namespace Evm

/-- The freshly computed input of `FetchUnsimulatedInput` on a gas-charging chain, before the
pending pool is looked at: the fee cap is the base fee, raised to the tip cap when below it,
and the tip cap is the suggested tip after the gas price multiplier. -/
def Client.freshInput (client : Client) (nonce : Nat) (chainId baseFee tip : BigInt) :
    TxInput :=
  { client.NewTxInput with
    Nonce := nonce, ChainId := chainId,
    GasFeeCap :=
      if baseFee < client.ApplyGasPriceMultiplier tip then client.ApplyGasPriceMultiplier tip
      else baseFee,
    GasTipCap := client.ApplyGasPriceMultiplier tip }

end Evm

namespace Tron

/-- A compressed encoding that `exampleLibrary` parses: the format byte 2 and 32 bytes of the
first coordinate. -/
def exampleCompressed : List Nat := 2 :: List.replicate 32 1

/-- The uncompressed encoding of the key of `exampleCompressed` in `exampleLibrary`: the
format byte 4 and 32 bytes of each coordinate. -/
def exampleUncompressed : List Nat := 4 :: (List.replicate 32 1 ++ List.replicate 32 0)

end Tron

namespace Solana

/-- The destination accounts of the `transferChecked` instructions of a list, in order. -/
def transferDestinations : List Instruction → List PublicKey
  | [] => []
  | .transferChecked _ _ _ _ destination _ _ :: rest => destination :: transferDestinations rest
  | _ :: rest => transferDestinations rest

/-- The arguments of `exampleTokenArgs` with the explicit fee payer `carol`. -/
def exampleFeePayerArgs (amount : BigInt) : TransferArgs :=
  { exampleTokenArgs amount with FeePayer := some "carol" }

/-- A native transfer of `amount` from `alice` to `bob`. -/
def exampleNativeArgs (amount : BigInt) : TransferArgs :=
  { From := "alice", To := "bob", Amount := amount, Asset := none, FeePayer := none }

/-- The input of `exampleTokenInput` with the prioritization fee `fee`. -/
def exampleFeeInput (balances : List BigInt) (fee : BigInt) : TxInput :=
  { exampleTokenInput balances with PrioritizationFee := fee }

end Solana

namespace Evm

/-- The client of `exampleClient` on a chain that charges no gas. -/
def exampleFreeClient : Client :=
  { exampleClient none (constantEstimate 21000) with
    Chain := { Chain := "FREE", Network := "", Decimals := 18, NoGasFees := true } }

/-- Modelled from the spec: `xc.MultiplyByFloat(x, 1.15)` is declared outside the sources.
The spec calls the factor "the replacement margin (a fixed multiplier, e.g., ×1.15)" and an
amount an "arbitrary-precision ... integer", "never floating point". So for an amount that is
not negative the helper returns an integer less than one unit away from 1.15 times the
amount, whichever way it rounds; the inequalities are written free of fractions, multiplied
by 100. -/
def Client.AppliesMargin (client : Client) : Prop :=
  ∀ x : BigInt, 0 ≤ x →
    115 * x - 100 < 100 * client.MultiplyByFloat115 x ∧
      100 * client.MultiplyByFloat115 x < 115 * x + 100

/-- A pending transaction of maximum fee 333 and maximum priority fee 33, of which 1.15 times
is 382.95 and 37.95. -/
def examplePending : PendingTx :=
  { Hash := "0xabc", MaxFeePerGas := 333, MaxPriorityFeePerGas := 33 }

end Evm

namespace Btc

/-- The signature of 65 bytes the tests of the package sign with: the bytes 0 to 64. -/
def exampleSignature : TxSignature := List.range 65

end Btc

/-- An input of the Bitcoin package, of the EVM package and of the Solana package, as values
of the interface `xc.TxInput`. -/
def exampleInputs : List (Option TxInput) :=
  [ some (.btc { UnspentOutputs := [], GasPricePerByte := 1 }),
    some (.evm { Nonce := 0, ChainId := 1, GasFeeCap := 0, GasTipCap := 0, GasLimit := 0 }),
    some (.solana (Solana.exampleTokenInput [])) ]

/-! ## Theorems -/

/-! ### The Bitcoin builder -/

namespace Btc

/-- The per-input overhead of the size estimate: 300 on BCH, 255 elsewhere. -/
theorem estimatedTxBytesLength_eq (txBuilder : TxBuilder) (input : TxInput) :
    estimatedTxBytesLength txBuilder input =
      (if txBuilder.Asset.GetChain.Chain = BCH then (300 : Int) else 255) *
        (input.UnspentOutputs.length : Int) := by
  unfold estimatedTxBytesLength
  split <;> push_cast <;> rfl

/-- The input loop appends one `TxIn` per unspent output, in order. -/
theorem addInputs_eq (msgTx : MsgTx) (outs : List Output) :
    addInputs msgTx outs =
      { msgTx with TxIn := msgTx.TxIn ++ outs.map fun o => NewTxIn (copyHash o.Hash) o.Index } := by
  induction outs generalizing msgTx with
  | nil => simp [addInputs]
  | cons o rest ih => simp [addInputs, ih, MsgTx.AddTxIn]

/-- An insufficient-funds error of the output loop reports the estimated fee and the total
less the amount. -/
theorem addOutputs_notEnoughFunds (txBuilder : TxBuilder) (args : TransferArgs)
    (input : TxInput) (msgTx : MsgTx) (rs : List Recipient) (f d : BigInt) (k : Int)
    (h : addOutputs txBuilder args input msgTx rs = .error (.notEnoughFunds f d k)) :
    f = estimatedFee txBuilder input ∧ d = input.SumUtxo - args.Amount ∧
      k = txBuilder.Asset.GetDecimals := by
  induction rs generalizing msgTx with
  | nil => simp [addOutputs] at h
  | cons r rest ih =>
    unfold addOutputs at h
    split at h
    · simp at h
    · split at h
      · simp at h
      · dsimp only at h
        split at h
        · simp only [Except.error.injEq, BuildError.notEnoughFunds.injEq] at h
          exact ⟨h.1.symm, h.2.1.symm, h.2.2.symm⟩
        · exact ih _ h

/-- The output loop, when it succeeds, appends one output per recipient, in order, each
carrying the `int64` conversion of the recipient's value, which is not negative. -/
theorem addOutputs_ok (txBuilder : TxBuilder) (args : TransferArgs) (input : TxInput)
    (msgTx out : MsgTx) (rs : List Recipient)
    (h : addOutputs txBuilder args input msgTx rs = .ok out) :
    out.Version = msgTx.Version ∧ out.TxIn = msgTx.TxIn ∧ out.LockTime = msgTx.LockTime ∧
      (out.TxOut.map TxOut.Value) =
        msgTx.TxOut.map TxOut.Value ++ rs.map (fun r => BigInt.Int64 r.Value) ∧
      ∀ r ∈ rs, 0 ≤ BigInt.Int64 r.Value := by
  induction rs generalizing msgTx with
  | nil =>
    simp only [addOutputs, Except.ok.injEq] at h
    subst h
    simp
  | cons r rest ih =>
    unfold addOutputs at h
    split at h
    · simp at h
    · split at h
      · simp at h
      · dsimp only at h
        split at h
        · simp at h
        · rename_i hneg
          obtain ⟨h1, h2, h3, h4, h5⟩ := ih _ h
          refine ⟨h1, h2, h3, ?_, ?_⟩
          · simp [h4, MsgTx.AddTxOut]
          · intro r' hr'
            rcases List.mem_cons.mp hr' with rfl | hr'
            · exact not_lt.mp hneg
            · exact h5 r' hr'

/-- A successful build over a UTXO input returns the transaction assembled from the
recipients and the two loops. -/
theorem buildNative_ok (txBuilder : TxBuilder) (args : TransferArgs) (input : TxInput)
    (tx : Tx) (h : (buildNative txBuilder args input).tx = some tx) :
    (buildNative txBuilder args input).err = none ∧
      tx.Recipients = recipientsOf txBuilder args input ∧ tx.Input = input ∧
      addOutputs txBuilder args input (addInputs (NewMsgTx TxVersion) input.UnspentOutputs)
        (recipientsOf txBuilder args input) = .ok tx.MsgTx := by
  unfold buildNative at h ⊢
  dsimp only at h ⊢
  split at h
  · simp at h
  · rename_i m hm
    simp only [Option.some.injEq] at h
    subst h
    simp [hm]

/-- An error of a build over a UTXO input comes from the output loop. -/
theorem buildNative_err (txBuilder : TxBuilder) (args : TransferArgs) (input : TxInput)
    (e : BuildError) (h : (buildNative txBuilder args input).err = some e) :
    addOutputs txBuilder args input (addInputs (NewMsgTx TxVersion) input.UnspentOutputs)
      (recipientsOf txBuilder args input) = .error e := by
  unfold buildNative at h
  dsimp only at h
  split at h
  · rename_i e' he'
    simp only [Option.some.injEq] at h
    subst h
    exact he'
  · simp at h

/-- The value outputs of a transaction, in order. -/
theorem buildNative_values (txBuilder : TxBuilder) (args : TransferArgs) (input : TxInput)
    (tx : Tx) (h : (buildNative txBuilder args input).tx = some tx) :
    tx.MsgTx.TxOut.map TxOut.Value =
        [BigInt.Int64 args.Amount,
         BigInt.Int64 (input.SumUtxo - (args.Amount + estimatedFee txBuilder input))] ∧
      0 ≤ BigInt.Int64 args.Amount ∧
      0 ≤ BigInt.Int64 (input.SumUtxo - (args.Amount + estimatedFee txBuilder input)) ∧
      tx.MsgTx.TxIn = input.UnspentOutputs.map fun o => NewTxIn (copyHash o.Hash) o.Index := by
  obtain ⟨-, -, -, hout⟩ := buildNative_ok txBuilder args input tx h
  obtain ⟨-, hin, -, hval, hnn⟩ := addOutputs_ok _ _ _ _ _ _ hout
  refine ⟨?_, ?_, ?_, ?_⟩
  · simpa [addInputs_eq, NewMsgTx, recipientsOf] using hval
  · exact hnn ⟨args.To, args.Amount⟩ (by simp [recipientsOf])
  · exact hnn ⟨args.From, input.SumUtxo - (args.Amount + estimatedFee txBuilder input)⟩
      (by simp [recipientsOf])
  · simpa [addInputs_eq, NewMsgTx] using hin

/-- The `int64` conversion leaves a value of the `int64` range unchanged. -/
theorem int64_of_inRange (x : Int) (h0 : -(2 ^ 63) < x) (h1 : x < 2 ^ 63) :
    BigInt.Int64 x = x := by
  unfold BigInt.Int64 BigInt.Uint64 int64OfUint64 negInt64
  unfold BigInt
  dsimp only
  split_ifs <;> omega

/-- Within the `int64` range a successful build conserves value: the two outputs written to
the transaction and the fee add up to the total of the unspent outputs. -/
theorem buildNative_conserves_inRange (txBuilder : TxBuilder) (args : TransferArgs)
    (input : TxInput) (tx : Tx) (h : (buildNative txBuilder args input).tx = some tx)
    (ha0 : -(2 ^ 63 : Int) < args.Amount) (ha1 : args.Amount < (2 ^ 63 : Int))
    (hc0 : -(2 ^ 63 : Int) < input.SumUtxo - (args.Amount + estimatedFee txBuilder input))
    (hc1 : input.SumUtxo - (args.Amount + estimatedFee txBuilder input) < (2 ^ 63 : Int)) :
    (tx.MsgTx.TxOut.map TxOut.Value).sum + estimatedFee txBuilder input = input.SumUtxo := by
  obtain ⟨hv, -, -, -⟩ := buildNative_values txBuilder args input tx h
  rw [hv, int64_of_inRange _ ha0 ha1, int64_of_inRange _ hc0 hc1]
  simp only [List.sum_cons, List.sum_nil]
  ring

/-- A build over a UTXO input returns either a transaction or an error, never both. -/
theorem buildNative_tx_or_err (txBuilder : TxBuilder) (args : TransferArgs) (input : TxInput) :
    ((buildNative txBuilder args input).tx = none ↔ (buildNative txBuilder args input).err ≠ none) := by
  unfold buildNative
  dsimp only
  split <;> simp

/-- While the change stays within the `int64` range, insufficient funds make the build fail:
it returns an error and no transaction. -/
theorem buildNative_insufficient_inRange (txBuilder : TxBuilder) (args : TransferArgs)
    (input : TxInput)
    (hins : input.SumUtxo < args.Amount + estimatedFee txBuilder input)
    (hc0 : -(2 ^ 63 : Int) < input.SumUtxo - (args.Amount + estimatedFee txBuilder input)) :
    (buildNative txBuilder args input).tx = none ∧
      (buildNative txBuilder args input).err ≠ none := by
  have hnone : (buildNative txBuilder args input).tx = none := by
    cases htx : (buildNative txBuilder args input).tx with
    | none => rfl
    | some tx =>
      obtain ⟨-, -, hch, -⟩ := buildNative_values txBuilder args input tx htx
      have hneg : input.SumUtxo - (args.Amount + estimatedFee txBuilder input) < 0 := by
        linarith
      rw [int64_of_inRange _ hc0 (by linarith)] at hch
      linarith
  exact ⟨hnone, (buildNative_tx_or_err txBuilder args input).mp hnone⟩

/-- Claim C1, at a failing input. With one unspent output of value 10, fee rate 1 and amount
`2^63 - 1`, `NewNativeTransfer` returns a transaction and no error; the two outputs written to
it are `2^63 - 1` and `2^63 - 244`, the fee is 255, and outputs plus fee are `2^64 + 10`, not
the total 10 of the unspent outputs. -/
theorem newNativeTransfer_outputs_plus_fee_exceed_inputs :
    ∃ tx : Tx,
      (exampleBuilder "BTC").NewNativeTransfer (exampleArgs (2 ^ 63 - 1))
          (.btc (exampleInput [10] 1)) = { tx := some tx, err := none } ∧
        tx.MsgTx.TxOut.map TxOut.Value = [2 ^ 63 - 1, 2 ^ 63 - 244] ∧
        estimatedFee (exampleBuilder "BTC") (exampleInput [10] 1) = 255 ∧
        (exampleInput [10] 1).SumUtxo = 10 ∧
        (tx.MsgTx.TxOut.map TxOut.Value).sum +
            estimatedFee (exampleBuilder "BTC") (exampleInput [10] 1) ≠
          (exampleInput [10] 1).SumUtxo := by
  refine ⟨_, rfl, ?_, ?_, ?_, ?_⟩ <;> decide

/-- Claim C2, at a failing input. With one unspent output of value 5, fee rate 1 and amount
`2^63 - 1` the unspent total 5 is less than amount plus fee, yet `NewNativeTransfer` returns a
transaction and no error; its recipients hold the negative change `-(2^63) - 249`, written to
the transaction as the output value `2^63 - 249`. -/
theorem newNativeTransfer_succeeds_on_insufficient_funds :
    (exampleInput [5] 1).SumUtxo <
        (exampleArgs (2 ^ 63 - 1)).Amount + estimatedFee (exampleBuilder "BTC") (exampleInput [5] 1) ∧
      ∃ tx : Tx,
        (exampleBuilder "BTC").NewNativeTransfer (exampleArgs (2 ^ 63 - 1))
            (.btc (exampleInput [5] 1)) = { tx := some tx, err := none } ∧
          tx.Recipients.map Recipient.Value = [2 ^ 63 - 1, -(2 ^ 63) - 249] ∧
          tx.MsgTx.TxOut.map TxOut.Value = [2 ^ 63 - 1, 2 ^ 63 - 249] := by
  refine ⟨by decide, _, rfl, ?_, ?_⟩ <;> decide

/-- Claim C6. For every builder, transfer and UTXO input with `n` unspent outputs the fee is
`GasPricePerByte * (overhead * n)` with overhead 300 on BCH and 255 on every other chain; it
is the fee subtracted in the change of every transaction `NewNativeTransfer` returns and the
fee reported by every insufficient-funds error it returns. -/
theorem newNativeTransfer_fee_formula (txBuilder : TxBuilder) (args : TransferArgs)
    (input : TxInput) :
    estimatedFee txBuilder input =
        input.GasPricePerByte *
          ((if txBuilder.Asset.GetChain.Chain = BCH then (300 : Int) else 255) *
            (input.UnspentOutputs.length : Int)) ∧
      (∀ tx : Tx, (txBuilder.NewNativeTransfer args (.btc input)).tx = some tx →
        tx.Recipients.map Recipient.Value =
          [args.Amount,
           input.SumUtxo - (args.Amount + input.GasPricePerByte *
             ((if txBuilder.Asset.GetChain.Chain = BCH then (300 : Int) else 255) *
               (input.UnspentOutputs.length : Int)))]) ∧
      (∀ (f d : BigInt) (k : Int),
        (txBuilder.NewNativeTransfer args (.btc input)).err = some (.notEnoughFunds f d k) →
        f = input.GasPricePerByte *
          ((if txBuilder.Asset.GetChain.Chain = BCH then (300 : Int) else 255) *
            (input.UnspentOutputs.length : Int))) := by
  have hfee : estimatedFee txBuilder input =
      input.GasPricePerByte *
        ((if txBuilder.Asset.GetChain.Chain = BCH then (300 : Int) else 255) *
          (input.UnspentOutputs.length : Int)) := by
    rw [estimatedFee, estimatedTxBytesLength_eq]
  refine ⟨hfee, ?_, ?_⟩
  · intro tx h
    obtain ⟨-, hr, -, -⟩ := buildNative_ok txBuilder args input tx h
    rw [hr, ← hfee]
    simp [recipientsOf]
  · intro f d k h
    have h' := buildNative_err txBuilder args input _ h
    rw [← hfee]
    exact (addOutputs_notEnoughFunds _ _ _ _ _ _ _ _ h').1

/-- Claim C6, witness. On BCH, two unspent outputs of 1000 and 2000 at fee rate 2 give the
fee `2 * (300 * 2)` in the change of the returned transaction; on BTC, one unspent output of 5
at fee rate 1 gives the reported fee `1 * (255 * 1)`. -/
theorem newNativeTransfer_fee_formula_witness :
    (∃ tx : Tx,
      ((exampleBuilder "BCH").NewNativeTransfer (exampleArgs 1)
          (.btc (exampleInput [1000, 2000] 2))).tx = some tx ∧
        tx.Recipients.map Recipient.Value = [1, 3000 - (1 + 2 * (300 * 2))]) ∧
      (∃ (f d : BigInt) (k : Int),
        ((exampleBuilder "BTC").NewNativeTransfer (exampleArgs 1)
            (.btc (exampleInput [5] 1))).err = some (.notEnoughFunds f d k) ∧
          f = 1 * (255 * 1)) :=
  ⟨⟨_, rfl,
      (newNativeTransfer_fee_formula (exampleBuilder "BCH") (exampleArgs 1)
        (exampleInput [1000, 2000] 2)).2.1 _ rfl⟩,
    ⟨255, 4, 8, rfl,
      (newNativeTransfer_fee_formula (exampleBuilder "BTC") (exampleArgs 1)
        (exampleInput [5] 1)).2.2 255 4 8 rfl⟩⟩

/-- Claim C7, at a failing input. With one unspent output of value 1000, fee rate 1 and
amount `2^64 + 1`, `NewNativeTransfer` returns a transaction and no error with one input and two
outputs, but the recipient's output carries 1, not the amount, and the sender's output carries
744, not the total less amount and fee (`-(2^64) + 744`). -/
theorem newNativeTransfer_outputs_not_amount_and_change :
    ∃ tx : Tx,
      (exampleBuilder "BTC").NewNativeTransfer (exampleArgs (2 ^ 64 + 1))
          (.btc (exampleInput [1000] 1)) = { tx := some tx, err := none } ∧
        tx.MsgTx.TxIn.length = 1 ∧
        tx.MsgTx.TxOut.map TxOut.Value = [1, 744] ∧
        (exampleArgs (2 ^ 64 + 1)).Amount ≠ 1 ∧
        (exampleInput [1000] 1).SumUtxo - (exampleArgs (2 ^ 64 + 1)).Amount -
            estimatedFee (exampleBuilder "BTC") (exampleInput [1000] 1) = -(2 ^ 64) + 744 := by
  refine ⟨_, rfl, ?_, ?_, ?_, ?_⟩ <;> decide

end Btc

/-! ### The Solana builder -/

namespace Solana

/-- A sequence of two steps returns a value exactly when both do. -/
theorem Outcome.bind_eq_ok {α β : Type} (x : Outcome α) (f : α → Outcome β) (b : β) :
    x.bind f = .ok b ↔ ∃ a, x = .ok a ∧ f a = .ok b := by
  cases x <;> simp [Outcome.bind]

/-- The amount the loop sends from an account is the minimum of the remaining amount and the
balance. -/
theorem amountToSend_eq_min (balance remaining : BigInt) :
    (if balance < remaining then balance else remaining) = min remaining balance := by
  unfold BigInt at *
  split <;> omega

/-- The loop refines the spend-down of the spec: when it ends without an error, it has
appended one transfer per entry of `spendDownSpec`, carrying the `uint64` conversion of the
amount, and what remains is the requested amount less the amounts of the entries. -/
theorem spendLoop_ok (acc : Accounts) (l : List TokenAccount) (remaining : BigInt)
    (instructions out : List Instruction) (left : BigInt)
    (h : spendLoop acc l remaining instructions = .ok (out, left)) :
    out = instructions ++
        (spendDownSpec l remaining).map
          (fun p => transferInstruction acc (BigInt.Uint64 p.2) p.1) ∧
      left = remaining - ((spendDownSpec l remaining).map Prod.snd).sum := by
  induction l generalizing remaining instructions with
  | nil =>
    simp only [spendLoop, Outcome.ok.injEq, Prod.mk.injEq] at h
    simp [spendDownSpec, h.1.symm, h.2.symm]
  | cons tokenAcc rest ih =>
    unfold spendLoop at h
    simp only [amountToSend_eq_min] at h
    by_cases hdone : remaining - min remaining tokenAcc.Balance ≤ 0
    · simp only [hdone, if_true, Outcome.ok.injEq, Prod.mk.injEq] at h
      simp [spendDownSpec, hdone, h.1.symm, h.2.symm]
    · simp only [hdone, if_false] at h
      split at h
      · simp at h
      · obtain ⟨h1, h2⟩ := ih _ _ h
        refine ⟨?_, ?_⟩
        · simp [spendDownSpec, hdone, h1]
        · simp only [spendDownSpec, hdone, if_false, List.map_cons, List.sum_cons, h2]
          ring

/-- The loop never ends without an error with more than `MaxTokenTransfers + 1`
instructions, unless it started with that many. -/
theorem spendLoop_length (acc : Accounts) (l : List TokenAccount) (remaining : BigInt)
    (instructions out : List Instruction) (left : BigInt)
    (h : spendLoop acc l remaining instructions = .ok (out, left)) :
    out.length ≤ max (instructions.length + 1) (MaxTokenTransfers + 1) := by
  induction l generalizing remaining instructions with
  | nil =>
    simp only [spendLoop, Outcome.ok.injEq, Prod.mk.injEq] at h
    rw [← h.1]
    omega
  | cons tokenAcc rest ih =>
    unfold spendLoop at h
    simp only [amountToSend_eq_min] at h
    by_cases hdone : remaining - min remaining tokenAcc.Balance ≤ 0
    · simp only [hdone, if_true, Outcome.ok.injEq, Prod.mk.injEq] at h
      rw [← h.1]
      simp
    · simp only [hdone, if_false] at h
      split at h
      · simp at h
      · rename_i hlen
        have := ih _ _ h
        simp only [List.length_append, List.length_singleton] at this hlen
        omega

/-- The entries of the spend-down of the spec, by position: the `i`-th draws from the `i`-th
listed account the minimum of its balance and of the requested amount less the earlier
entries, and an entry after the first exists only while that remainder is positive. -/
theorem spendDownSpec_getElem (l : List TokenAccount) (remaining : BigInt) (i : Nat)
    (a : PublicKey) (amount : BigInt)
    (h : (spendDownSpec l remaining)[i]? = some (a, amount)) :
    ∃ tokenAcc, l[i]? = some tokenAcc ∧ a = tokenAcc.Account ∧
      amount = min (remaining - (((spendDownSpec l remaining).take i).map Prod.snd).sum)
        tokenAcc.Balance ∧
      (0 < i → 0 < remaining - (((spendDownSpec l remaining).take i).map Prod.snd).sum) := by
  induction l generalizing remaining i with
  | nil => simp [spendDownSpec] at h
  | cons tokenAcc rest ih =>
    cases i with
    | zero =>
      simp only [spendDownSpec, List.getElem?_cons_zero, Option.some.injEq, Prod.mk.injEq] at h
      refine ⟨tokenAcc, by simp, h.1.symm, ?_, by simp⟩
      simp [← h.2]
    | succ k =>
      by_cases hdone : remaining - min remaining tokenAcc.Balance ≤ 0
      · simp [spendDownSpec, hdone] at h
      · simp only [spendDownSpec, hdone, if_false, List.getElem?_cons_succ] at h
        obtain ⟨t, ht, ha, hamt, hpos⟩ := ih _ _ h
        refine ⟨t, by simpa using ht, ha, ?_, ?_⟩
        · simp only [spendDownSpec, hdone, if_false, List.take_succ_cons, List.map_cons,
            List.sum_cons]
          rw [hamt]
          congr 1
          ring
        · intro _
          simp only [spendDownSpec, hdone, if_false, List.take_succ_cons, List.map_cons,
            List.sum_cons]
          rcases Nat.eq_zero_or_pos k with hk | hk
          · subst hk
            simp only [List.take_zero, List.map_nil, List.sum_nil, add_zero]
            exact not_le.mp hdone
          · have := hpos hk
            linarith

/-- With a requested amount in the `uint64` range and balances that are not negative, every
amount of the spend-down is in the `uint64` range too, so its conversion changes nothing. -/
theorem spendDownSpec_inRange (l : List TokenAccount) (remaining : BigInt)
    (h0 : 0 ≤ remaining) (h1 : remaining < (2 ^ 64 : Int))
    (hb : ∀ t ∈ l, 0 ≤ t.Balance) :
    ∀ p ∈ spendDownSpec l remaining, ((BigInt.Uint64 p.2 : Nat) : Int) = p.2 := by
  induction l generalizing remaining with
  | nil => simp [spendDownSpec]
  | cons tokenAcc rest ih =>
    intro p hp
    have hbal : 0 ≤ tokenAcc.Balance := hb tokenAcc (by simp)
    have hm0 : 0 ≤ min remaining tokenAcc.Balance := le_min h0 hbal
    have hm1 : min remaining tokenAcc.Balance ≤ remaining := min_le_left _ _
    simp only [spendDownSpec, List.mem_cons] at hp
    rcases hp with rfl | hp
    · unfold BigInt.Uint64
      dsimp only
      unfold BigInt at *
      omega
    · split at hp
      · simp at hp
      · refine ih (remaining - min remaining tokenAcc.Balance) ?_ ?_ ?_ p hp
        · linarith
        · linarith
        · intro t ht
          exact hb t (by simp [ht])

/-- With balances that are not negative and sum to less than the requested amount, the loop
returns an error or leaves a positive remainder. -/
theorem spendLoop_insufficient (acc : Accounts) (l : List TokenAccount) (remaining : BigInt)
    (instructions out : List Instruction) (left : BigInt)
    (hb : ∀ t ∈ l, 0 ≤ t.Balance) (hsum : (l.map TokenAccount.Balance).sum < remaining)
    (h : spendLoop acc l remaining instructions = .ok (out, left)) :
    0 < left := by
  induction l generalizing remaining instructions with
  | nil =>
    simp only [spendLoop, Outcome.ok.injEq, Prod.mk.injEq] at h
    simp only [List.map_nil, List.sum_nil] at hsum
    rw [← h.2]
    exact hsum
  | cons tokenAcc rest ih =>
    have hbal : 0 ≤ tokenAcc.Balance := hb tokenAcc (by simp)
    have hrest : ∀ t ∈ rest, 0 ≤ t.Balance := fun t ht => hb t (by simp [ht])
    have hrest0 : 0 ≤ (rest.map TokenAccount.Balance).sum :=
      List.sum_nonneg (by
        intro x hx
        obtain ⟨t, ht, rfl⟩ := List.mem_map.mp hx
        exact hrest t ht)
    simp only [List.map_cons, List.sum_cons] at hsum
    have hlt : tokenAcc.Balance < remaining := by linarith
    unfold spendLoop at h
    simp only [hlt, if_true] at h
    have hnot : ¬ (remaining - tokenAcc.Balance ≤ 0) := by
      intro hc
      linarith
    simp only [hnot, if_false] at h
    split at h
    · simp at h
    · exact ih (remaining - tokenAcc.Balance) _ hrest (by linarith) h

/-- A sequence of two steps panics exactly when the first does, or the first returns a value
on which the second panics. -/
theorem Outcome.bind_eq_panic {α β : Type} (x : Outcome α) (f : α → Outcome β) (m : String) :
    x.bind f = .panic m ↔ x = .panic m ∨ ∃ a, x = .ok a ∧ f a = .panic m := by
  cases x <;> simp [Outcome.bind]

/-- An external call that returns `(T, error)` does not panic. -/
theorem Outcome.ofExcept_ne_panic {α : Type} (x : Except String α) (m : String) :
    Outcome.ofExcept x ≠ .panic m := by
  cases x <;> simp [Outcome.ofExcept]

/-- A successful token transfer over an instruction input went through the four stages of
the body: accounts, transfer instructions, fee payer, assembly. -/
theorem newTokenTransfer_ok (lib : Library) (b : TxBuilder) (programID : PublicKey)
    (args : TransferArgs) (txInput : TxInput) (tx : Tx)
    (h : (b.NewTokenTransfer lib programID args (.solana txInput)).1 = .ok tx) :
    ∃ (acc : Accounts) (instructions : List Instruction) (feePayer : PublicKey),
      resolveAccounts lib args txInput = .ok acc ∧
      transferInstructions args txInput acc (createAtaInstructions lib txInput acc) =
        .ok instructions ∧
      resolveFeePayer lib args acc = .ok feePayer ∧
      tx.SolTx.Instructions = withPriorityFee lib b txInput instructions ∧
      tx.SolTx.FeePayer = some feePayer ∧
      tx.SolTx.RecentBlockHash = txInput.RecentBlockHash := by
  simp only [TxBuilder.NewTokenTransfer, tokenTransferBody, tokenInstructions,
    Outcome.bind_eq_ok] at h
  obtain ⟨acc, hacc, instrs, ⟨instrs0, hinstrs0, hfee⟩, payer, hpayer, hbuild⟩ := h
  simp only [Outcome.ok.injEq] at hfee
  subst hfee
  refine ⟨acc, instrs0, payer, hacc, hinstrs0, hpayer, ?_⟩
  unfold buildSolanaTx at hbuild
  split at hbuild
  · simp at hbuild
  · simp only [Outcome.ok.injEq] at hbuild
    subst hbuild
    exact ⟨rfl, rfl, rfl⟩

/-- Over two or more source accounts the transfer instructions are those of the loop, which
left nothing to send. -/
theorem transferInstructions_fragmented (args : TransferArgs) (txInput : TxInput)
    (acc : Accounts) (instructions out : List Instruction)
    (hlen : 2 ≤ txInput.SourceTokenAccounts.length)
    (h : transferInstructions args txInput acc instructions = .ok out) :
    ∃ left, spendLoop acc txInput.SourceTokenAccounts args.Amount instructions = .ok (out, left) ∧
      left ≤ 0 := by
  unfold transferInstructions at h
  have hnot : ¬ txInput.SourceTokenAccounts.length ≤ 1 := by omega
  simp only [hnot, if_false, Outcome.bind_eq_ok] at h
  obtain ⟨⟨out', left⟩, hloop, hrest⟩ := h
  dsimp only at hrest
  split at hrest
  · simp at hrest
  · rename_i hleft
    simp only [Outcome.ok.injEq] at hrest
    subst hrest
    exact ⟨left, hloop, not_lt.mp hleft⟩

/-- The transfer amounts of a concatenation. -/
theorem transferAmounts_append (l₁ l₂ : List Instruction) :
    transferAmounts (l₁ ++ l₂) = transferAmounts l₁ ++ transferAmounts l₂ := by
  induction l₁ with
  | nil => simp [transferAmounts]
  | cons i rest ih => cases i <;> simp [transferAmounts, ih]

/-- The create-account instructions hold no transfer and are at most one. -/
theorem createAtaInstructions_facts (lib : Library) (txInput : TxInput) (acc : Accounts) :
    transferAmounts (createAtaInstructions lib txInput acc) = [] ∧
      (createAtaInstructions lib txInput acc).length ≤ 1 := by
  unfold createAtaInstructions
  split <;> simp [transferAmounts]

/-- The transfer amounts of a list of transfer instructions. -/
theorem transferAmounts_map (acc : Accounts) (sent : List (PublicKey × BigInt)) :
    transferAmounts (sent.map fun p => transferInstruction acc (BigInt.Uint64 p.2) p.1) =
      sent.map fun p => BigInt.Uint64 p.2 := by
  induction sent with
  | nil => simp [transferAmounts]
  | cons p rest ih =>
    rw [List.map_cons, List.map_cons]
    unfold transferInstruction at ih ⊢
    simp only [transferAmounts]
    rw [ih]

/-- The prioritization fee instruction adds no transfer and at most one instruction. -/
theorem withPriorityFee_facts (lib : Library) (b : TxBuilder) (txInput : TxInput)
    (instructions : List Instruction) :
    transferAmounts (withPriorityFee lib b txInput instructions) = transferAmounts instructions ∧
      (withPriorityFee lib b txInput instructions).length ≤ instructions.length + 1 := by
  unfold withPriorityFee
  dsimp only
  split <;> simp [transferAmounts_append, transferAmounts]

/-- The transfer sources of a concatenation. -/
theorem transferSources_append (l₁ l₂ : List Instruction) :
    transferSources (l₁ ++ l₂) = transferSources l₁ ++ transferSources l₂ := by
  induction l₁ with
  | nil => simp [transferSources]
  | cons i rest ih => cases i <;> simp [transferSources, ih]

/-- The transfer sources of a list of transfer instructions. -/
theorem transferSources_map (acc : Accounts) (sent : List (PublicKey × BigInt)) :
    transferSources (sent.map fun p => transferInstruction acc (BigInt.Uint64 p.2) p.1) =
      sent.map Prod.fst := by
  induction sent with
  | nil => simp [transferSources]
  | cons p rest ih =>
    rw [List.map_cons, List.map_cons]
    unfold transferInstruction at ih ⊢
    simp only [transferSources]
    rw [ih]

/-- The create-account and prioritization fee instructions are not transfer sources. -/
theorem transferSources_frame (lib : Library) (b : TxBuilder) (txInput : TxInput)
    (acc : Accounts) (instructions : List Instruction) :
    transferSources (createAtaInstructions lib txInput acc) = [] ∧
      transferSources (withPriorityFee lib b txInput instructions) =
        transferSources instructions := by
  constructor
  · unfold createAtaInstructions
    split <;> simp [transferSources]
  · unfold withPriorityFee
    dsimp only
    split <;> simp [transferSources_append, transferSources]

/-- A successful fragmented transfer, in terms of the spend-down of the spec. -/
theorem newTokenTransfer_fragmented (lib : Library) (b : TxBuilder) (programID : PublicKey)
    (args : TransferArgs) (txInput : TxInput) (tx : Tx)
    (hlen : 2 ≤ txInput.SourceTokenAccounts.length)
    (hok : (b.NewTokenTransfer lib programID args (.solana txInput)).1 = .ok tx) :
    ∃ acc : Accounts,
      resolveAccounts lib args txInput = .ok acc ∧
      tx.SolTx.Instructions =
        withPriorityFee lib b txInput
          (createAtaInstructions lib txInput acc ++
            (spendDownSpec txInput.SourceTokenAccounts args.Amount).map
              (fun p => transferInstruction acc (BigInt.Uint64 p.2) p.1)) ∧
      (createAtaInstructions lib txInput acc).length +
          (spendDownSpec txInput.SourceTokenAccounts args.Amount).length ≤
        MaxTokenTransfers + 1 := by
  obtain ⟨acc, instrs, payer, hacc, hinstrs, -, hI, -, -⟩ :=
    newTokenTransfer_ok lib b programID args txInput tx hok
  obtain ⟨left, hloop, -⟩ := transferInstructions_fragmented args txInput acc _ _ hlen hinstrs
  obtain ⟨hout, -⟩ := spendLoop_ok acc _ _ _ _ _ hloop
  have hbound := spendLoop_length acc _ _ _ _ _ hloop
  have hata := (createAtaInstructions_facts lib txInput acc).2
  refine ⟨acc, hacc, ?_, ?_⟩
  · rw [hI, hout]
  · rw [hout] at hbound
    simp only [List.length_append, List.length_map, MaxTokenTransfers] at hbound ⊢
    omega

/-- Claim C3, as stated, fails. For balances [10, 10] and the requested amount -5 the
transfer succeeds and its only transfer instruction moves 5, which is not the minimum of the
remaining amount -5 and the balance 10. -/
theorem newTokenTransfer_sends_magnitude_of_negative_amount :
    2 ≤ (exampleTokenInput [10, 10]).SourceTokenAccounts.length ∧
      ∃ tx : Tx,
        (exampleBuilder.NewTokenTransfer exampleLibrary exampleLibrary.TokenProgramID
            (exampleTokenArgs (-5)) (.solana (exampleTokenInput [10, 10]))).1 = .ok tx ∧
          transferAmounts tx.SolTx.Instructions = [5] ∧
          ((5 : Nat) : Int) ≠ min (exampleTokenArgs (-5)).Amount 10 := by
  refine ⟨by decide, _, rfl, ?_, ?_⟩ <;> decide

/-- Claim C3, amended. A successful token transfer over two or more source token accounts
emits, between the optional create-account instruction and the optional prioritization fee
instruction, one transfer per entry of the spend-down: the `i`-th draws from the `i`-th listed
account and carries the `uint64` conversion of `m_i = min(remaining_i, balance_i)`, where
`remaining_i` is the requested amount less `m_0 + ... + m_(i-1)`; an instruction after the first
is emitted only while the remainder is positive; when the requested amount is in the
`uint64` range and no listed balance is negative, the conversion changes nothing; and for two
accounts of balance 10 each and the requested amount 15 the transfers are 10 from the first
and 5 from the second. -/
theorem newTokenTransfer_spendDown (lib : Library) (b : TxBuilder) (programID : PublicKey)
    (args : TransferArgs) (txInput : TxInput) (tx : Tx)
    (hlen : 2 ≤ txInput.SourceTokenAccounts.length)
    (hok : (b.NewTokenTransfer lib programID args (.solana txInput)).1 = .ok tx) :
    ∃ sent : List (PublicKey × BigInt),
      sent = spendDownSpec txInput.SourceTokenAccounts args.Amount ∧
      transferSources tx.SolTx.Instructions = sent.map Prod.fst ∧
      transferAmounts tx.SolTx.Instructions = sent.map (fun p => BigInt.Uint64 p.2) ∧
      (∀ (i : Nat) (a : PublicKey) (amount : BigInt), sent[i]? = some (a, amount) →
        ∃ tokenAcc, txInput.SourceTokenAccounts[i]? = some tokenAcc ∧ a = tokenAcc.Account ∧
          amount = min (args.Amount - ((sent.take i).map Prod.snd).sum) tokenAcc.Balance ∧
          (0 < i → 0 < args.Amount - ((sent.take i).map Prod.snd).sum)) ∧
      (0 ≤ args.Amount → args.Amount < (2 ^ 64 : Int) →
        (∀ t ∈ txInput.SourceTokenAccounts, 0 ≤ t.Balance) →
        ∀ p ∈ sent, ((BigInt.Uint64 p.2 : Nat) : Int) = p.2) ∧
      (∀ first second : PublicKey,
        txInput.SourceTokenAccounts =
          [{ Account := first, Balance := 10 }, { Account := second, Balance := 10 }] →
        args.Amount = 15 →
        transferSources tx.SolTx.Instructions = [first, second] ∧
          transferAmounts tx.SolTx.Instructions = [10, 5]) := by
  obtain ⟨acc, -, hI, -⟩ := newTokenTransfer_fragmented lib b programID args txInput tx hlen hok
  have hsrc : transferSources tx.SolTx.Instructions =
      (spendDownSpec txInput.SourceTokenAccounts args.Amount).map Prod.fst := by
    rw [hI, (transferSources_frame lib b txInput acc _).2, transferSources_append,
      (transferSources_frame lib b txInput acc []).1, transferSources_map, List.nil_append]
  have hamt : transferAmounts tx.SolTx.Instructions =
      (spendDownSpec txInput.SourceTokenAccounts args.Amount).map
        (fun p => BigInt.Uint64 p.2) := by
    rw [hI, (withPriorityFee_facts lib b txInput _).1, transferAmounts_append,
      (createAtaInstructions_facts lib txInput acc).1, transferAmounts_map, List.nil_append]
  refine ⟨_, rfl, hsrc, hamt, ?_, ?_, ?_⟩
  · intro i a amount h
    exact spendDownSpec_getElem _ _ i a amount h
  · intro h0 h1 hb
    exact spendDownSpec_inRange _ _ h0 h1 hb
  · intro first second hacc hamount
    rw [hsrc, hamt, hacc, hamount]
    constructor <;> rfl

/-- Claim C3, witness. For balances [10, 10] and the requested amount 15 the transfer
succeeds with exactly two transfer instructions, of 10 from the first account and of 5 from
the second. -/
theorem newTokenTransfer_spendDown_witness :
    2 ≤ (exampleTokenInput [10, 10]).SourceTokenAccounts.length ∧
      ∃ (tx : Tx) (sent : List (PublicKey × BigInt)),
        (exampleBuilder.NewTokenTransfer exampleLibrary exampleLibrary.TokenProgramID
            (exampleTokenArgs 15) (.solana (exampleTokenInput [10, 10]))).1 = .ok tx ∧
          sent = [(List.replicate 32 1, 10), (List.replicate 32 2, 5)] ∧
          transferSources tx.SolTx.Instructions = sent.map Prod.fst ∧
          transferAmounts tx.SolTx.Instructions = sent.map (fun p => BigInt.Uint64 p.2) ∧
          transferAmounts tx.SolTx.Instructions = [10, 5] := by
  refine ⟨by decide, ?_⟩
  obtain ⟨sent, hsent, hsrc, hamt, -, -, -⟩ :=
    newTokenTransfer_spendDown exampleLibrary exampleBuilder exampleLibrary.TokenProgramID
      (exampleTokenArgs 15) (exampleTokenInput [10, 10]) _ (by decide) rfl
  refine ⟨_, sent, rfl, ?_, hsrc, hamt, by decide⟩
  rw [hsent]
  decide

/-- Claim C4, as stated, fails. With 21 source token accounts of balance 1 each and the
requested amount 21 the transfer succeeds and emits 21 instructions, more than
`MaxTokenTransfers = 20`. -/
theorem newTokenTransfer_emits_twenty_one_instructions :
    MaxTokenTransfers = 20 ∧
      ∃ tx : Tx,
        (exampleBuilder.NewTokenTransfer exampleLibrary exampleLibrary.TokenProgramID
            (exampleTokenArgs 21) (.solana (exampleTokenInput (List.replicate 21 1)))).1 =
          .ok tx ∧
          tx.SolTx.Instructions.length = 21 := by
  refine ⟨rfl, _, rfl, ?_⟩
  decide

/-- Claim C4, amended. Over two or more source token accounts, a successful token transfer
emits at most `MaxTokenTransfers + 1 = 21` instructions before the prioritization fee
instruction (the create-account instruction, if any, and the transfers) and at most 22 in
all; and once the accounts are resolved, a request whose spend-down needs more than that many
does not succeed. -/
theorem newTokenTransfer_instruction_ceiling (lib : Library) (b : TxBuilder)
    (programID : PublicKey) (args : TransferArgs) (txInput : TxInput)
    (hlen : 2 ≤ txInput.SourceTokenAccounts.length) :
    (∀ tx : Tx, (b.NewTokenTransfer lib programID args (.solana txInput)).1 = .ok tx →
      ∃ acc : Accounts, resolveAccounts lib args txInput = .ok acc ∧
        (createAtaInstructions lib txInput acc).length +
            (transferAmounts tx.SolTx.Instructions).length ≤ MaxTokenTransfers + 1 ∧
        tx.SolTx.Instructions.length ≤ MaxTokenTransfers + 2) ∧
      (∀ acc : Accounts, resolveAccounts lib args txInput = .ok acc →
        MaxTokenTransfers + 1 <
          (createAtaInstructions lib txInput acc).length +
            (spendDownSpec txInput.SourceTokenAccounts args.Amount).length →
        (b.NewTokenTransfer lib programID args (.solana txInput)).1.isOk = false) := by
  constructor
  · intro tx hok
    obtain ⟨acc, hacc, hI, hbound⟩ :=
      newTokenTransfer_fragmented lib b programID args txInput tx hlen hok
    refine ⟨acc, hacc, ?_, ?_⟩
    · rw [hI, (withPriorityFee_facts lib b txInput _).1, transferAmounts_append,
        (createAtaInstructions_facts lib txInput acc).1, transferAmounts_map, List.nil_append,
        List.length_map]
      exact hbound
    · rw [hI]
      have := (withPriorityFee_facts lib b txInput
        (createAtaInstructions lib txInput acc ++
          (spendDownSpec txInput.SourceTokenAccounts args.Amount).map
            (fun p => transferInstruction acc (BigInt.Uint64 p.2) p.1))).2
      simp only [List.length_append, List.length_map] at this
      omega
  · intro acc hacc hneed
    cases hres : (b.NewTokenTransfer lib programID args (.solana txInput)).1 with
    | ok tx =>
      obtain ⟨acc', hacc', -, hbound⟩ :=
        newTokenTransfer_fragmented lib b programID args txInput tx hlen hres
      rw [hacc] at hacc'
      simp only [Outcome.ok.injEq] at hacc'
      subst hacc'
      omega
    | err e => rfl
    | panic m => rfl

/-- Claim C4, witness. With 21 accounts of balance 1 and amount 21 the transfer succeeds
within the ceiling of 21 instructions; with 22 accounts of balance 1 and amount 22 the
spend-down needs 22 instructions and the transfer does not succeed. -/
theorem newTokenTransfer_instruction_ceiling_witness :
    (∃ (tx : Tx) (acc : Accounts),
      (exampleBuilder.NewTokenTransfer exampleLibrary exampleLibrary.TokenProgramID
          (exampleTokenArgs 21) (.solana (exampleTokenInput (List.replicate 21 1)))).1 =
        .ok tx ∧
      (createAtaInstructions exampleLibrary (exampleTokenInput (List.replicate 21 1)) acc).length +
          (transferAmounts tx.SolTx.Instructions).length ≤ MaxTokenTransfers + 1 ∧
      tx.SolTx.Instructions.length ≤ MaxTokenTransfers + 2) ∧
      (exampleBuilder.NewTokenTransfer exampleLibrary exampleLibrary.TokenProgramID
          (exampleTokenArgs 22) (.solana (exampleTokenInput (List.replicate 22 1)))).1.isOk =
        false := by
  constructor
  · obtain ⟨acc, -, h1, h2⟩ :=
      (newTokenTransfer_instruction_ceiling exampleLibrary exampleBuilder
        exampleLibrary.TokenProgramID (exampleTokenArgs 21)
        (exampleTokenInput (List.replicate 21 1)) (by decide)).1 _ rfl
    exact ⟨_, acc, rfl, h1, h2⟩
  · exact (newTokenTransfer_instruction_ceiling exampleLibrary exampleBuilder
      exampleLibrary.TokenProgramID (exampleTokenArgs 22)
      (exampleTokenInput (List.replicate 22 1)) (by decide)).2 _ rfl (by decide)

/-- With no source token account listed, the single transfer instruction of a successful
token transfer draws from the associated token account derived for the recipient `args.To`;
with exactly one listed, from that account. -/
theorem newTokenTransfer_single_source (lib : Library) (b : TxBuilder) (programID : PublicKey)
    (args : TransferArgs) (txInput : TxInput) (tx : Tx)
    (hlen : txInput.SourceTokenAccounts.length ≤ 1)
    (hok : (b.NewTokenTransfer lib programID args (.solana txInput)).1 = .ok tx) :
    (txInput.SourceTokenAccounts = [] →
      ∃ (asset : IAsset) (s : String) (k : PublicKey), args.Asset = some asset ∧
        lib.FindAssociatedTokenAddress args.To asset.GetContract txInput.TokenProgram = .ok s ∧
        lib.PublicKeyFromBase58 s = .ok k ∧ transferSources tx.SolTx.Instructions = [k]) ∧
      (∀ first, txInput.SourceTokenAccounts = [first] →
        transferSources tx.SolTx.Instructions = [first.Account]) := by
  obtain ⟨acc, instrs, payer, hacc, hinstrs, -, hI, -, -⟩ :=
    newTokenTransfer_ok lib b programID args txInput tx hok
  unfold transferInstructions at hinstrs
  simp only [hlen, if_true, Outcome.ok.injEq] at hinstrs
  have hsrc : transferSources tx.SolTx.Instructions = [acc.ataFrom] := by
    rw [hI, (transferSources_frame lib b txInput acc _).2, ← hinstrs, transferSources_append,
      (transferSources_frame lib b txInput acc []).1]
    simp [transferSources, transferInstruction]
  unfold resolveAccounts at hacc
  split at hacc
  · simp at hacc
  · rename_i asset hasset
    dsimp only at hacc
    split at hacc
    · simp at hacc
    · simp only [Outcome.bind_eq_ok] at hacc
      obtain ⟨kFrom, -, kContract, -, kTo, -, s, hs, k, hk, hrest⟩ := hacc
      have hs' : lib.FindAssociatedTokenAddress args.To asset.GetContract txInput.TokenProgram =
          .ok s := by
        cases hfind : lib.FindAssociatedTokenAddress args.To asset.GetContract
            txInput.TokenProgram with
        | ok v => rw [hfind] at hs; simpa [Outcome.ofExcept] using hs
        | error e => rw [hfind] at hs; simp [Outcome.ofExcept] at hs
      have hk' : lib.PublicKeyFromBase58 s = .ok k := by
        unfold Library.MustPublicKeyFromBase58 at hk
        split at hk
        · rename_i k' hk'
          simp only [Outcome.ok.injEq] at hk
          rw [hk', hk]
        · simp at hk
      have hfrom : acc.ataFrom =
          (match txInput.SourceTokenAccounts with
            | [] => k
            | first :: _ => first.Account) := by
        split at hrest
        · simp only [Outcome.ok.injEq] at hrest
          rw [← hrest]
        · simp only [Outcome.bind_eq_ok, Outcome.ok.injEq] at hrest
          obtain ⟨_, _, _, _, hrest⟩ := hrest
          rw [← hrest]
      constructor
      · intro hnil
        rw [hnil] at hfrom
        exact ⟨asset, s, k, hasset, hs', hk', by rw [hsrc, hfrom]⟩
      · intro first hone
        rw [hone] at hfrom
        rw [hsrc, hfrom]

/-- Claim C8, at a failing input. For a transfer of 35 from `alice` to `bob` of the contract
`mint` with no source token account listed, the single transfer instruction draws from the
associated token account of the recipient `bob`, which is also its destination, and not from
that of the sender `alice`; with one source token account listed it draws from that account. -/
theorem newTokenTransfer_source_is_recipient_account :
    (∃ tx : Tx,
      (exampleBuilder.NewTokenTransfer exampleLibrary exampleLibrary.TokenProgramID
          (exampleTokenArgs 35) (.solana (exampleTokenInput []))).1 = .ok tx ∧
        tx.SolTx.Instructions =
          [.transferChecked 35 6 (exampleKey "bob/mint") (exampleKey "mint")
            (exampleKey "bob/mint") (exampleKey "alice") []] ∧
        exampleLibrary.FindAssociatedTokenAddress "alice" "mint" zeroPublicKey =
          .ok "alice/mint" ∧
        exampleKey "bob/mint" ≠ exampleKey "alice/mint") ∧
      (∃ tx : Tx,
        (exampleBuilder.NewTokenTransfer exampleLibrary exampleLibrary.TokenProgramID
            (exampleTokenArgs 35) (.solana (exampleTokenInput [35]))).1 = .ok tx ∧
          transferSources tx.SolTx.Instructions = [List.replicate 32 1]) := by
  refine ⟨⟨_, rfl, ?_, rfl, ?_⟩, ⟨_, rfl, ?_⟩⟩ <;> decide

/-- An external call returned a value exactly when its result is that value. -/
theorem Outcome.ofExcept_eq_ok {α : Type} (x : Except String α) (a : α) :
    Outcome.ofExcept x = .ok a ↔ x = .ok a := by
  cases x <;> simp [Outcome.ofExcept]

/-- Under the assumption on the helper, parsing a derived address does not panic. -/
theorem mustParse_ne_panic (lib : Library) (hlib : lib.AtaParses) (owner contract : String)
    (program : PublicKey) (s m : String)
    (hs : lib.FindAssociatedTokenAddress owner contract program = .ok s) :
    lib.MustPublicKeyFromBase58 s ≠ .panic m := by
  obtain ⟨k, hk⟩ := hlib owner contract program s hs
  simp [Library.MustPublicKeyFromBase58, hk]

/-- Under the assumption on the helper, the resolution of the accounts does not panic. -/
theorem resolveAccounts_ne_panic (lib : Library) (hlib : lib.AtaParses) (args : TransferArgs)
    (txInput : TxInput) (m : String) : resolveAccounts lib args txInput ≠ .panic m := by
  intro hp
  unfold resolveAccounts at hp
  split at hp
  · simp at hp
  · dsimp only at hp
    split at hp
    · simp at hp
    · simp only [Outcome.bind_eq_panic, Outcome.ofExcept_ne_panic, false_or,
        Outcome.ofExcept_eq_ok] at hp
      obtain ⟨kF, -, kC, -, kT, -, s, hs, hp⟩ := hp
      rcases hp with hp | ⟨k, -, hp⟩
      · exact mustParse_ne_panic lib hlib _ _ _ _ _ hs hp
      · split at hp
        · simp at hp
        · simp only [Outcome.bind_eq_panic, Outcome.ofExcept_ne_panic, false_or,
            Outcome.ofExcept_eq_ok] at hp
          obtain ⟨s2, hs2, hp⟩ := hp
          rcases hp with hp | ⟨k2, -, hp⟩
          · exact mustParse_ne_panic lib hlib _ _ _ _ _ hs2 hp
          · simp at hp

/-- The loop over the source token accounts does not panic. -/
theorem spendLoop_ne_panic (acc : Accounts) (l : List TokenAccount) (remaining : BigInt)
    (instructions : List Instruction) (m : String) :
    spendLoop acc l remaining instructions ≠ .panic m := by
  induction l generalizing remaining instructions with
  | nil => simp [spendLoop]
  | cons tokenAcc rest ih =>
    unfold spendLoop
    simp only [amountToSend_eq_min]
    split
    · simp
    · split
      · simp
      · exact ih _ _

/-- Under the assumption on the helper, the body of a token transfer does not panic. -/
theorem tokenTransferBody_ne_panic (lib : Library) (hlib : lib.AtaParses) (b : TxBuilder)
    (programID : PublicKey) (args : TransferArgs) (txInput : TxInput) (m : String) :
    tokenTransferBody lib b programID args txInput ≠ .panic m := by
  intro hp
  simp only [tokenTransferBody, tokenInstructions, Outcome.bind_eq_panic] at hp
  rcases hp with hp | ⟨acc, -, hp⟩
  · exact resolveAccounts_ne_panic lib hlib args txInput m hp
  · rcases hp with hp | ⟨instrs, -, hp⟩
    · rcases hp with hp | ⟨instrs0, -, hp⟩
      · unfold transferInstructions at hp
        split at hp
        · simp at hp
        · simp only [Outcome.bind_eq_panic] at hp
          rcases hp with hp | ⟨r, -, hp⟩
          · exact spendLoop_ne_panic _ _ _ _ _ hp
          · split at hp <;> simp at hp
      · simp at hp
    · rcases hp with hp | ⟨payer, -, hp⟩
      · unfold resolveFeePayer at hp
        split at hp
        · exact Outcome.ofExcept_ne_panic _ _ hp
        · simp at hp
      · unfold buildSolanaTx at hp
        split at hp <;> simp at hp

/-- Claim C9, as stated, fails. The listed balances [10, -10] sum to 0, less than the
requested amount 5, and the transfer succeeds, with one transfer of 5 from the first account. -/
theorem newTokenTransfer_succeeds_with_negative_balance :
    2 ≤ (exampleTokenInput [10, -10]).SourceTokenAccounts.length ∧
      (((exampleTokenInput [10, -10]).SourceTokenAccounts.map TokenAccount.Balance).sum <
        (exampleTokenArgs 5).Amount) ∧
      ∃ tx : Tx,
        (exampleBuilder.NewTokenTransfer exampleLibrary exampleLibrary.TokenProgramID
            (exampleTokenArgs 5) (.solana (exampleTokenInput [10, -10]))).1 = .ok tx ∧
          transferAmounts tx.SolTx.Instructions = [5] := by
  refine ⟨by decide, by decide, _, rfl, ?_⟩
  decide

/-- Claim C9, amended. When the input lists two or more source token accounts, none with a
negative balance, and the balances sum to less than the requested amount, `NewTokenTransfer`
returns no transaction; it returns an error, given that the associated address the helper
derives parses as a key. -/
theorem newTokenTransfer_insufficient_balance (lib : Library) (b : TxBuilder)
    (programID : PublicKey) (args : TransferArgs) (txInput : TxInput)
    (hlen : 2 ≤ txInput.SourceTokenAccounts.length)
    (hb : ∀ t ∈ txInput.SourceTokenAccounts, 0 ≤ t.Balance)
    (hsum : (txInput.SourceTokenAccounts.map TokenAccount.Balance).sum < args.Amount) :
    (b.NewTokenTransfer lib programID args (.solana txInput)).1.isOk = false ∧
      (lib.AtaParses →
        ∃ e, (b.NewTokenTransfer lib programID args (.solana txInput)).1 = .err e) := by
  have hnot : ∀ tx, (b.NewTokenTransfer lib programID args (.solana txInput)).1 ≠ .ok tx := by
    intro tx hok
    obtain ⟨acc, instrs, payer, -, hinstrs, -, -, -, -⟩ :=
      newTokenTransfer_ok lib b programID args txInput tx hok
    obtain ⟨left, hloop, hleft⟩ :=
      transferInstructions_fragmented args txInput acc _ _ hlen hinstrs
    have := spendLoop_insufficient acc _ _ _ _ _ hb hsum hloop
    linarith
  cases hres : (b.NewTokenTransfer lib programID args (.solana txInput)).1 with
  | ok tx => exact absurd hres (hnot tx)
  | err e => exact ⟨rfl, fun _ => ⟨e, rfl⟩⟩
  | panic m =>
    refine ⟨rfl, fun hlib => ?_⟩
    exact absurd hres (tokenTransferBody_ne_panic lib hlib b programID args txInput m)

/-- Claim C9, witness. The listed balances [1, 2] are not negative and sum to 3, less than
the requested amount 5: the transfer returns an error and no transaction. -/
theorem newTokenTransfer_insufficient_balance_witness :
    2 ≤ (exampleTokenInput [1, 2]).SourceTokenAccounts.length ∧
      (((exampleTokenInput [1, 2]).SourceTokenAccounts.map TokenAccount.Balance).sum <
        (exampleTokenArgs 5).Amount) ∧
      exampleLibrary.AtaParses ∧
      (exampleBuilder.NewTokenTransfer exampleLibrary exampleLibrary.TokenProgramID
          (exampleTokenArgs 5) (.solana (exampleTokenInput [1, 2]))).1.isOk = false ∧
      ∃ e, (exampleBuilder.NewTokenTransfer exampleLibrary exampleLibrary.TokenProgramID
          (exampleTokenArgs 5) (.solana (exampleTokenInput [1, 2]))).1 = .err e := by
  have hparse : exampleLibrary.AtaParses := fun _ _ _ s _ => ⟨exampleKey s, rfl⟩
  have h := newTokenTransfer_insufficient_balance exampleLibrary exampleBuilder
    exampleLibrary.TokenProgramID (exampleTokenArgs 5) (exampleTokenInput [1, 2])
    (by decide) (by decide) (by decide)
  exact ⟨by decide, by decide, hparse, h.1, h.2 hparse⟩

end Solana

/-! ### The EVM client -/

namespace Evm

/-- The default gas limit is one of 90000, 500000 and 4000000, hence not zero. -/
theorem defaultGasLimit_ne_zero (client : Client) (asset : Option IAsset) :
    client.DefaultGasLimit asset ≠ 0 := by
  unfold Client.DefaultGasLimit
  dsimp only
  split
  · omega
  · split
    · split <;> omega
    · omega

/-- The padded gas limit is not zero. -/
theorem padGasLimit_ne_zero (client : Client) (sender : Address) (msg : CallMsg)
    (asset : Option IAsset) (gasLimit : Nat) :
    client.padGasLimit sender msg asset gasLimit ≠ 0 := by
  have key : ∀ g : Nat, (if g = 0 then client.DefaultGasLimit asset else g) ≠ 0 := by
    intro g
    split
    · exact defaultGasLimit_ne_zero client asset
    · assumption
  unfold Client.padGasLimit
  exact key _

/-- The adjustment to a pending transaction keeps the fee cap at or above the tip cap when
it was so before, provided the scaled priority fee of the pending transaction does not exceed
its scaled maximum fee. -/
theorem adjustToPending_covers_tip (client : Client) (sender : Address) (result : TxInput)
    (h : result.GasTipCap ≤ result.GasFeeCap)
    (hpending : ∀ pendingTxInfo pending,
      client.EthClient.TxPoolContentFrom (client.fromAddr sender) = .ok pendingTxInfo →
      pendingTxInfo sender = some pending →
      client.MultiplyByFloat115 pending.MaxPriorityFeePerGas ≤
        client.MultiplyByFloat115 pending.MaxFeePerGas) :
    (client.adjustToPending sender result).GasTipCap ≤
      (client.adjustToPending sender result).GasFeeCap := by
  unfold Client.adjustToPending
  split
  · exact h
  · rename_i pendingTxInfo hpool
    split
    · exact h
    · rename_i pending hinfo
      have hp := hpending pendingTxInfo pending hpool hinfo
      dsimp only
      split_ifs <;> (try dsimp only) <;> linarith

/-- When no pending transaction is visible, or the pending one has a scaled priority fee not
above its scaled maximum fee, every successful return of `FetchUnsimulatedInput` has a fee
cap that covers the tip cap. -/
theorem fetchUnsimulatedInput_covers_tip (client : Client) (sender : Address)
    (result : TxInput)
    (hpending : ∀ pendingTxInfo pending,
      client.EthClient.TxPoolContentFrom (client.fromAddr sender) = .ok pendingTxInfo →
      pendingTxInfo sender = some pending →
      client.MultiplyByFloat115 pending.MaxPriorityFeePerGas ≤
        client.MultiplyByFloat115 pending.MaxFeePerGas)
    (h : client.FetchUnsimulatedInput sender = .ret result none) :
    result.GasTipCap ≤ result.GasFeeCap := by
  unfold Client.FetchUnsimulatedInput at h
  dsimp only at h
  split at h
  · simp at h
  · split at h
    · simp at h
    · split at h
      · split at h
        · simp at h
        · split at h
          · simp at h
          · split at h
            · simp at h
            · simp only [FetchOutcome.ret.injEq, and_true] at h
              rw [← h]
              apply adjustToPending_covers_tip client sender _ _ hpending
              dsimp only
              split_ifs <;> (try dsimp only) <;> linarith
      · simp only [FetchOutcome.ret.injEq, and_true] at h
        rw [← h]

/-- Claim C5, at a failing input. With base fee 100, suggested tip 10, multiplier 1 and a
visible pending transaction of maximum fee 50 and maximum priority fee 1000,
`FetchUnsimulatedInput` returns without error the fee cap 100 and the tip cap 1150: the fee cap
does not cover the tip. -/
theorem fetchUnsimulatedInput_tip_above_fee_cap :
    (exampleClient (some { Hash := "0xabc", MaxFeePerGas := 50, MaxPriorityFeePerGas := 1000 })
        revertingEstimate).FetchUnsimulatedInput "0xsender" =
      .ret { Nonce := 7, ChainId := 1, GasFeeCap := 100, GasTipCap := 1150, GasLimit := 0 } none ∧
    (100 : Int) < 1150 := by
  refine ⟨rfl, by decide⟩

/-- Claim C10, as stated, fails. The first estimation reports "insufficient funds for
transfer" and the retry with zero value reports "execution reverted": `SimulateGasWithLimit`
returns the gas limit 0 and the error "could not simulate tx: execution reverted". -/
theorem simulateGasWithLimit_retry_can_fail :
    ((exampleClient none revertingEstimate).estimateWithCeiling "0xsender" exampleEthTx).1 =
        .error "insufficient funds for transfer" ∧
      stringsContains "insufficient funds for transfer" "insufficient funds" = true ∧
      (exampleClient none revertingEstimate).SimulateGasWithLimit "0xsender" exampleEthTx none =
        (0, some "could not simulate tx: execution reverted") := by
  refine ⟨rfl, by decide, by decide⟩

/-- Claim C10, amended. When the estimation in effect after the optional retry under the
lower ceiling reports an error containing "insufficient funds", `SimulateGasWithLimit` asks
once more with the value set to zero; if that request succeeds it returns, without error, the
padded estimate, replaced by the default gas limit of the asset when zero, so a gas limit that
is not zero; if that request fails it returns the gas limit 0 and an error. -/
theorem simulateGasWithLimit_insufficient_funds (client : Client) (sender : Address)
    (trans : EthTx) (asset : Option IAsset) (e : String)
    (herr : (client.estimateWithCeiling sender trans).1 = .error e)
    (hins : stringsContains e "insufficient funds" = true) :
    (∀ g : Nat,
      client.EthClient.EstimateGas (client.estimateWithCeiling sender trans).2.2
          { (client.estimateWithCeiling sender trans).2.1 with Value := 0 } = .ok g →
        client.SimulateGasWithLimit sender trans asset =
            (client.padGasLimit sender
              { (client.estimateWithCeiling sender trans).2.1 with Value := 0 } asset g, none) ∧
          (client.SimulateGasWithLimit sender trans asset).1 ≠ 0 ∧
          (trans.Data = [] →
            (client.SimulateGasWithLimit sender trans asset).1 =
              if g = 0 then client.DefaultGasLimit asset else g)) ∧
      (∀ e2 : String,
        client.EthClient.EstimateGas (client.estimateWithCeiling sender trans).2.2
            { (client.estimateWithCeiling sender trans).2.1 with Value := 0 } = .error e2 →
          client.SimulateGasWithLimit sender trans asset =
            (0, some ("could not simulate tx: " ++ e2))) := by
  have hdata : (client.estimateWithCeiling sender trans).2.1.Data = trans.Data := by
    unfold Client.estimateWithCeiling
    dsimp only
    split
    · rfl
    · split <;> rfl
  constructor
  · intro g hg
    have hres : client.SimulateGasWithLimit sender trans asset =
        (client.padGasLimit sender
          { (client.estimateWithCeiling sender trans).2.1 with Value := 0 } asset g, none) := by
      unfold Client.SimulateGasWithLimit
      simp only [herr, hins, if_true, hg]
    refine ⟨hres, ?_, ?_⟩
    · rw [hres]
      exact padGasLimit_ne_zero _ _ _ _ _
    · intro hempty
      rw [hres]
      unfold Client.padGasLimit Client.paddedGasLimit
      simp [hdata, hempty]
  · intro e2 he2
    unfold Client.SimulateGasWithLimit
    simp only [herr, hins, if_true, he2]

/-- Claim C10, witness. When the retry with zero value answers 21000 for a transfer without
call data, the result is 21000 without error; when it fails with "execution reverted", the
result is the error. -/
theorem simulateGasWithLimit_insufficient_funds_witness :
    ((exampleClient none recoveringEstimate).estimateWithCeiling "0xsender" exampleEthTx).1 =
        .error "insufficient funds for transfer" ∧
      stringsContains "insufficient funds for transfer" "insufficient funds" = true ∧
      (exampleClient none recoveringEstimate).SimulateGasWithLimit "0xsender" exampleEthTx none =
        (21000, none) ∧
      ((exampleClient none recoveringEstimate).SimulateGasWithLimit "0xsender" exampleEthTx
        none).1 ≠ 0 ∧
      (exampleClient none revertingEstimate).SimulateGasWithLimit "0xsender" exampleEthTx none =
        (0, some ("could not simulate tx: " ++ "execution reverted")) :=
  ⟨rfl, by decide,
    ((simulateGasWithLimit_insufficient_funds (exampleClient none recoveringEstimate) "0xsender"
      exampleEthTx none "insufficient funds for transfer" rfl (by decide)).1 21000 rfl).1,
    ((simulateGasWithLimit_insufficient_funds (exampleClient none recoveringEstimate) "0xsender"
      exampleEthTx none "insufficient funds for transfer" rfl (by decide)).1 21000 rfl).2.1,
    (simulateGasWithLimit_insufficient_funds (exampleClient none revertingEstimate) "0xsender"
      exampleEthTx none "insufficient funds for transfer" rfl (by decide)).2
      "execution reverted" rfl⟩

end Evm

/-! ### The Tron address builder -/

namespace Tron

/-- Reading back the digit written for a value below 16 gives the value. -/
theorem hexValue_hexDigit : ∀ n, n < 16 → hexValue (hexDigit n) = some n := by
  decide

/-- Decoding the hexadecimal encoding of bytes gives the bytes back. -/
theorem decodeChars_encodeChars (b : List Nat) (hb : ∀ x ∈ b, x < 256) :
    decodeChars (encodeChars b) = some b := by
  induction b with
  | nil => rfl
  | cons x rest ih =>
    have hx : x < 256 := hb x (by simp)
    have hrest := ih (fun y hy => hb y (by simp [hy]))
    have h1 : hexValue (hexDigit (x / 16 % 16)) = some (x / 16 % 16) :=
      hexValue_hexDigit _ (Nat.mod_lt _ (by decide))
    have h2 : hexValue (hexDigit (x % 16)) = some (x % 16) :=
      hexValue_hexDigit _ (Nat.mod_lt _ (by decide))
    simp only [encodeChars, decodeChars, h1, h2, hrest]
    have : x / 16 % 16 * 16 + x % 16 = x := by omega
    rw [this]

/-- For every library, an input of 32 bytes or more that `ParsePubKey` rejects makes
`GetAddressFromPublicKey` panic, and a shorter input makes it return an error and no
address. -/
theorem getAddressFromPublicKey_outcomes (lib : Library) (publicKeyBytes : List Nat)
    (hb : ∀ x ∈ publicKeyBytes, x < 256) :
    (publicKeyBytes.length < 32 →
      GetAddressFromPublicKey lib publicKeyBytes =
        .ret "" (some "invalid secp256k1 public key")) ∧
    (∀ e, 32 ≤ publicKeyBytes.length → lib.ParsePubKey publicKeyBytes = .error e →
      GetAddressFromPublicKey lib publicKeyBytes =
        .panic "runtime error: invalid memory address or nil pointer dereference") := by
  constructor
  · intro h
    simp [GetAddressFromPublicKey, h]
  · intro e hlen hparse
    have hnot : ¬ publicKeyBytes.length < 32 := by omega
    simp only [GetAddressFromPublicKey, hnot, if_false, GetAddressByPublicKey, DecodeString,
      EncodeToString, decodeChars_encodeChars publicKeyBytes hb, hparse]

/-- Claim C12, at a failing input. For 32 zero bytes, which do not parse as a public key,
`GetAddressFromPublicKey` panics instead of returning an error; for 31 zero bytes it returns
the error "invalid secp256k1 public key" and no address. -/
theorem getAddressFromPublicKey_panics_on_invalid_key :
    exampleLibrary.ParsePubKey (List.replicate 32 0) = .error "malformed public key" ∧
      GetAddressFromPublicKey exampleLibrary (List.replicate 32 0) =
        .panic "runtime error: invalid memory address or nil pointer dereference" ∧
      GetAddressFromPublicKey exampleLibrary (List.replicate 31 0) =
        .ret "" (some "invalid secp256k1 public key") := by
  refine ⟨rfl, ?_, ?_⟩ <;> decide

end Tron

/-! ### The Solana builder: the package variable and the type of the input -/

namespace Solana

/-- Claim C13. Whatever the library, builder, arguments and input, and however the call
ends (a transaction, an error, a panic), the package variable `token.ProgramID` holds after
`NewTokenTransfer` the value it held before. -/
theorem newTokenTransfer_restores_programID (lib : Library) (b : TxBuilder)
    (programID : PublicKey) (args : TransferArgs) (input : Crosschain.TxInput) :
    (b.NewTokenTransfer lib programID args input).2 = programID := by
  cases input with
  | solana txInput =>
    simp only [TxBuilder.NewTokenTransfer, programIDAfter]
    cases resolveAccounts lib args txInput <;> rfl
  | btc i => rfl
  | evm i => rfl
  | other n => rfl

/-- Claim C15, at the failing inputs. Given the input of the Bitcoin package, of the EVM
package or of another chain family, each of `NewTokenTransfer`, `NewNativeTransfer` and
`NewTransfer` of the Solana builder panics on the type assertion, whatever the library, the
builder and the arguments: none returns an error. -/
theorem solana_builders_panic_on_foreign_input (lib : Library) (b : TxBuilder)
    (programID : PublicKey) (args : TransferArgs) (u : Btc.TxInput) (a : Evm.TxInput)
    (n : String) :
    (b.NewTokenTransfer lib programID args (.btc u)).1 =
        .panic "interface conversion: types.TxInput is not *tx_input.TxInput" ∧
      (b.NewTokenTransfer lib programID args (.evm a)).1 =
        .panic "interface conversion: types.TxInput is not *tx_input.TxInput" ∧
      (b.NewTokenTransfer lib programID args (.other n)).1 =
        .panic "interface conversion: types.TxInput is not *tx_input.TxInput" ∧
      b.NewNativeTransfer lib programID args (.btc u) =
        .panic "interface conversion: types.TxInput is not *tx_input.TxInput" ∧
      b.NewNativeTransfer lib programID args (.evm a) =
        .panic "interface conversion: types.TxInput is not *tx_input.TxInput" ∧
      b.NewNativeTransfer lib programID args (.other n) =
        .panic "interface conversion: types.TxInput is not *tx_input.TxInput" ∧
      (b.NewTransfer lib programID args (.btc u)).1 =
        .panic "interface conversion: types.TxInput is not *tx_input.TxInput" ∧
      (b.NewTransfer lib programID args (.evm a)).1 =
        .panic "interface conversion: types.TxInput is not *tx_input.TxInput" ∧
      (b.NewTransfer lib programID args (.other n)).1 =
        .panic "interface conversion: types.TxInput is not *tx_input.TxInput" := by
  refine ⟨rfl, rfl, rfl, rfl, rfl, rfl, ?_, ?_, ?_⟩ <;>
    (unfold TxBuilder.NewTransfer
     dsimp only
     split <;> rfl)

end Solana

/-! ### The Bitcoin builder: the type of the input and token transfers -/

namespace Btc

/-- Claim C14. Given an input that is not the UTXO variant (that of the EVM package, of the
Solana package or of another chain family), `NewNativeTransfer` returns the error
"xc.TxInput is not from a bitcoin chain" together with the zero transaction, which has no
input, output or recipient: the result is the same whatever the builder, the arguments and
the content of the input. -/
theorem newNativeTransfer_rejects_foreign_input (txBuilder : TxBuilder) (args : TransferArgs)
    (a : Evm.TxInput) (i : Solana.TxInput) (n : String) (toHuman : BigInt → Int → String) :
    txBuilder.NewNativeTransfer args (.evm a) =
        { tx := some zeroTx, err := some .notBitcoinInput } ∧
      txBuilder.NewNativeTransfer args (.solana i) =
        { tx := some zeroTx, err := some .notBitcoinInput } ∧
      txBuilder.NewNativeTransfer args (.other n) =
        { tx := some zeroTx, err := some .notBitcoinInput } ∧
      BuildError.Error toHuman .notBitcoinInput = "xc.TxInput is not from a bitcoin chain" ∧
      zeroTx.MsgTx.TxIn = [] ∧ zeroTx.MsgTx.TxOut = [] ∧ zeroTx.Recipients = [] :=
  ⟨rfl, rfl, rfl, rfl, rfl, rfl, rfl⟩

/-- A builder whose own asset is a token asset returns "not implemented" from `NewTransfer`,
whatever the arguments and the input. -/
theorem newTransfer_of_token_builder (txBuilder : TxBuilder) (t : TokenAssetConfig)
    (args : TransferArgs) (input : Crosschain.TxInput) (h : txBuilder.Asset = .token t) :
    txBuilder.NewTransfer args input = { tx := none, err := some .notImplemented } := by
  unfold TxBuilder.NewTransfer
  rw [h]
  rfl

/-- Claim C16, at a failing input. For the builder of the chain BTC, arguments whose asset
is a token asset, and one unspent output of 1000 at fee rate 1, `NewTransfer` does not look at
the asset of the arguments: it returns a native transfer of the amount 1, with the outputs 1
and 744, and no error. -/
theorem newTransfer_ignores_token_asset_of_args :
    (∃ t, (exampleTokenArgs 1).Asset = some (.token t)) ∧
      ∃ tx : Tx,
        (exampleBuilder "BTC").NewTransfer (exampleTokenArgs 1) (.btc (exampleInput [1000] 1)) =
          { tx := some tx, err := none } ∧
        tx.MsgTx.TxOut.map TxOut.Value = [1, 744] := by
  refine ⟨⟨_, rfl⟩, _, rfl, ?_⟩
  decide

end Btc

/-! ### The Cosmos staking builders -/

namespace Cosmos

/-- Claim C17, as stated, fails. With no public key, a validator and the amount -1, `Stake`
and `Unstake` do not return: the construction of the coin panics before the key is looked
at. -/
theorem stake_panics_on_negative_amount_without_key :
    (exampleArgs (-1) none).PublicKey = none ∧
      exampleBuilder.Stake exampleLibrary (exampleArgs (-1) none) (.staking exampleInput) =
        .panic "negative coin amount" ∧
      exampleBuilder.Unstake exampleLibrary (exampleArgs (-1) none) (.unstaking exampleInput) =
        .panic "negative coin amount" := by
  refine ⟨rfl, ?_, ?_⟩ <;> decide

/-- Claim C17, amended. When the arguments carry no public key, none of `Stake`, `Unstake`
and `Withdraw` returns a transaction, whatever the other arguments and the input; `Withdraw`
returns an error; `Stake` and `Unstake` return an error whenever the construction of the
coin for the amount does not panic. -/
theorem staking_requires_public_key (lib : Library) (txBuilder : TxBuilder) (args : StakeArgs)
    (input : StakeTxInput) (hkey : args.PublicKey = none) :
    (txBuilder.Stake lib args input).isOk = false ∧
      (txBuilder.Unstake lib args input).isOk = false ∧
      (txBuilder.Withdraw lib args input).isOk = false ∧
      (∃ e, txBuilder.Withdraw lib args input = .err e) ∧
      ((∀ m, lib.NewCoin (lib.GetDenom txBuilder (assetOf txBuilder args)) args.Amount ≠
          .panic m) →
        (∃ e, txBuilder.Stake lib args input = .err e) ∧
          (∃ e, txBuilder.Unstake lib args input = .err e)) := by
  have hW : ∃ e, txBuilder.Withdraw lib args input = .err e := by
    unfold TxBuilder.Withdraw
    cases input <;> cases hv : args.Validator <;> simp [hkey]
  have hS : (txBuilder.Stake lib args input).isOk = false ∧
      ((∀ m, lib.NewCoin (lib.GetDenom txBuilder (assetOf txBuilder args)) args.Amount ≠
          .panic m) → ∃ e, txBuilder.Stake lib args input = .err e) := by
    unfold TxBuilder.Stake
    cases input <;> cases hv : args.Validator <;>
      simp only [Solana.Outcome.isOk, Solana.Outcome.err.injEq, exists_eq', implies_true,
        and_self]
    cases hc : lib.NewCoin (lib.GetDenom txBuilder (assetOf txBuilder args)) args.Amount with
    | ok c => simp [Solana.Outcome.bind, hkey, Solana.Outcome.isOk]
    | err e => simp [Solana.Outcome.bind, Solana.Outcome.isOk]
    | panic m => simp [Solana.Outcome.bind, Solana.Outcome.isOk]
  have hU : (txBuilder.Unstake lib args input).isOk = false ∧
      ((∀ m, lib.NewCoin (lib.GetDenom txBuilder (assetOf txBuilder args)) args.Amount ≠
          .panic m) → ∃ e, txBuilder.Unstake lib args input = .err e) := by
    unfold TxBuilder.Unstake
    cases input <;> cases hv : args.Validator <;>
      simp only [Solana.Outcome.isOk, Solana.Outcome.err.injEq, exists_eq', implies_true,
        and_self]
    cases hc : lib.NewCoin (lib.GetDenom txBuilder (assetOf txBuilder args)) args.Amount with
    | ok c => simp [Solana.Outcome.bind, hkey, Solana.Outcome.isOk]
    | err e => simp [Solana.Outcome.bind, Solana.Outcome.isOk]
    | panic m => simp [Solana.Outcome.bind, Solana.Outcome.isOk]
  obtain ⟨e, he⟩ := hW
  refine ⟨hS.1, hU.1, ?_, ⟨e, he⟩, fun h => ⟨hS.2 h, hU.2 h⟩⟩
  rw [he]
  rfl

/-- Claim C17, witness. With no public key and the amount 1, each of the three builders
returns the error that the public key was not passed, and no transaction. -/
theorem staking_requires_public_key_witness :
    (exampleArgs 1 none).PublicKey = none ∧
      exampleBuilder.Stake exampleLibrary (exampleArgs 1 none) (.staking exampleInput) =
        .err "associated public key for cosmos1sender was not passed as an argument" ∧
      (exampleBuilder.Stake exampleLibrary (exampleArgs 1 none)
        (.staking exampleInput)).isOk = false ∧
      (exampleBuilder.Unstake exampleLibrary (exampleArgs 1 none)
        (.unstaking exampleInput)).isOk = false ∧
      (exampleBuilder.Withdraw exampleLibrary (exampleArgs 1 none)
        (.withdraw exampleInput)).isOk = false ∧
      (∃ e, exampleBuilder.Withdraw exampleLibrary (exampleArgs 1 none)
        (.withdraw exampleInput) = .err e) ∧
      (∃ e, exampleBuilder.Unstake exampleLibrary (exampleArgs 1 none)
        (.unstaking exampleInput) = .err e) := by
  have hS := staking_requires_public_key exampleLibrary exampleBuilder (exampleArgs 1 none)
    (.staking exampleInput) rfl
  have hU := staking_requires_public_key exampleLibrary exampleBuilder (exampleArgs 1 none)
    (.unstaking exampleInput) rfl
  have hW := staking_requires_public_key exampleLibrary exampleBuilder (exampleArgs 1 none)
    (.withdraw exampleInput) rfl
  have hnp : ∀ m, exampleLibrary.NewCoin
      (exampleLibrary.GetDenom exampleBuilder (assetOf exampleBuilder (exampleArgs 1 none)))
      (exampleArgs 1 none).Amount ≠ .panic m := by
    have hok : exampleLibrary.NewCoin
        (exampleLibrary.GetDenom exampleBuilder (assetOf exampleBuilder (exampleArgs 1 none)))
        (exampleArgs 1 none).Amount = .ok { Denom := "uatom", Amount := 1 } := by
      decide
    intro m h
    rw [hok] at h
    cases h
  exact ⟨rfl, by decide, hS.1, hU.2.1, hW.2.2.1, hW.2.2.2.1, (hU.2.2.2.2 hnp).2⟩

end Cosmos

/-! ### The EVM client: gas limits and the pending transaction -/

namespace Evm

/-- The estimation requests carry the call data of the transaction. -/
theorem estimateWithCeiling_data (client : Client) (sender : Address) (trans : EthTx) :
    (client.estimateWithCeiling sender trans).2.1.Data = trans.Data := by
  unfold Client.estimateWithCeiling
  dsimp only
  split
  · rfl
  · split <;> rfl

/-- A simulation that succeeds with the estimate `e` returns, without error, the padded
estimate or, when that is zero, the default. -/
theorem simulate_of_succeedsWith (client : Client) (sender : Address) (trans : EthTx)
    (asset : Option IAsset) (e : Nat) (msg : CallMsg)
    (h : client.SucceedsWith sender trans e msg) :
    client.SimulateGasWithLimit sender trans asset =
        (client.padGasLimit sender msg asset e, none) ∧
      msg.Data = trans.Data := by
  rcases h with ⟨hok, hmsg⟩ | ⟨err, herr, hins, hmsg, hretry⟩
  · refine ⟨?_, by rw [hmsg]; exact estimateWithCeiling_data client sender trans⟩
    unfold Client.SimulateGasWithLimit
    simp only [hok, hmsg]
  · refine ⟨?_, by rw [hmsg]; exact estimateWithCeiling_data client sender trans⟩
    rw [hmsg] at hretry
    unfold Client.SimulateGasWithLimit
    simp only [herr, hins, if_true, hretry, hmsg]

/-- A simulation that returns no error either succeeded with some external estimate or fell
back to the default gas limit. -/
theorem simulate_no_error (client : Client) (sender : Address) (trans : EthTx)
    (asset : Option IAsset) (h : (client.SimulateGasWithLimit sender trans asset).2 = none) :
    (∃ e msg, client.SucceedsWith sender trans e msg) ∨
      client.SimulateGasWithLimit sender trans asset = (client.DefaultGasLimit asset, none) := by
  cases hfirst : (client.estimateWithCeiling sender trans).1 with
  | ok g => exact Or.inl ⟨g, _, Or.inl ⟨hfirst, rfl⟩⟩
  | error err =>
    by_cases hins : stringsContains err "insufficient funds" = true
    · cases hretry : client.EthClient.EstimateGas (client.estimateWithCeiling sender trans).2.2
          { (client.estimateWithCeiling sender trans).2.1 with Value := 0 } with
      | ok g => exact Or.inl ⟨g, _, Or.inr ⟨err, hfirst, hins, rfl, hretry⟩⟩
      | error e2 =>
        exfalso
        unfold Client.SimulateGasWithLimit at h
        simp only [hfirst, hins, if_true, hretry] at h
        simp at h
    · by_cases hbase : stringsContains err "less than the block's baseFeePerGas" = true
      · right
        unfold Client.SimulateGasWithLimit
        simp [hfirst, hins, hbase]
      · exfalso
        unfold Client.SimulateGasWithLimit at h
        simp [hfirst, hins, hbase] at h

/-- Claim C11. Every call of `SimulateGasWithLimit` that returns without error returns a gas
limit that is not zero; and when a simulation succeeds with an external estimate whose padded
value (with the wrap-around of `uint64`) is zero, in particular with the estimate 0 for a
transaction without call data, the result is `DefaultGasLimit(asset)`. -/
theorem simulateGasWithLimit_nonzero (client : Client) (sender : Address) (trans : EthTx)
    (asset : Option IAsset) :
    ((client.SimulateGasWithLimit sender trans asset).2 = none →
        (client.SimulateGasWithLimit sender trans asset).1 ≠ 0) ∧
      (∀ e msg, client.SucceedsWith sender trans e msg →
        client.paddedGasLimit sender msg e = 0 →
        client.SimulateGasWithLimit sender trans asset =
          (client.DefaultGasLimit asset, none)) ∧
      (∀ msg, client.SucceedsWith sender trans 0 msg → trans.Data = [] →
        client.SimulateGasWithLimit sender trans asset =
          (client.DefaultGasLimit asset, none)) := by
  refine ⟨?_, ?_, ?_⟩
  · intro h
    rcases simulate_no_error client sender trans asset h with ⟨e, msg, hs⟩ | hd
    · rw [(simulate_of_succeedsWith client sender trans asset e msg hs).1]
      exact padGasLimit_ne_zero _ _ _ _ _
    · rw [hd]
      exact defaultGasLimit_ne_zero client asset
  · intro e msg hs hzero
    rw [(simulate_of_succeedsWith client sender trans asset e msg hs).1]
    simp [Client.padGasLimit, hzero]
  · intro msg hs hdata
    obtain ⟨hres, hmsg⟩ := simulate_of_succeedsWith client sender trans asset 0 msg hs
    rw [hres]
    simp [Client.padGasLimit, Client.paddedGasLimit, hmsg, hdata]

/-- Claim C11, witness. The estimate 0 for a transfer without call data gives the default
90000 and, for a token asset, 500000; the estimate `2^64 - 1000` for a call with data wraps to
zero under the padding and gives the default 90000. -/
theorem simulateGasWithLimit_nonzero_witness :
    (exampleClient none (constantEstimate 0)).SimulateGasWithLimit "0xsender" exampleEthTx none =
        (90000, none) ∧
      ((exampleClient none (constantEstimate 0)).SimulateGasWithLimit "0xsender" exampleEthTx
        (some exampleToken)).1 ≠ 0 ∧
      (exampleClient none (constantEstimate (2 ^ 64 - 1000))).SimulateGasWithLimit "0xsender"
        exampleCallTx none = (90000, none) :=
  ⟨(simulateGasWithLimit_nonzero (exampleClient none (constantEstimate 0)) "0xsender"
      exampleEthTx none).2.2 _ (Or.inl ⟨rfl, rfl⟩) rfl,
    (simulateGasWithLimit_nonzero (exampleClient none (constantEstimate 0)) "0xsender"
      exampleEthTx (some exampleToken)).1 rfl,
    (simulateGasWithLimit_nonzero (exampleClient none (constantEstimate (2 ^ 64 - 1000)))
      "0xsender" exampleCallTx none).2.1 (2 ^ 64 - 1000) _ (Or.inl ⟨rfl, rfl⟩) (by decide)⟩

/-- The padded estimate for a message with call data, in terms of the condition of the
second padding. -/
theorem paddedGasLimit_of_data (client : Client) (sender : Address) (msg : CallMsg) (e : Nat)
    (hdata : msg.Data ≠ []) :
    client.paddedGasLimit sender msg e =
      if client.canAffordPadding sender = true then ((e + 1000) % 2 ^ 64 + 70000) % 2 ^ 64
      else (e + 1000) % 2 ^ 64 := by
  have hlen : msg.Data.length > 0 := List.length_pos.mpr hdata
  unfold Client.paddedGasLimit Client.canAffordPadding
  simp only [hlen, if_true]
  cases client.EthClient.FetchNativeBalance sender with
  | ok amountEth =>
    dsimp only
    by_cases hrich : amountEth ≥ (10 : Int) ^ client.Chain.Decimals.toNat
    · simp [hrich]
    · simp [hrich]
  | error err => simp

/-- Claim C19, as stated, fails. The external estimate `2^64 - 1` for a call with data, from
a sender whose balance is below one native unit, gives the result 999, which is neither the
estimate plus 1000 nor the estimate plus 71000. -/
theorem simulateGasWithLimit_padding_wraps :
    (exampleClient none (constantEstimate (2 ^ 64 - 1))).SucceedsWith "0xsender" exampleCallTx
        (2 ^ 64 - 1)
        ((exampleClient none (constantEstimate (2 ^ 64 - 1))).estimateWithCeiling "0xsender"
          exampleCallTx).2.1 ∧
      exampleCallTx.Data ≠ [] ∧
      (exampleClient none (constantEstimate (2 ^ 64 - 1))).canAffordPadding "0xsender" = false ∧
      (exampleClient none (constantEstimate (2 ^ 64 - 1))).SimulateGasWithLimit "0xsender"
        exampleCallTx none = (999, none) ∧
      (999 : Nat) ≠ (2 ^ 64 - 1) + 1000 := by
  refine ⟨Or.inl ⟨rfl, rfl⟩, by decide, by decide, by decide, by decide⟩

/-- Claim C19, amended. For every gas simulation that succeeds with the external estimate
`e`, no error is returned and: when the call data is empty the result is `e`, or the default
when `e` is zero; when the call data is not empty the result is `e + 1000` reduced modulo
`2^64`, plus a further 70000, again modulo `2^64`, exactly when the native balance of the
sender was fetched without error and is at least one whole native unit, or the default when
that value is zero; so without wrap-around (`e + 71000 < 2^64`) it is `e + 1000`, plus 70000
under that condition. -/
theorem simulateGasWithLimit_padding (client : Client) (sender : Address) (trans : EthTx)
    (asset : Option IAsset) (e : Nat) (msg : CallMsg)
    (h : client.SucceedsWith sender trans e msg) :
    (client.SimulateGasWithLimit sender trans asset).2 = none ∧
      (trans.Data = [] →
        (client.SimulateGasWithLimit sender trans asset).1 =
          if e = 0 then client.DefaultGasLimit asset else e) ∧
      (trans.Data ≠ [] →
        (client.SimulateGasWithLimit sender trans asset).1 =
          if (if client.canAffordPadding sender = true then
                ((e + 1000) % 2 ^ 64 + 70000) % 2 ^ 64
              else (e + 1000) % 2 ^ 64) = 0
          then client.DefaultGasLimit asset
          else (if client.canAffordPadding sender = true then
                  ((e + 1000) % 2 ^ 64 + 70000) % 2 ^ 64
                else (e + 1000) % 2 ^ 64)) ∧
      (trans.Data ≠ [] → e + 71000 < 2 ^ 64 →
        (client.SimulateGasWithLimit sender trans asset).1 =
          e + 1000 + (if client.canAffordPadding sender = true then 70000 else 0)) := by
  obtain ⟨hres, hmsg⟩ := simulate_of_succeedsWith client sender trans asset e msg h
  have hfull : trans.Data ≠ [] →
      (client.SimulateGasWithLimit sender trans asset).1 =
        if (if client.canAffordPadding sender = true then
              ((e + 1000) % 2 ^ 64 + 70000) % 2 ^ 64
            else (e + 1000) % 2 ^ 64) = 0
        then client.DefaultGasLimit asset
        else (if client.canAffordPadding sender = true then
                ((e + 1000) % 2 ^ 64 + 70000) % 2 ^ 64
              else (e + 1000) % 2 ^ 64) := by
    intro hdata
    rw [hres]
    simp only [Client.padGasLimit]
    rw [paddedGasLimit_of_data client sender msg e (by rw [hmsg]; exact hdata)]
  refine ⟨by rw [hres], ?_, hfull, ?_⟩
  · intro hdata
    rw [hres]
    simp [Client.padGasLimit, Client.paddedGasLimit, hmsg, hdata]
  · intro hdata hsmall
    rw [hfull hdata]
    by_cases hrich : client.canAffordPadding sender = true
    · simp only [hrich, if_true]
      have h1 : ((e + 1000) % 2 ^ 64 + 70000) % 2 ^ 64 = e + 1000 + 70000 := by omega
      rw [h1]
      simp
    · simp only [hrich, if_false]
      have h1 : (e + 1000) % 2 ^ 64 = e + 1000 := by omega
      rw [h1]
      simp

/-- Claim C19, witness. The estimate 21000 without call data gives 21000; the estimate 50000
for a call with data, from a sender whose balance is below one native unit, gives 51000. -/
theorem simulateGasWithLimit_padding_witness :
    (exampleClient none (constantEstimate 21000)).SucceedsWith "0xsender" exampleEthTx 21000
        ((exampleClient none (constantEstimate 21000)).estimateWithCeiling "0xsender"
          exampleEthTx).2.1 ∧
      ((exampleClient none (constantEstimate 21000)).SimulateGasWithLimit "0xsender"
        exampleEthTx none).1 = (if (21000 : Nat) = 0 then 90000 else 21000) ∧
      ((exampleClient none (constantEstimate 50000)).SimulateGasWithLimit "0xsender"
        exampleCallTx none).1 = 50000 + 1000 + 0 :=
  ⟨Or.inl ⟨rfl, rfl⟩,
    (simulateGasWithLimit_padding (exampleClient none (constantEstimate 21000)) "0xsender"
      exampleEthTx none 21000 _ (Or.inl ⟨rfl, rfl⟩)).2.1 rfl,
    (simulateGasWithLimit_padding (exampleClient none (constantEstimate 50000)) "0xsender"
      exampleCallTx none 50000 _ (Or.inl ⟨rfl, rfl⟩)).2.2.2 (by decide) (by decide)⟩

/-- Claim C20. `DefaultGasLimit` is 4000000 when the chain of the client is ArbETH, whatever
the asset; on any other chain it is 500000 for an asset with a contract and 90000 for an
asset without contract and for no asset; the token default exceeds the native default, and
the result is never zero. -/
theorem defaultGasLimit_values (client : Client) (asset : Option IAsset) :
    (client.Chain.Chain = ArbETH → client.DefaultGasLimit asset = 4000000) ∧
      (client.Chain.Chain ≠ ArbETH →
        (∀ a, asset = some a → a.GetContract ≠ "" → client.DefaultGasLimit asset = 500000) ∧
        (∀ a, asset = some a → a.GetContract = "" → client.DefaultGasLimit asset = 90000) ∧
        (asset = none → client.DefaultGasLimit asset = 90000)) ∧
      (90000 : Nat) < 500000 ∧
      client.DefaultGasLimit asset ≠ 0 := by
  refine ⟨?_, ?_, by decide, defaultGasLimit_ne_zero client asset⟩
  · intro harb
    simp [Client.DefaultGasLimit, harb]
  · intro hnot
    refine ⟨?_, ?_, ?_⟩
    · intro a ha hc
      simp [Client.DefaultGasLimit, hnot, ha, hc]
    · intro a ha hc
      simp [Client.DefaultGasLimit, hnot, ha, hc]
    · intro ha
      simp [Client.DefaultGasLimit, hnot, ha]

/-- Claim C20, witness. On ArbETH the default for a token is 4000000; on ETH it is 500000 for
a token, 90000 for the chain asset and 90000 for no asset. -/
theorem defaultGasLimit_values_witness :
    (exampleClientOn "ArbETH" revertingEstimate).DefaultGasLimit (some exampleToken) = 4000000 ∧
      (exampleClientOn "ETH" revertingEstimate).DefaultGasLimit (some exampleToken) = 500000 ∧
      (exampleClientOn "ETH" revertingEstimate).DefaultGasLimit
        (some (.chain (exampleClientOn "ETH" revertingEstimate).Chain)) = 90000 ∧
      (exampleClientOn "ETH" revertingEstimate).DefaultGasLimit none = 90000 :=
  ⟨(defaultGasLimit_values (exampleClientOn "ArbETH" revertingEstimate)
      (some exampleToken)).1 rfl,
    (defaultGasLimit_values (exampleClientOn "ETH" revertingEstimate)
      (some exampleToken)).2.1 (by decide) |>.1 exampleToken rfl (by decide),
    (defaultGasLimit_values (exampleClientOn "ETH" revertingEstimate)
      (some (.chain (exampleClientOn "ETH" revertingEstimate).Chain))).2.1 (by decide)
      |>.2.1 _ rfl rfl,
    (defaultGasLimit_values (exampleClientOn "ETH" revertingEstimate) none).2.1 (by decide)
      |>.2.2 rfl⟩

/-- On a gas-charging chain whose node answers the nonce, chain id, header and tip requests,
`FetchUnsimulatedInput` returns, without error, the fresh input adjusted to the pending
pool. -/
theorem fetchUnsimulatedInput_eq (client : Client) (sender : Address) (nonce : Nat)
    (chainId baseFee tip : BigInt)
    (hgas : client.Chain.NoGasFees = false)
    (hnonce : client.GetNonce sender = .ok nonce)
    (hchain : client.EthClient.ChainID = .ok chainId)
    (hhead : client.EthClient.HeaderByNumber = .ok (some baseFee))
    (htip : client.EthClient.SuggestGasTipCap = .ok tip) :
    client.FetchUnsimulatedInput sender =
      .ret (client.adjustToPending sender (client.freshInput nonce chainId baseFee tip)) none := by
  unfold Client.FetchUnsimulatedInput Client.freshInput
  simp only [hnonce, hchain, hgas, hhead, htip]
  by_cases hlt : baseFee < client.ApplyGasPriceMultiplier tip
  · simp [hlt]
  · simp [hlt]

/-- On a gas-charging chain whose node answers the nonce, chain id, header and tip requests:
when a pending transaction of the sender is visible, `FetchUnsimulatedInput` returns without
error the greater of the fresh value and the helper's value for the pending one, for each
cap, and nothing else changed; when the pool cannot be inspected or shows no transaction of
the sender, it returns without error the freshly computed input. -/
theorem fetchUnsimulatedInput_adjusted (client : Client) (sender : Address) (nonce : Nat)
    (chainId baseFee tip : BigInt)
    (hgas : client.Chain.NoGasFees = false)
    (hnonce : client.GetNonce sender = .ok nonce)
    (hchain : client.EthClient.ChainID = .ok chainId)
    (hhead : client.EthClient.HeaderByNumber = .ok (some baseFee))
    (htip : client.EthClient.SuggestGasTipCap = .ok tip) :
    (∀ info pending,
      client.EthClient.TxPoolContentFrom (client.fromAddr sender) = .ok info →
      info sender = some pending →
      ∃ result, client.FetchUnsimulatedInput sender = .ret result none ∧
        client.MultiplyByFloat115 pending.MaxFeePerGas ≤ result.GasFeeCap ∧
        client.MultiplyByFloat115 pending.MaxPriorityFeePerGas ≤ result.GasTipCap ∧
        (client.freshInput nonce chainId baseFee tip).GasFeeCap ≤ result.GasFeeCap ∧
        (client.freshInput nonce chainId baseFee tip).GasTipCap ≤ result.GasTipCap ∧
        result.GasFeeCap = max (client.freshInput nonce chainId baseFee tip).GasFeeCap
          (client.MultiplyByFloat115 pending.MaxFeePerGas) ∧
        result.GasTipCap = max (client.freshInput nonce chainId baseFee tip).GasTipCap
          (client.MultiplyByFloat115 pending.MaxPriorityFeePerGas) ∧
        result.Nonce = nonce ∧ result.ChainId = chainId) ∧
      (((∃ e, client.EthClient.TxPoolContentFrom (client.fromAddr sender) = .error e) ∨
          (∃ info, client.EthClient.TxPoolContentFrom (client.fromAddr sender) = .ok info ∧
            info sender = none)) →
        client.FetchUnsimulatedInput sender =
          .ret (client.freshInput nonce chainId baseFee tip) none) := by
  have heq := fetchUnsimulatedInput_eq client sender nonce chainId baseFee tip hgas hnonce
    hchain hhead htip
  constructor
  · intro info pending hpool hinfo
    refine ⟨_, heq, ?_⟩
    unfold Client.adjustToPending
    simp only [hpool, hinfo]
    have hN : (client.freshInput nonce chainId baseFee tip).Nonce = nonce := rfl
    have hC : (client.freshInput nonce chainId baseFee tip).ChainId = chainId := rfl
    generalize client.freshInput nonce chainId baseFee tip = fresh at hN hC ⊢
    generalize client.MultiplyByFloat115 pending.MaxFeePerGas = minMaxFee
    generalize client.MultiplyByFloat115 pending.MaxPriorityFeePerGas = minPriorityFee
    by_cases h1 : fresh.GasFeeCap < minMaxFee <;> by_cases h2 : fresh.GasTipCap < minPriorityFee
    · simp only [h1, h2, if_true]
      refine ⟨le_refl _, le_refl _, le_of_lt h1, le_of_lt h2, ?_, ?_, hN, hC⟩
      · exact (max_eq_right (le_of_lt h1)).symm
      · exact (max_eq_right (le_of_lt h2)).symm
    · simp only [h1, h2, if_true, if_false]
      refine ⟨le_refl _, not_lt.mp h2, le_of_lt h1, le_refl _, ?_, ?_, hN, hC⟩
      · exact (max_eq_right (le_of_lt h1)).symm
      · exact (max_eq_left (not_lt.mp h2)).symm
    · simp only [h1, h2, if_true, if_false]
      refine ⟨not_lt.mp h1, le_refl _, le_refl _, le_of_lt h2, ?_, ?_, hN, hC⟩
      · exact (max_eq_left (not_lt.mp h1)).symm
      · exact (max_eq_right (le_of_lt h2)).symm
    · simp only [h1, h2, if_false]
      refine ⟨not_lt.mp h1, not_lt.mp h2, le_refl _, le_refl _, ?_, ?_, hN, hC⟩
      · exact (max_eq_left (not_lt.mp h1)).symm
      · exact (max_eq_left (not_lt.mp h2)).symm
  · intro h
    rw [heq]
    unfold Client.adjustToPending
    rcases h with ⟨e, he⟩ | ⟨info, hpool, hinfo⟩
    · simp only [he]
    · simp only [hpool, hinfo]

end Evm

/-! ### The Tron address builder: the two encodings of a key -/

namespace Tron

/-- The address of an input that parses as a public key: the encoding of the last 20 bytes of
the hash of the uncompressed serialisation of the parsed key, without its format byte. The
address depends on the input through the parsed key alone. -/
theorem getAddressFromPublicKey_of_parsed (lib : Library) (publicKeyBytes : List Nat)
    (pk : PublicKey) (hb : ∀ x ∈ publicKeyBytes, x < 256) (hlen : 32 ≤ publicKeyBytes.length)
    (hparse : lib.ParsePubKey publicKeyBytes = .ok pk) :
    GetAddressFromPublicKey lib publicKeyBytes =
      .ret (lib.CheckEncode ((lib.Keccak256 (pk.SerializeUncompressed.drop 1)).drop 12) 65)
        none := by
  have hnot : ¬ publicKeyBytes.length < 32 := by omega
  simp only [GetAddressFromPublicKey, hnot, if_false, GetAddressByPublicKey, DecodeString,
    EncodeToString, decodeChars_encodeChars publicKeyBytes hb, hparse]
  rfl

/-- Claim C21. For every library and every public key `pk`, if the compressed encoding
(33 bytes) and the uncompressed encoding (65 bytes) both parse to `pk`, then
`GetAddressFromPublicKey` returns the same address and no error for both: the address is
computed from the uncompressed serialisation of the parsed key, whichever encoding was
given. -/
theorem getAddressFromPublicKey_compressed_eq_uncompressed (lib : Library)
    (compressed uncompressed : List Nat) (pk : PublicKey)
    (hc : ∀ x ∈ compressed, x < 256) (hu : ∀ x ∈ uncompressed, x < 256)
    (hclen : compressed.length = 33) (hulen : uncompressed.length = 65)
    (hcp : lib.ParsePubKey compressed = .ok pk)
    (hup : lib.ParsePubKey uncompressed = .ok pk) :
    GetAddressFromPublicKey lib compressed = GetAddressFromPublicKey lib uncompressed ∧
      ∃ address, GetAddressFromPublicKey lib compressed = .ret address none ∧
        GetAddressFromPublicKey lib uncompressed = .ret address none := by
  have h1 := getAddressFromPublicKey_of_parsed lib compressed pk hc (by omega) hcp
  have h2 := getAddressFromPublicKey_of_parsed lib uncompressed pk hu (by omega) hup
  exact ⟨by rw [h1, h2], _, h1, h2⟩

/-- Claim C21, witness. In the example library the compressed encoding `exampleCompressed`
and the uncompressed encoding `exampleUncompressed` parse to the same key, and both derive
the same address. -/
theorem getAddressFromPublicKey_compressed_eq_uncompressed_witness :
    exampleLibrary.ParsePubKey exampleCompressed =
        .ok { SerializeUncompressed := exampleUncompressed } ∧
      exampleLibrary.ParsePubKey exampleUncompressed =
        .ok { SerializeUncompressed := exampleUncompressed } ∧
      GetAddressFromPublicKey exampleLibrary exampleCompressed =
        GetAddressFromPublicKey exampleLibrary exampleUncompressed :=
  ⟨rfl, rfl,
    (getAddressFromPublicKey_compressed_eq_uncompressed exampleLibrary exampleCompressed
      exampleUncompressed { SerializeUncompressed := exampleUncompressed }
      (by decide) (by decide) (by decide) (by decide) rfl rfl).1⟩

end Tron

/-! ### The Solana builder: the single transfer, the prioritization fee and the fee payer -/

namespace Solana

/-- The transfer destinations of a concatenation. -/
theorem transferDestinations_append (l₁ l₂ : List Instruction) :
    transferDestinations (l₁ ++ l₂) = transferDestinations l₁ ++ transferDestinations l₂ := by
  induction l₁ with
  | nil => simp [transferDestinations]
  | cons i rest ih => cases i <;> simp [transferDestinations, ih]

/-- The create-account and prioritization fee instructions are not transfer destinations. -/
theorem transferDestinations_frame (lib : Library) (b : TxBuilder) (txInput : TxInput)
    (acc : Accounts) (instructions : List Instruction) :
    transferDestinations (createAtaInstructions lib txInput acc) = [] ∧
      transferDestinations (withPriorityFee lib b txInput instructions) =
        transferDestinations instructions := by
  constructor
  · unfold createAtaInstructions
    split <;> simp [transferDestinations]
  · unfold withPriorityFee
    dsimp only
    split <;> simp [transferDestinations_append, transferDestinations]

/-- The accounts resolved by a successful `resolveAccounts`: the sender and the recipient are
the keys parsed from `args.From` and `args.To`, and the destination token account is the
recipient itself when the input says it is a token account, else the key parsed from the
associated token address derived for the recipient, the contract and the token program. -/
theorem resolveAccounts_keys (lib : Library) (args : TransferArgs) (txInput : TxInput)
    (acc : Accounts) (h : resolveAccounts lib args txInput = .ok acc) :
    lib.PublicKeyFromBase58 args.From = .ok acc.accountFrom ∧
      lib.PublicKeyFromBase58 args.To = .ok acc.accountTo ∧
      (txInput.ToIsATA = true → acc.ataTo = acc.accountTo) ∧
      (txInput.ToIsATA = false →
        ∃ (asset : IAsset) (s : String), args.Asset = some asset ∧
          lib.FindAssociatedTokenAddress args.To asset.GetContract txInput.TokenProgram =
            .ok s ∧
          lib.PublicKeyFromBase58 s = .ok acc.ataTo) := by
  unfold resolveAccounts at h
  split at h
  · simp at h
  · rename_i asset hasset
    dsimp only at h
    split at h
    · simp at h
    · simp only [Outcome.bind_eq_ok, Outcome.ofExcept_eq_ok] at h
      obtain ⟨kFrom, hFrom, kContract, -, kTo, hTo, s, -, k, -, hrest⟩ := h
      split at hrest
      · rename_i hata
        simp only [Outcome.ok.injEq] at hrest
        subst hrest
        exact ⟨hFrom, hTo, fun _ => rfl, fun hf => by simp [hata] at hf⟩
      · rename_i hata
        simp only [Outcome.bind_eq_ok, Outcome.ofExcept_eq_ok, Outcome.ok.injEq] at hrest
        obtain ⟨s2, hs2, k2, hk2, hrest⟩ := hrest
        subst hrest
        refine ⟨hFrom, hTo, fun ht => absurd ht hata, fun _ => ⟨asset, s2, hasset, hs2, ?_⟩⟩
        unfold Library.MustPublicKeyFromBase58 at hk2
        split at hk2
        · rename_i k' hk'
          simp only [Outcome.ok.injEq] at hk2
          rw [hk', hk2]
        · simp at hk2

/-- Claim C22, as stated, fails. With one source token account listed and the requested
amount 2^64 + 5 the transfer succeeds and its single transfer instruction moves 5, not the
requested amount. -/
theorem newTokenTransfer_single_transfer_truncates :
    (exampleTokenInput [100]).SourceTokenAccounts.length ≤ 1 ∧
      ∃ tx : Tx,
        (exampleBuilder.NewTokenTransfer exampleLibrary exampleLibrary.TokenProgramID
            (exampleTokenArgs (2 ^ 64 + 5)) (.solana (exampleTokenInput [100]))).1 = .ok tx ∧
          tx.SolTx.Instructions =
            [.transferChecked 5 6 (List.replicate 32 1) (exampleKey "mint")
              (exampleKey "bob/mint") (exampleKey "alice") []] ∧
          ((5 : Nat) : Int) ≠ (exampleTokenArgs (2 ^ 64 + 5)).Amount := by
  refine ⟨by decide, _, rfl, ?_, ?_⟩ <;> decide

/-- Claim C22, amended. A successful token transfer whose input lists at most one source
token account emits, between the optional create-account instruction and the optional
prioritization fee instruction, exactly one transfer instruction; it is addressed to the
destination token account (the recipient itself when the input says it is a token account,
else the account derived for the recipient, the contract and the token program) and carries
the `uint64` conversion of the requested amount, which is the requested amount itself
whenever that lies in the `uint64` range. -/
theorem newTokenTransfer_single_transfer (lib : Library) (b : TxBuilder)
    (programID : PublicKey) (args : TransferArgs) (txInput : TxInput) (tx : Tx)
    (hlen : txInput.SourceTokenAccounts.length ≤ 1)
    (hok : (b.NewTokenTransfer lib programID args (.solana txInput)).1 = .ok tx) :
    ∃ acc : Accounts,
      resolveAccounts lib args txInput = .ok acc ∧
      tx.SolTx.Instructions =
        withPriorityFee lib b txInput
          (createAtaInstructions lib txInput acc ++
            [.transferChecked (BigInt.Uint64 args.Amount) (uint8 acc.decimals) acc.ataFrom
              acc.accountContract acc.ataTo acc.accountFrom []]) ∧
      transferAmounts tx.SolTx.Instructions = [BigInt.Uint64 args.Amount] ∧
      transferDestinations tx.SolTx.Instructions = [acc.ataTo] ∧
      (txInput.ToIsATA = true → lib.PublicKeyFromBase58 args.To = .ok acc.ataTo) ∧
      (txInput.ToIsATA = false →
        ∃ (asset : IAsset) (s : String), args.Asset = some asset ∧
          lib.FindAssociatedTokenAddress args.To asset.GetContract txInput.TokenProgram =
            .ok s ∧
          lib.PublicKeyFromBase58 s = .ok acc.ataTo) ∧
      (0 ≤ args.Amount → args.Amount < (2 ^ 64 : Int) →
        ((BigInt.Uint64 args.Amount : Nat) : Int) = args.Amount) := by
  obtain ⟨acc, instrs, payer, hacc, hinstrs, -, hI, -, -⟩ :=
    newTokenTransfer_ok lib b programID args txInput tx hok
  unfold transferInstructions at hinstrs
  simp only [hlen, if_true, Outcome.ok.injEq] at hinstrs
  obtain ⟨-, hTo, hata, hderived⟩ := resolveAccounts_keys lib args txInput acc hacc
  have hI2 : tx.SolTx.Instructions =
      withPriorityFee lib b txInput
        (createAtaInstructions lib txInput acc ++
          [.transferChecked (BigInt.Uint64 args.Amount) (uint8 acc.decimals) acc.ataFrom
            acc.accountContract acc.ataTo acc.accountFrom []]) := by
    rw [hI, ← hinstrs]
    rfl
  refine ⟨acc, hacc, hI2, ?_, ?_, ?_, hderived, ?_⟩
  · rw [hI2, (withPriorityFee_facts lib b txInput _).1, transferAmounts_append,
      (createAtaInstructions_facts lib txInput acc).1]
    rfl
  · rw [hI2, (transferDestinations_frame lib b txInput acc _).2, transferDestinations_append,
      (transferDestinations_frame lib b txInput acc []).1]
    rfl
  · intro ht
    rw [hata ht]
    exact hTo
  · intro h0 h1
    unfold BigInt.Uint64
    unfold BigInt at *
    omega

/-- Claim C22, witness. With one source token account of balance 35 listed and the
requested amount 35 the transfer succeeds with exactly one transfer instruction, of 35 to the
token account derived for the recipient `bob`. -/
theorem newTokenTransfer_single_transfer_witness :
    (exampleTokenInput [35]).SourceTokenAccounts.length ≤ 1 ∧
      ∃ (tx : Tx) (acc : Accounts),
        (exampleBuilder.NewTokenTransfer exampleLibrary exampleLibrary.TokenProgramID
            (exampleTokenArgs 35) (.solana (exampleTokenInput [35]))).1 = .ok tx ∧
          resolveAccounts exampleLibrary (exampleTokenArgs 35) (exampleTokenInput [35]) =
            .ok acc ∧
          acc.ataTo = exampleKey "bob/mint" ∧
          transferAmounts tx.SolTx.Instructions = [BigInt.Uint64 (exampleTokenArgs 35).Amount] ∧
          transferDestinations tx.SolTx.Instructions = [acc.ataTo] := by
  refine ⟨by decide, ?_⟩
  obtain ⟨acc, hacc, -, hamt, hdst, -, -, -⟩ :=
    newTokenTransfer_single_transfer exampleLibrary exampleBuilder
      exampleLibrary.TokenProgramID (exampleTokenArgs 35) (exampleTokenInput [35]) _
      (by decide) rfl
  refine ⟨_, acc, rfl, hacc, ?_, hamt, hdst⟩
  have hacc2 : resolveAccounts exampleLibrary (exampleTokenArgs 35) (exampleTokenInput [35]) =
      .ok { accountFrom := exampleKey "alice", accountContract := exampleKey "mint",
            accountTo := exampleKey "bob", ataFrom := List.replicate 32 1,
            ataTo := exampleKey "bob/mint", decimals := 6 } := by decide
  rw [hacc2] at hacc
  simp only [Outcome.ok.injEq] at hacc
  rw [← hacc]

/-- The create-account and transfer instructions of a token transfer hold no prioritization
fee instruction. -/
theorem transferInstructions_no_fee (lib : Library) (args : TransferArgs) (txInput : TxInput)
    (acc : Accounts) (out : List Instruction)
    (h : transferInstructions args txInput acc (createAtaInstructions lib txInput acc) =
      .ok out) :
    ∀ f, Instruction.setComputeUnitPrice f ∉ out := by
  intro f
  have hata : Instruction.setComputeUnitPrice f ∉ createAtaInstructions lib txInput acc := by
    unfold createAtaInstructions
    split <;> simp
  by_cases hlen : txInput.SourceTokenAccounts.length ≤ 1
  · unfold transferInstructions at h
    simp only [hlen, if_true, Outcome.ok.injEq] at h
    rw [← h]
    simp [hata, transferInstruction]
  · obtain ⟨left, hloop, -⟩ :=
      transferInstructions_fragmented args txInput acc _ _ (by omega) h
    obtain ⟨hout, -⟩ := spendLoop_ok acc _ _ _ _ _ hloop
    rw [hout]
    simp [hata, transferInstruction]

/-- Claim C23. In every successful token transfer build the instruction list holds a
set-compute-unit-price instruction if and only if the limited prioritization fee is positive;
when it is, the list is the create-account and transfer instructions followed by that one
instruction, which is therefore the last and carries exactly the fee. -/
theorem newTokenTransfer_priority_fee_last (lib : Library) (b : TxBuilder)
    (programID : PublicKey) (args : TransferArgs) (txInput : TxInput) (tx : Tx)
    (hok : (b.NewTokenTransfer lib programID args (.solana txInput)).1 = .ok tx) :
    ((∃ f, Instruction.setComputeUnitPrice f ∈ tx.SolTx.Instructions) ↔
        0 < lib.GetLimitedPrioritizationFee txInput b.Chain) ∧
      (0 < lib.GetLimitedPrioritizationFee txInput b.Chain →
        tx.SolTx.Instructions.getLast? =
            some (.setComputeUnitPrice (lib.GetLimitedPrioritizationFee txInput b.Chain)) ∧
          ∃ rest, tx.SolTx.Instructions =
              rest ++ [.setComputeUnitPrice (lib.GetLimitedPrioritizationFee txInput b.Chain)] ∧
            ∀ f, Instruction.setComputeUnitPrice f ∉ rest) := by
  obtain ⟨acc, instrs, payer, -, hinstrs, -, hI, -, -⟩ :=
    newTokenTransfer_ok lib b programID args txInput tx hok
  have hno := transferInstructions_no_fee lib args txInput acc instrs hinstrs
  unfold withPriorityFee at hI
  dsimp only at hI
  by_cases hfee : lib.GetLimitedPrioritizationFee txInput b.Chain > 0
  · simp only [hfee, if_true] at hI
    refine ⟨⟨fun _ => hfee, fun _ => ⟨lib.GetLimitedPrioritizationFee txInput b.Chain, ?_⟩⟩,
      fun _ => ⟨by rw [hI]; simp, ?_⟩⟩
    · rw [hI]
      simp
    exact ⟨instrs, hI, hno⟩
  · simp only [hfee, if_false] at hI
    refine ⟨⟨fun ⟨f, hf⟩ => absurd (hI ▸ hf) (hno f), fun h => absurd h hfee⟩,
      fun h => absurd h hfee⟩

/-- Claim C23, witness. With the prioritization fee 500 the token transfer of 35 succeeds
and its last instruction sets the compute unit price to 500; with the fee 0 the list holds
the transfer alone. -/
theorem newTokenTransfer_priority_fee_last_witness :
    exampleLibrary.GetLimitedPrioritizationFee (exampleFeeInput [35] 500) exampleBuilder.Chain =
        500 ∧
      (∃ tx : Tx,
        (exampleBuilder.NewTokenTransfer exampleLibrary exampleLibrary.TokenProgramID
            (exampleTokenArgs 35) (.solana (exampleFeeInput [35] 500))).1 = .ok tx ∧
          tx.SolTx.Instructions.getLast? = some (.setComputeUnitPrice 500)) ∧
      (∃ tx : Tx,
        (exampleBuilder.NewTokenTransfer exampleLibrary exampleLibrary.TokenProgramID
            (exampleTokenArgs 35) (.solana (exampleFeeInput [35] 0))).1 = .ok tx ∧
          ¬ ∃ f, Instruction.setComputeUnitPrice f ∈ tx.SolTx.Instructions) := by
  refine ⟨by decide, ⟨_, rfl, ?_⟩, ⟨_, rfl, ?_⟩⟩
  · exact ((newTokenTransfer_priority_fee_last exampleLibrary exampleBuilder
      exampleLibrary.TokenProgramID (exampleTokenArgs 35) (exampleFeeInput [35] 500) _ rfl).2
      (by decide)).1
  · intro h
    exact absurd
      ((newTokenTransfer_priority_fee_last exampleLibrary exampleBuilder
        exampleLibrary.TokenProgramID (exampleTokenArgs 35) (exampleFeeInput [35] 0) _ rfl).1.mp
        h)
      (by decide)

/-- Claim C24. In every successful token transfer build the fee payer of the assembled
transaction is the key parsed from the explicitly supplied fee payer when the arguments carry
one, and the key parsed from the sender `args.From` otherwise; the transaction references the
recent block hash of the input. -/
theorem newTokenTransfer_fee_payer (lib : Library) (b : TxBuilder) (programID : PublicKey)
    (args : TransferArgs) (txInput : TxInput) (tx : Tx)
    (hok : (b.NewTokenTransfer lib programID args (.solana txInput)).1 = .ok tx) :
    (∀ fee, args.FeePayer = some fee →
        ∃ k, lib.PublicKeyFromBase58 fee = .ok k ∧ tx.SolTx.FeePayer = some k) ∧
      (args.FeePayer = none →
        ∃ k, lib.PublicKeyFromBase58 args.From = .ok k ∧ tx.SolTx.FeePayer = some k) ∧
      tx.SolTx.RecentBlockHash = txInput.RecentBlockHash := by
  obtain ⟨acc, instrs, payer, hacc, -, hpayer, -, hF, hR⟩ :=
    newTokenTransfer_ok lib b programID args txInput tx hok
  obtain ⟨hFrom, -, -, -⟩ := resolveAccounts_keys lib args txInput acc hacc
  unfold resolveFeePayer at hpayer
  refine ⟨?_, ?_, hR⟩
  · intro fee hfee
    rw [hfee] at hpayer
    exact ⟨payer, (Outcome.ofExcept_eq_ok _ _).mp hpayer, hF⟩
  · intro hnone
    rw [hnone] at hpayer
    simp only [Outcome.ok.injEq] at hpayer
    exact ⟨acc.accountFrom, hFrom, by rw [hF, hpayer]⟩

/-- Claim C24, witness. With the explicit fee payer `carol` the token transfer of 35 from
`alice` succeeds and its fee payer is the key of `carol`; without one it is the key of
`alice`; both reference the recent block hash of the input. -/
theorem newTokenTransfer_fee_payer_witness :
    (∃ tx : Tx,
      (exampleBuilder.NewTokenTransfer exampleLibrary exampleLibrary.TokenProgramID
          (exampleFeePayerArgs 35) (.solana (exampleTokenInput [35]))).1 = .ok tx ∧
        tx.SolTx.FeePayer = some (exampleKey "carol") ∧
        tx.SolTx.RecentBlockHash = (exampleTokenInput [35]).RecentBlockHash) ∧
      (∃ tx : Tx,
        (exampleBuilder.NewTokenTransfer exampleLibrary exampleLibrary.TokenProgramID
            (exampleTokenArgs 35) (.solana (exampleTokenInput [35]))).1 = .ok tx ∧
          tx.SolTx.FeePayer = some (exampleKey "alice")) := by
  refine ⟨⟨_, rfl, ?_, ?_⟩, ⟨_, rfl, ?_⟩⟩
  · obtain ⟨k, hk, hF⟩ :=
      (newTokenTransfer_fee_payer exampleLibrary exampleBuilder exampleLibrary.TokenProgramID
        (exampleFeePayerArgs 35) (exampleTokenInput [35]) _ rfl).1 "carol" rfl
    have hk2 : k = exampleKey "carol" := by
      have hparse : exampleLibrary.PublicKeyFromBase58 "carol" = .ok (exampleKey "carol") := rfl
      rw [hparse] at hk
      exact (Except.ok.inj hk).symm
    rw [hF, hk2]
  · exact (newTokenTransfer_fee_payer exampleLibrary exampleBuilder
      exampleLibrary.TokenProgramID (exampleFeePayerArgs 35) (exampleTokenInput [35]) _ rfl).2.2
  · decide

/-- Claim C25, as stated, fails. A native transfer of the requested amount 2^64 + 1 succeeds
with a system transfer of 1, and one of the requested amount -7 with a system transfer of 7:
neither moves the requested amount. -/
theorem newNativeTransfer_truncates_amount :
    (∃ tx : Tx,
      exampleBuilder.NewNativeTransfer exampleLibrary exampleLibrary.TokenProgramID
          (exampleNativeArgs (2 ^ 64 + 1)) (.solana (exampleTokenInput [])) = .ok tx ∧
        tx.SolTx.Instructions = [.systemTransfer 1 (exampleKey "alice") (exampleKey "bob")] ∧
        ((1 : Nat) : Int) ≠ (exampleNativeArgs (2 ^ 64 + 1)).Amount) ∧
      (∃ tx : Tx,
        exampleBuilder.NewNativeTransfer exampleLibrary exampleLibrary.TokenProgramID
            (exampleNativeArgs (-7)) (.solana (exampleTokenInput [])) = .ok tx ∧
          tx.SolTx.Instructions = [.systemTransfer 7 (exampleKey "alice") (exampleKey "bob")] ∧
          ((7 : Nat) : Int) ≠ (exampleNativeArgs (-7)).Amount) := by
  refine ⟨⟨_, rfl, ?_, ?_⟩, ⟨_, rfl, ?_, ?_⟩⟩ <;> decide

/-- Claim C25, amended. The instruction list of every successful native transfer is exactly
one system transfer from the sender to the recipient (the keys parsed from `args.From` and
`args.To`), carrying the `uint64` conversion of the requested amount, followed by one
set-compute-unit-price instruction carrying the limited prioritization fee if and only if
that fee is positive; the conversion leaves a requested amount of the `uint64` range
unchanged. -/
theorem newNativeTransfer_instructions (lib : Library) (b : TxBuilder) (programID : PublicKey)
    (args : TransferArgs) (txInput : TxInput) (tx : Tx)
    (hok : b.NewNativeTransfer lib programID args (.solana txInput) = .ok tx) :
    ∃ accountFrom accountTo : PublicKey,
      lib.PublicKeyFromBase58 args.From = .ok accountFrom ∧
      lib.PublicKeyFromBase58 args.To = .ok accountTo ∧
      tx.SolTx.Instructions =
        .systemTransfer (BigInt.Uint64 args.Amount) accountFrom accountTo ::
          (if 0 < lib.GetLimitedPrioritizationFee txInput b.Chain then
            [.setComputeUnitPrice (lib.GetLimitedPrioritizationFee txInput b.Chain)]
          else []) ∧
      (0 ≤ args.Amount → args.Amount < (2 ^ 64 : Int) →
        ((BigInt.Uint64 args.Amount : Nat) : Int) = args.Amount) := by
  simp only [TxBuilder.NewNativeTransfer, Outcome.bind_eq_ok, Outcome.ofExcept_eq_ok] at hok
  obtain ⟨accountFrom, hFrom, accountTo, hTo, hbuild⟩ := hok
  refine ⟨accountFrom, accountTo, hFrom, hTo, ?_, ?_⟩
  · unfold buildSolanaTx at hbuild
    split at hbuild
    · simp at hbuild
    · simp only [Outcome.ok.injEq] at hbuild
      subst hbuild
      unfold withPriorityFee
      dsimp only
      split <;> rfl
  · intro h0 h1
    unfold BigInt.Uint64
    unfold BigInt at *
    omega

/-- Claim C25, witness. A native transfer of 1000 from `alice` to `bob` with the
prioritization fee 500 succeeds with a system transfer of 1000 followed by the instruction
setting the compute unit price to 500; with the fee 0, with the system transfer alone. -/
theorem newNativeTransfer_instructions_witness :
    (∃ tx : Tx,
      exampleBuilder.NewNativeTransfer exampleLibrary exampleLibrary.TokenProgramID
          (exampleNativeArgs 1000) (.solana (exampleFeeInput [] 500)) = .ok tx ∧
        tx.SolTx.Instructions =
          [.systemTransfer 1000 (exampleKey "alice") (exampleKey "bob"),
           .setComputeUnitPrice 500]) ∧
      (∃ tx : Tx,
        exampleBuilder.NewNativeTransfer exampleLibrary exampleLibrary.TokenProgramID
            (exampleNativeArgs 1000) (.solana (exampleFeeInput [] 0)) = .ok tx ∧
          tx.SolTx.Instructions =
            [.systemTransfer 1000 (exampleKey "alice") (exampleKey "bob")]) := by
  refine ⟨⟨_, rfl, ?_⟩, ⟨_, rfl, ?_⟩⟩
  · obtain ⟨accountFrom, accountTo, hFrom, hTo, hI, -⟩ :=
      newNativeTransfer_instructions exampleLibrary exampleBuilder
        exampleLibrary.TokenProgramID (exampleNativeArgs 1000) (exampleFeeInput [] 500) _ rfl
    have h1 : accountFrom = exampleKey "alice" := (Except.ok.inj hFrom).symm
    have h2 : accountTo = exampleKey "bob" := (Except.ok.inj hTo).symm
    rw [hI, h1, h2]
    decide
  · decide

end Solana

/-! ### The Cosmos staking builders: the message of a withdrawal -/

namespace Cosmos

/-- A successful `Withdraw` carries the withdraw-rewards message of the sender and the
validator of the arguments. -/
theorem withdraw_ok (lib : Library) (txBuilder : TxBuilder) (args : StakeArgs)
    (input : StakeTxInput) (tx : Tx) (h : txBuilder.Withdraw lib args input = .ok tx) :
    ∃ validator, args.Validator = some validator ∧
      tx.Msg = .MsgWithdrawDelegatorReward args.From validator := by
  unfold TxBuilder.Withdraw at h
  dsimp only at h
  split at h
  · split at h
    · simp at h
    · rename_i validator hv
      split at h
      · simp at h
      · unfold createTxWithMsg at h
        split at h
        · simp at h
        · simp only [Solana.Outcome.ok.injEq] at h
          subst h
          exact ⟨validator, hv, rfl⟩
  · simp at h

/-- Claim C26. For any two successful calls of `Withdraw` whose arguments differ only in the
amount (whatever their inputs), the message of the two transactions is the same: the one
withdraw-rewards message, which carries the delegator `args.From` and the validator and no
amount. -/
theorem withdraw_message_independent_of_amount (lib : Library) (txBuilder : TxBuilder)
    (args : StakeArgs) (amount' : BigInt) (input input' : StakeTxInput) (tx tx' : Tx)
    (h : txBuilder.Withdraw lib args input = .ok tx)
    (h' : txBuilder.Withdraw lib { args with Amount := amount' } input' = .ok tx') :
    tx.Msg = tx'.Msg ∧
      ∃ validator, args.Validator = some validator ∧
        tx.Msg = .MsgWithdrawDelegatorReward args.From validator := by
  obtain ⟨v, hv, hm⟩ := withdraw_ok lib txBuilder args input tx h
  obtain ⟨v', hv', hm'⟩ := withdraw_ok lib txBuilder _ input' tx' h'
  dsimp only at hv' hm'
  rw [hv] at hv'
  simp only [Option.some.injEq] at hv'
  subst hv'
  exact ⟨by rw [hm, hm'], v, hv, hm⟩

/-- Claim C26, witness. With a public key, the withdrawals for the amounts 5 and 900 both
succeed, and both carry the message withdrawing the rewards of `cosmos1sender` from the
validator `cosmosvaloper1`. -/
theorem withdraw_message_independent_of_amount_witness :
    ∃ tx tx' : Tx,
      exampleBuilder.Withdraw exampleLibrary (exampleArgs 5 (some [2, 1]))
          (.withdraw exampleInput) = .ok tx ∧
        exampleBuilder.Withdraw exampleLibrary (exampleArgs 900 (some [2, 1]))
          (.withdraw exampleInput) = .ok tx' ∧
        tx.Msg = tx'.Msg ∧
        tx.Msg = .MsgWithdrawDelegatorReward "cosmos1sender" "cosmosvaloper1" :=
  ⟨_, _, rfl, rfl,
    (withdraw_message_independent_of_amount exampleLibrary exampleBuilder
      (exampleArgs 5 (some [2, 1])) 900 (.withdraw exampleInput) (.withdraw exampleInput) _ _
      rfl rfl).1,
    rfl⟩

end Cosmos

/-! ### The EVM client: a chain without gas fees -/

namespace Evm

/-- Claim C27. On a chain that charges no gas (`NoGasFees`), every call of
`FetchUnsimulatedInput` that returns without error returns the fee cap 0 and the tip cap 0;
the call returns without error exactly when the nonce and the chain id are fetched, and then
the result is the new input with that nonce and chain id and both caps 0. -/
theorem fetchUnsimulatedInput_no_gas_fees (client : Client) (sender : Address)
    (hfree : client.Chain.NoGasFees = true) :
    (∀ result, client.FetchUnsimulatedInput sender = .ret result none →
        result.GasFeeCap = 0 ∧ result.GasTipCap = 0) ∧
      (∀ nonce chainId, client.GetNonce sender = .ok nonce →
        client.EthClient.ChainID = .ok chainId →
        client.FetchUnsimulatedInput sender =
          .ret { client.NewTxInput with
                 Nonce := nonce, ChainId := chainId, GasFeeCap := 0, GasTipCap := 0 } none) := by
  constructor
  · intro result h
    unfold Client.FetchUnsimulatedInput at h
    dsimp only at h
    split at h
    · simp at h
    · split at h
      · simp at h
      · simp only [hfree, Bool.not_true, Bool.false_eq_true, if_false, FetchOutcome.ret.injEq,
          and_true] at h
        subst h
        exact ⟨rfl, rfl⟩
  · intro nonce chainId hn hc
    unfold Client.FetchUnsimulatedInput
    simp [hn, hc, hfree]

/-- Claim C27, witness. The example client of a chain without gas fees returns the nonce 7,
the chain id 1 and both caps 0, without error. -/
theorem fetchUnsimulatedInput_no_gas_fees_witness :
    exampleFreeClient.Chain.NoGasFees = true ∧
      ∃ result, exampleFreeClient.FetchUnsimulatedInput "0xsender" = .ret result none ∧
        result.Nonce = 7 ∧ result.ChainId = 1 ∧ result.GasFeeCap = 0 ∧ result.GasTipCap = 0 := by
  refine ⟨rfl, _, rfl, rfl, rfl, ?_⟩
  exact (fetchUnsimulatedInput_no_gas_fees exampleFreeClient "0xsender" rfl).1 _ rfl

end Evm

/-! ### The Bitcoin builder: token transfers and the signing of a built transaction -/

namespace Btc

/-- Claim C28. Whatever the builder, the arguments and the input, `NewTokenTransfer` of the
Bitcoin builder returns a nil transaction and the error whose text is "not implemented". -/
theorem newTokenTransfer_not_implemented (txBuilder : TxBuilder) (args : TransferArgs)
    (input : Crosschain.TxInput) (toHuman : BigInt → Int → String) :
    txBuilder.NewTokenTransfer args input = { tx := none, err := some .notImplemented } ∧
      (txBuilder.NewTokenTransfer args input).tx = none ∧
      (txBuilder.NewTokenTransfer args input).err.map (BuildError.Error toHuman) =
        some "not implemented" :=
  ⟨rfl, rfl, rfl⟩

/-- A transaction the builder returned is in the state `Built`: it is not signed and holds
no signature; it keeps the input it was built from and has one `TxIn` per unspent output. -/
theorem newNativeTransfer_built (txBuilder : TxBuilder) (args : TransferArgs) (input : TxInput)
    (tx : Tx)
    (hbuilt : txBuilder.NewNativeTransfer args (.btc input) = { tx := some tx, err := none }) :
    tx.Signed = false ∧ tx.Signatures = [] ∧ tx.Input = input ∧
      tx.MsgTx.TxIn.length = input.UnspentOutputs.length := by
  have htx : (buildNative txBuilder args input).tx = some tx := by
    have h := congrArg BuildResult.tx hbuilt
    exact h
  obtain ⟨-, -, -, hin⟩ := buildNative_values txBuilder args input tx htx
  refine ⟨?_, ?_, ?_, by rw [hin, List.length_map]⟩ <;>
    (unfold buildNative at htx
     dsimp only at htx
     split at htx
     · simp at htx
     · simp only [Option.some.injEq] at htx
       subst htx
       rfl)

/-- The signatures of a list all have a valid length exactly when each has 64 or 65 bytes. -/
theorem all_validLength (signatures : List TxSignature) :
    signatures.all validLength = true ↔ ∀ s ∈ signatures, s.length = 64 ∨ s.length = 65 := by
  simp [List.all_eq_true, validLength]

/-- A call of `AddSignatures` succeeds exactly when the transaction is not signed, every
signature has a valid length and there is one signature per unspent output, whichever
failure is reported first. -/
theorem addSignatures_eq_none (lengthFirst : Bool) (tx : Tx) (signatures : List TxSignature) :
    (tx.AddSignatures lengthFirst signatures).2 = none ↔
      tx.Signed = false ∧ signatures.all validLength = true ∧
        signatures.length = tx.Input.UnspentOutputs.length := by
  unfold Tx.AddSignatures
  cases lengthFirst <;> cases hs : tx.Signed <;>
    by_cases hv : signatures.all validLength = true <;>
    by_cases hc : signatures.length = tx.Input.UnspentOutputs.length <;>
    simp [hs, hv, hc, Option.orElse]

/-- On a transaction that is not signed, with signatures of valid lengths, `AddSignatures`
binds the signatures when there is one per unspent output and reports the numbers expected
and given otherwise, whichever failure is reported first. -/
theorem addSignatures_of_valid (lengthFirst : Bool) (tx : Tx) (signatures : List TxSignature)
    (hs : tx.Signed = false) (hv : signatures.all validLength = true) :
    (signatures.length = tx.Input.UnspentOutputs.length →
        tx.AddSignatures lengthFirst signatures =
          ({ tx with Signed := true, Signatures := signatures }, none)) ∧
      (signatures.length ≠ tx.Input.UnspentOutputs.length →
        tx.AddSignatures lengthFirst signatures =
          (tx, some (.countMismatch tx.Input.UnspentOutputs.length signatures.length))) := by
  unfold Tx.AddSignatures
  constructor <;> intro hc <;> cases lengthFirst <;> simp [hs, hv, hc, Option.orElse]

/-- A call of `AddSignatures` on a signed transaction fails with `alreadySigned` and leaves
the transaction as it was. -/
theorem addSignatures_of_signed (lengthFirst : Bool) (tx : Tx) (signatures : List TxSignature)
    (hs : tx.Signed = true) :
    tx.AddSignatures lengthFirst signatures = (tx, some .alreadySigned) := by
  unfold Tx.AddSignatures
  simp [hs]

/-- Claim C29. For a transaction the builder returned for an input of `n` unspent outputs
(which has `n` transaction inputs), `AddSignatures` succeeds only when given exactly `n`
signatures; given signatures of 64 or 65 bytes each, it succeeds and binds them when they are
`n`, and for any other number `m` it fails with the count mismatch whose text is
"expected n signatures, got m signatures", leaving the transaction as it was. This holds
whichever of the length and the count failure is reported first. -/
theorem addSignatures_requires_one_per_input (lengthFirst : Bool) (txBuilder : TxBuilder)
    (args : TransferArgs) (input : TxInput) (tx : Tx) (signatures : List TxSignature)
    (hbuilt : txBuilder.NewNativeTransfer args (.btc input) = { tx := some tx, err := none })
    (hvalid : ∀ s ∈ signatures, s.length = 64 ∨ s.length = 65) :
    tx.MsgTx.TxIn.length = input.UnspentOutputs.length ∧
      (∀ given, (tx.AddSignatures lengthFirst given).2 = none →
        given.length = input.UnspentOutputs.length) ∧
      (signatures.length = input.UnspentOutputs.length →
        tx.AddSignatures lengthFirst signatures =
          ({ tx with Signed := true, Signatures := signatures }, none)) ∧
      (signatures.length ≠ input.UnspentOutputs.length →
        tx.AddSignatures lengthFirst signatures =
            (tx, some (.countMismatch input.UnspentOutputs.length signatures.length)) ∧
          (tx.AddSignatures lengthFirst signatures).2.map SignError.Error =
            some ("expected " ++ toString input.UnspentOutputs.length ++ " signatures, got " ++
              toString signatures.length ++ " signatures")) := by
  obtain ⟨hs, -, hinput, hin⟩ := newNativeTransfer_built txBuilder args input tx hbuilt
  have hv := (all_validLength signatures).mpr hvalid
  obtain ⟨hok, hbad⟩ := addSignatures_of_valid lengthFirst tx signatures hs hv
  subst hinput
  refine ⟨hin, ?_, hok, ?_⟩
  · intro given hgiven
    exact ((addSignatures_eq_none lengthFirst tx given).mp hgiven).2.2
  · intro hc
    refine ⟨hbad hc, ?_⟩
    rw [hbad hc]
    rfl

/-- Claim C29, witness. The transfer of 15000 over two unspent outputs of 10000 each builds
a transaction with two inputs; two signatures of 65 bytes are accepted and one is rejected
with "expected 2 signatures, got 1 signatures". -/
theorem addSignatures_requires_one_per_input_witness :
    ∃ tx : Tx,
      (exampleBuilder "BTC").NewNativeTransfer (exampleArgs 15000)
          (.btc (exampleInput [10000, 10000] 0)) = { tx := some tx, err := none } ∧
        tx.MsgTx.TxIn.length = 2 ∧
        (tx.AddSignatures true [exampleSignature, exampleSignature]).2 = none ∧
        (tx.AddSignatures true [exampleSignature]).2.map SignError.Error =
          some "expected 2 signatures, got 1 signatures" := by
  have h := fun sigs hv =>
    addSignatures_requires_one_per_input true (exampleBuilder "BTC") (exampleArgs 15000)
      (exampleInput [10000, 10000] 0) _ sigs rfl hv
  refine ⟨_, rfl, (h [] (by decide)).1, ?_, ?_⟩
  · rw [(h [exampleSignature, exampleSignature] (by decide)).2.2.1 (by decide)]
  · rw [((h [exampleSignature] (by decide)).2.2.2 (by decide)).2]
    decide

/-- Claim C30. For a transaction the builder returned, a first call of `AddSignatures` with
valid signatures (one per unspent output, of 64 or 65 bytes each) succeeds and leaves the
transaction signed; every call after it, whatever the signatures, fails with the error whose
text is "already signed" and leaves the transaction as it is: the state `Signed` is never
left and never entered again. -/
theorem addSignatures_twice (lengthFirst : Bool) (txBuilder : TxBuilder) (args : TransferArgs)
    (input : TxInput) (tx : Tx) (signatures again : List TxSignature)
    (hbuilt : txBuilder.NewNativeTransfer args (.btc input) = { tx := some tx, err := none })
    (hcount : signatures.length = input.UnspentOutputs.length)
    (hvalid : ∀ s ∈ signatures, s.length = 64 ∨ s.length = 65) :
    (tx.AddSignatures lengthFirst signatures).2 = none ∧
      (tx.AddSignatures lengthFirst signatures).1.Signed = true ∧
      (tx.AddSignatures lengthFirst signatures).1.Signatures = signatures ∧
      (tx.AddSignatures lengthFirst signatures).1.AddSignatures lengthFirst again =
        ((tx.AddSignatures lengthFirst signatures).1, some .alreadySigned) ∧
      ((tx.AddSignatures lengthFirst signatures).1.AddSignatures lengthFirst again).2.map
          SignError.Error = some "already signed" := by
  obtain ⟨hs, -, hinput, -⟩ := newNativeTransfer_built txBuilder args input tx hbuilt
  have hv := (all_validLength signatures).mpr hvalid
  have hfirst := (addSignatures_of_valid lengthFirst tx signatures hs hv).1
    (by rw [hinput]; exact hcount)
  have hsecond := addSignatures_of_signed lengthFirst
    (tx.AddSignatures lengthFirst signatures).1 again (by rw [hfirst])
  refine ⟨by rw [hfirst], by rw [hfirst], by rw [hfirst], hsecond, ?_⟩
  rw [hsecond]
  rfl

/-- Claim C30, witness. The transfer of 10 over one unspent output of 1000 builds a
transaction; the signature of 65 bytes is accepted by a first call of `AddSignatures` and
rejected by a second with "already signed". -/
theorem addSignatures_twice_witness :
    ∃ tx : Tx,
      (exampleBuilder "BTC").NewNativeTransfer (exampleArgs 10) (.btc (exampleInput [1000] 0)) =
          { tx := some tx, err := none } ∧
        (tx.AddSignatures true [exampleSignature]).2 = none ∧
        ((tx.AddSignatures true [exampleSignature]).1.AddSignatures true
            [exampleSignature]).2.map SignError.Error = some "already signed" := by
  have h := addSignatures_twice true (exampleBuilder "BTC") (exampleArgs 10)
    (exampleInput [1000] 0) _ [exampleSignature] [exampleSignature] rfl (by decide) (by decide)
  exact ⟨_, rfl, h.1, h.2.2.2.2⟩

end Btc

/-! ### The Bitcoin transaction: signatures of a wrong length -/

namespace Btc

/-- A list holds a signature of a wrong length exactly when not all of its signatures have
a valid length. -/
theorem all_validLength_eq_false (signatures : List TxSignature) :
    signatures.all validLength = false ↔
      ∃ s ∈ signatures, s.length ≠ 64 ∧ s.length ≠ 65 := by
  rw [← Bool.not_eq_true, all_validLength]
  push_neg
  rfl

/-- A failed call of `AddSignatures` leaves the transaction as it was. -/
theorem addSignatures_fst_of_error (lengthFirst : Bool) (tx : Tx)
    (signatures : List TxSignature) (h : (tx.AddSignatures lengthFirst signatures).2 ≠ none) :
    (tx.AddSignatures lengthFirst signatures).1 = tx := by
  unfold Tx.AddSignatures at h ⊢
  dsimp only at h ⊢
  split
  · rfl
  · split
    · rfl
    · rename_i hnone
      rw [if_neg (by assumption), hnone] at h
      exact absurd rfl h

/-- On a transaction that is not signed, a list holding a signature of a wrong length is
reported as `lengthInvalid` when the length failure is reported first or when there is one
signature per unspent output. -/
theorem addSignatures_of_invalid (lengthFirst : Bool) (tx : Tx) (signatures : List TxSignature)
    (hs : tx.Signed = false) (hv : signatures.all validLength = false)
    (hfirst : lengthFirst = true ∨ signatures.length = tx.Input.UnspentOutputs.length) :
    tx.AddSignatures lengthFirst signatures = (tx, some .lengthInvalid) := by
  unfold Tx.AddSignatures
  rcases hfirst with hl | hc
  · subst hl
    simp [hs, hv, Option.orElse]
  · cases lengthFirst <;> simp [hs, hv, hc, Option.orElse]

/-- Claim C31. For a transaction the builder returned, every call of `AddSignatures` with a
signature whose length is neither 64 nor 65 bytes fails and leaves the transaction as it was,
unsigned; the error is the one whose text is "signature must be 64 or 65 length" when there is
one signature per unspent output (and, if the length is checked before the number, for any
number of signatures); a following call with one signature of 64 or 65 bytes per unspent
output succeeds and signs the transaction. -/
theorem addSignatures_rejects_invalid_length (lengthFirst : Bool) (txBuilder : TxBuilder)
    (args : TransferArgs) (input : TxInput) (tx : Tx) (rejected valid : List TxSignature)
    (hbuilt : txBuilder.NewNativeTransfer args (.btc input) = { tx := some tx, err := none })
    (hbad : ∃ s ∈ rejected, s.length ≠ 64 ∧ s.length ≠ 65)
    (hcount : valid.length = input.UnspentOutputs.length)
    (hvalid : ∀ s ∈ valid, s.length = 64 ∨ s.length = 65) :
    (tx.AddSignatures lengthFirst rejected).2 ≠ none ∧
      (tx.AddSignatures lengthFirst rejected).1 = tx ∧
      (tx.AddSignatures lengthFirst rejected).1.Signed = false ∧
      (lengthFirst = true ∨ rejected.length = input.UnspentOutputs.length →
        tx.AddSignatures lengthFirst rejected = (tx, some .lengthInvalid) ∧
          (tx.AddSignatures lengthFirst rejected).2.map SignError.Error =
            some "signature must be 64 or 65 length") ∧
      (tx.AddSignatures lengthFirst rejected).1.AddSignatures lengthFirst valid =
        ({ tx with Signed := true, Signatures := valid }, none) := by
  obtain ⟨hs, -, hinput, -⟩ := newNativeTransfer_built txBuilder args input tx hbuilt
  subst hinput
  have hv := (all_validLength_eq_false rejected).mpr hbad
  have herr : (tx.AddSignatures lengthFirst rejected).2 ≠ none := by
    intro h
    have h2 := ((addSignatures_eq_none lengthFirst tx rejected).mp h).2.1
    rw [hv] at h2
    exact Bool.false_ne_true h2
  have hsame := addSignatures_fst_of_error lengthFirst tx rejected herr
  refine ⟨herr, hsame, by rw [hsame]; exact hs, ?_, ?_⟩
  · intro hfirst
    have h := addSignatures_of_invalid lengthFirst tx rejected hs hv hfirst
    refine ⟨h, ?_⟩
    rw [h]
    rfl
  · rw [hsame]
    exact (addSignatures_of_valid lengthFirst tx valid hs
      ((all_validLength valid).mpr hvalid)).1 hcount

/-- Claim C31, witness. On the transaction built for the transfer of 10 over one unspent
output of 1000, the signature of 4 bytes, one of 63 bytes and one of 66 bytes are each
rejected with "signature must be 64 or 65 length"; after the rejection of the first, the
signature of 65 bytes is accepted. -/
theorem addSignatures_rejects_invalid_length_witness :
    ∃ tx : Tx,
      (exampleBuilder "BTC").NewNativeTransfer (exampleArgs 10) (.btc (exampleInput [1000] 0)) =
          { tx := some tx, err := none } ∧
        (tx.AddSignatures false [[1, 2, 3, 4]]).2.map SignError.Error =
          some "signature must be 64 or 65 length" ∧
        (tx.AddSignatures false [List.replicate 63 0]).2.map SignError.Error =
          some "signature must be 64 or 65 length" ∧
        (tx.AddSignatures false [List.replicate 66 0]).2.map SignError.Error =
          some "signature must be 64 or 65 length" ∧
        (tx.AddSignatures false [[1, 2, 3, 4]]).1.Signed = false ∧
        ((tx.AddSignatures false [[1, 2, 3, 4]]).1.AddSignatures false [exampleSignature]).2 =
          none := by
  have h := fun rejected hbad =>
    addSignatures_rejects_invalid_length false (exampleBuilder "BTC") (exampleArgs 10)
      (exampleInput [1000] 0) _ rejected [exampleSignature] rfl hbad (by decide) (by decide)
  have h4 := h [[1, 2, 3, 4]] ⟨[1, 2, 3, 4], by decide, by decide⟩
  have h63 := h [List.replicate 63 0] ⟨List.replicate 63 0, by decide, by decide⟩
  have h66 := h [List.replicate 66 0] ⟨List.replicate 66 0, by decide, by decide⟩
  refine ⟨_, rfl, (h4.2.2.2.1 (Or.inr (by decide))).2, (h63.2.2.2.1 (Or.inr (by decide))).2,
    (h66.2.2.2.1 (Or.inr (by decide))).2, h4.2.2.1, ?_⟩
  rw [h4.2.2.2.2]

end Btc

/-! ### The Solana builder: the sum of a fragmented transfer -/

namespace Solana

/-- With a requested amount and balances that are not negative, the amounts of the
spend-down add up to no more than the requested amount. -/
theorem spendDownSpec_sum_le (l : List TokenAccount) (remaining : BigInt)
    (h0 : 0 ≤ remaining) (hb : ∀ t ∈ l, 0 ≤ t.Balance) :
    ((spendDownSpec l remaining).map Prod.snd).sum ≤ remaining := by
  induction l generalizing remaining with
  | nil => simp [spendDownSpec, h0]
  | cons tokenAcc rest ih =>
    have hbal : 0 ≤ tokenAcc.Balance := hb tokenAcc (by simp)
    have hm0 : 0 ≤ min remaining tokenAcc.Balance := le_min h0 hbal
    have hm1 : min remaining tokenAcc.Balance ≤ remaining := min_le_left _ _
    by_cases hdone : remaining - min remaining tokenAcc.Balance ≤ 0
    · simp [spendDownSpec, hdone]
    · have hrest := ih (remaining - min remaining tokenAcc.Balance) (by linarith)
        (fun t ht => hb t (by simp [ht]))
      simp only [spendDownSpec, hdone, if_false, List.map_cons, List.sum_cons]
      linarith

/-- Amounts that the `uint64` conversion leaves unchanged add up to the same total after the
conversion. -/
theorem sum_uint64_eq (sent : List (PublicKey × BigInt))
    (h : ∀ p ∈ sent, ((BigInt.Uint64 p.2 : Nat) : Int) = p.2) :
    (((sent.map fun p => BigInt.Uint64 p.2).sum : Nat) : Int) = (sent.map Prod.snd).sum := by
  induction sent with
  | nil => simp
  | cons p rest ih =>
    have hp := h p (by simp)
    have hrest := ih (fun q hq => h q (by simp [hq]))
    simp only [List.map_cons, List.sum_cons, Nat.cast_add, hp, hrest]

/-- Claim C32, as stated, fails. The requested amount -1, which is below 2^64, over balances
[4, 4] succeeds with one transfer of 1, whose sum is not the requested amount; and the
requested amount 5 over balances [-3, 10] succeeds with transfers of 3 and 8, which add up
to 11 and of which the first exceeds the balance -3 of the account it draws from. -/
theorem newTokenTransfer_amounts_miss_request :
    (∃ tx : Tx,
      (exampleBuilder.NewTokenTransfer exampleLibrary exampleLibrary.TokenProgramID
          (exampleTokenArgs (-1)) (.solana (exampleTokenInput [4, 4]))).1 = .ok tx ∧
        (exampleTokenArgs (-1)).Amount < (2 ^ 64 : Int) ∧
        transferAmounts tx.SolTx.Instructions = [1] ∧
        (((transferAmounts tx.SolTx.Instructions).sum : Nat) : Int) ≠
          (exampleTokenArgs (-1)).Amount) ∧
      (∃ tx : Tx,
        (exampleBuilder.NewTokenTransfer exampleLibrary exampleLibrary.TokenProgramID
            (exampleTokenArgs 5) (.solana (exampleTokenInput [-3, 10]))).1 = .ok tx ∧
          transferAmounts tx.SolTx.Instructions = [3, 8] ∧
          (((transferAmounts tx.SolTx.Instructions).sum : Nat) : Int) ≠
            (exampleTokenArgs 5).Amount ∧
          (exampleTokenInput [-3, 10]).SourceTokenAccounts.map TokenAccount.Balance =
            [-3, 10]) := by
  refine ⟨⟨_, rfl, ?_, ?_, ?_⟩, ⟨_, rfl, ?_, ?_, ?_⟩⟩ <;> decide

/-- Claim C32, amended. A successful token transfer over two or more source token accounts,
none with a negative balance, for a requested amount in the `uint64` range (from 0 to below
2^64), emits transfer instructions whose amounts sum to exactly the requested amount; the
`i`-th draws from the `i`-th listed account and its amount is at most the balance of that
account. -/
theorem newTokenTransfer_amounts_sum (lib : Library) (b : TxBuilder) (programID : PublicKey)
    (args : TransferArgs) (txInput : TxInput) (tx : Tx)
    (hlen : 2 ≤ txInput.SourceTokenAccounts.length)
    (hok : (b.NewTokenTransfer lib programID args (.solana txInput)).1 = .ok tx)
    (h0 : 0 ≤ args.Amount) (h1 : args.Amount < (2 ^ 64 : Int))
    (hb : ∀ t ∈ txInput.SourceTokenAccounts, 0 ≤ t.Balance) :
    (((transferAmounts tx.SolTx.Instructions).sum : Nat) : Int) = args.Amount ∧
      (transferAmounts tx.SolTx.Instructions).length =
        (transferSources tx.SolTx.Instructions).length ∧
      ∀ (i : Nat) (a : Nat), (transferAmounts tx.SolTx.Instructions)[i]? = some a →
        ∃ tokenAcc, txInput.SourceTokenAccounts[i]? = some tokenAcc ∧
          (transferSources tx.SolTx.Instructions)[i]? = some tokenAcc.Account ∧
          (a : Int) ≤ tokenAcc.Balance := by
  obtain ⟨acc, instrs, payer, -, hinstrs, -, hI, -, -⟩ :=
    newTokenTransfer_ok lib b programID args txInput tx hok
  obtain ⟨left, hloop, hleft⟩ :=
    transferInstructions_fragmented args txInput acc _ _ hlen hinstrs
  obtain ⟨hout, hrem⟩ := spendLoop_ok acc _ _ _ _ _ hloop
  have hsrc : transferSources tx.SolTx.Instructions =
      (spendDownSpec txInput.SourceTokenAccounts args.Amount).map Prod.fst := by
    rw [hI, (transferSources_frame lib b txInput acc _).2, hout, transferSources_append,
      (transferSources_frame lib b txInput acc []).1, transferSources_map, List.nil_append]
  have hamt : transferAmounts tx.SolTx.Instructions =
      (spendDownSpec txInput.SourceTokenAccounts args.Amount).map
        (fun p => BigInt.Uint64 p.2) := by
    rw [hI, (withPriorityFee_facts lib b txInput _).1, hout, transferAmounts_append,
      (createAtaInstructions_facts lib txInput acc).1, transferAmounts_map, List.nil_append]
  have hconv := spendDownSpec_inRange txInput.SourceTokenAccounts args.Amount h0 h1 hb
  have hle := spendDownSpec_sum_le txInput.SourceTokenAccounts args.Amount h0 hb
  refine ⟨?_, by rw [hsrc, hamt, List.length_map, List.length_map], ?_⟩
  · rw [hamt, sum_uint64_eq _ hconv]
    linarith
  · intro i a ha
    rw [hamt, List.getElem?_map] at ha
    cases hp : (spendDownSpec txInput.SourceTokenAccounts args.Amount)[i]? with
    | none => rw [hp] at ha; simp at ha
    | some p =>
      rw [hp] at ha
      simp only [Option.map_some', Option.some.injEq] at ha
      obtain ⟨tokenAcc, hacc, hfst, hmin, -⟩ :=
        spendDownSpec_getElem txInput.SourceTokenAccounts args.Amount i p.1 p.2 hp
      refine ⟨tokenAcc, hacc, ?_, ?_⟩
      · rw [hsrc, List.getElem?_map, hp, Option.map_some', hfst]
      · rw [← ha, hconv p (List.getElem?_mem hp), hmin]
        exact min_le_right _ _

/-- Claim C32, witness. The requested amount 15 over balances [10, 10] succeeds with the
transfers 10 and 5, which sum to 15 and are each at most the balance 10 of their account. -/
theorem newTokenTransfer_amounts_sum_witness :
    2 ≤ (exampleTokenInput [10, 10]).SourceTokenAccounts.length ∧
      ∃ tx : Tx,
        (exampleBuilder.NewTokenTransfer exampleLibrary exampleLibrary.TokenProgramID
            (exampleTokenArgs 15) (.solana (exampleTokenInput [10, 10]))).1 = .ok tx ∧
          transferAmounts tx.SolTx.Instructions = [10, 5] ∧
          (((transferAmounts tx.SolTx.Instructions).sum : Nat) : Int) =
            (exampleTokenArgs 15).Amount := by
  refine ⟨by decide, _, rfl, by decide, ?_⟩
  exact (newTokenTransfer_amounts_sum exampleLibrary exampleBuilder
    exampleLibrary.TokenProgramID (exampleTokenArgs 15) (exampleTokenInput [10, 10]) _
    (by decide) rfl (by decide) (by decide) (by decide)).1

end Solana

/-! ### The Bitcoin builder: the text of the insufficient-funds error -/

namespace Btc

/-- Claim C33, as stated, fails. With one unspent output of 1000, fee rate 1 and amount 900
the build fails for insufficient funds; its error reports the fee 255 and the figure 100,
which is the total less the amount, while the shortfall, by which amount plus fee exceeds the
total, is 155. -/
theorem newNativeTransfer_reports_remainder_not_shortfall :
    (exampleBuilder "BTC").NewNativeTransfer (exampleArgs 900) (.btc (exampleInput [1000] 1)) =
        { tx := none, err := some (.notEnoughFunds 255 100 8) } ∧
      BuildError.Error (fun x _ => toString x) (.notEnoughFunds 255 100 8) =
        "not enough funds for fees, estimated fee is 255 but only 100 is left after transfer" ∧
      (exampleArgs 900).Amount + estimatedFee (exampleBuilder "BTC") (exampleInput [1000] 1) -
          (exampleInput [1000] 1).SumUtxo = 155 ∧
      (155 : Int) ≠ 100 := by
  refine ⟨?_, ?_, ?_, ?_⟩ <;> decide

/-- Claim C33, amended. When `NewNativeTransfer` fails for insufficient funds it returns no
transaction, and its error message reports the estimated fee and what is left after the
transfer, that is the total of the unspent outputs less the amount (the fee not deducted),
both rendered by `ToHuman` with the decimals of the asset; the shortfall is the reported fee
less the reported remainder. -/
theorem newNativeTransfer_insufficient_funds_message (txBuilder : TxBuilder)
    (args : TransferArgs) (input : TxInput) (toHuman : BigInt → Int → String)
    (f d : BigInt) (k : Int)
    (h : (txBuilder.NewNativeTransfer args (.btc input)).err = some (.notEnoughFunds f d k)) :
    (txBuilder.NewNativeTransfer args (.btc input)).tx = none ∧
      f = estimatedFee txBuilder input ∧
      d = input.SumUtxo - args.Amount ∧
      k = txBuilder.Asset.GetDecimals ∧
      BuildError.Error toHuman (.notEnoughFunds f d k) =
        "not enough funds for fees, estimated fee is " ++
          toHuman (estimatedFee txBuilder input) txBuilder.Asset.GetDecimals ++ " but only " ++
          toHuman (input.SumUtxo - args.Amount) txBuilder.Asset.GetDecimals ++
          " is left after transfer" ∧
      args.Amount + estimatedFee txBuilder input - input.SumUtxo = f - d := by
  have herr : (buildNative txBuilder args input).err = some (.notEnoughFunds f d k) := h
  have hloop := buildNative_err txBuilder args input _ herr
  obtain ⟨hf, hd, hk⟩ := addOutputs_notEnoughFunds _ _ _ _ _ _ _ _ hloop
  have hnone : (buildNative txBuilder args input).tx = none :=
    (buildNative_tx_or_err txBuilder args input).mpr (by rw [herr]; simp)
  refine ⟨hnone, hf, hd, hk, ?_, ?_⟩
  · rw [hf, hd, hk]
    rfl
  · rw [hf, hd]
    ring

/-- Claim C33, witness. With one unspent output of 1000, fee rate 1 and amount 800 the
build fails with the error reporting the fee 255 and the remainder 200; the shortfall is 55. -/
theorem newNativeTransfer_insufficient_funds_message_witness :
    (exampleBuilder "BTC").NewNativeTransfer (exampleArgs 800) (.btc (exampleInput [1000] 1)) =
        { tx := none, err := some (.notEnoughFunds 255 200 8) } ∧
      (exampleArgs 800).Amount + estimatedFee (exampleBuilder "BTC") (exampleInput [1000] 1) -
          (exampleInput [1000] 1).SumUtxo = (255 : Int) - 200 :=
  ⟨by decide,
    (newNativeTransfer_insufficient_funds_message (exampleBuilder "BTC") (exampleArgs 800)
      (exampleInput [1000] 1) (fun x _ => toString x) 255 200 8 (by decide)).2.2.2.2.2⟩

end Btc

/-! ### The types of a list of inputs -/

/-- The function returns whether every input of the list passes the type assertion. -/
theorem sameTxInputTypes_eq_all (T : TypeArgument) (as : Option TxInput)
    (inputs : List (Option TxInput)) :
    SameTxInputTypes T as inputs = inputs.all (assertsType T) := by
  induction inputs with
  | nil => rfl
  | cons input rest ih =>
    unfold SameTxInputTypes
    cases h : assertsType T input <;> simp [h, ih]

/-- An input passes the assertion to a concrete type exactly when it is not nil and has that
dynamic type. -/
theorem assertsType_concrete (t : InputType) (input : Option TxInput) :
    assertsType (.concrete t) input = true ↔ input.map TxInput.dynamicType = some t := by
  cases input <;> simp [assertsType]

/-- For an interface type argument the function accepts the lists whose inputs are not nil
and implement the interface, whatever their concrete types. -/
theorem sameTxInputTypes_interface (implementedBy : InputType → Bool) (as : Option TxInput)
    (inputs : List (Option TxInput)) :
    SameTxInputTypes (.interface implementedBy) as inputs = true ↔
      ∀ input ∈ inputs, ∃ i, input = some i ∧ implementedBy i.dynamicType = true := by
  rw [sameTxInputTypes_eq_all, List.all_eq_true]
  constructor
  · intro h input hin
    have := h input hin
    cases input with
    | none => simp [assertsType] at this
    | some i => exact ⟨i, rfl, by simpa [assertsType] using this⟩
  · intro h input hin
    obtain ⟨i, rfl, hi⟩ := h input hin
    simpa [assertsType] using hi

/-- Claim C34. Called with a first argument of the concrete type `T`, `SameTxInputTypes`
returns true if and only if every input of the list is of that same concrete type; it
returns true for the empty list, and false for every list in which some input is of another
variant, or is nil, whatever stands before and after it. -/
theorem sameTxInputTypes_iff (first : TxInput) (inputs : List (Option TxInput)) :
    (SameTxInputTypes (.concrete first.dynamicType) (some first) inputs = true ↔
        ∀ input ∈ inputs, input.map TxInput.dynamicType = some first.dynamicType) ∧
      SameTxInputTypes (.concrete first.dynamicType) (some first) [] = true ∧
      (∀ (before after : List (Option TxInput)) (other : TxInput),
        other.dynamicType ≠ first.dynamicType →
        SameTxInputTypes (.concrete first.dynamicType) (some first)
          (before ++ some other :: after) = false) ∧
      (∀ before after : List (Option TxInput),
        SameTxInputTypes (.concrete first.dynamicType) (some first)
          (before ++ none :: after) = false) := by
  have hiff : ∀ l : List (Option TxInput),
      SameTxInputTypes (.concrete first.dynamicType) (some first) l = true ↔
        ∀ input ∈ l, input.map TxInput.dynamicType = some first.dynamicType := by
    intro l
    rw [sameTxInputTypes_eq_all, List.all_eq_true]
    exact forall₂_congr fun input _ => assertsType_concrete _ input
  refine ⟨hiff inputs, rfl, ?_, ?_⟩
  · intro before after other hne
    rw [← Bool.not_eq_true, hiff]
    intro h
    have := h (some other) (by simp)
    simp only [Option.map_some', Option.some.injEq] at this
    exact hne this
  · intro before after
    rw [← Bool.not_eq_true, hiff]
    intro h
    have := h none (by simp)
    simp at this

/-- Claim C34, witness. With an input of the Bitcoin package as first argument, a list of
two inputs of the Bitcoin package is accepted, and the list of an input of each of the
Bitcoin, EVM and Solana packages is refused. -/
theorem sameTxInputTypes_iff_witness :
    SameTxInputTypes (.concrete .btc) (some (.btc (Btc.exampleInput [1] 1)))
        [some (.btc (Btc.exampleInput [1000] 1)), some (.btc (Btc.exampleInput [] 2))] = true ∧
      SameTxInputTypes (.concrete .btc) (some (.btc (Btc.exampleInput [1] 1))) exampleInputs =
        false :=
  ⟨(sameTxInputTypes_iff (.btc (Btc.exampleInput [1] 1))
      [some (.btc (Btc.exampleInput [1000] 1)), some (.btc (Btc.exampleInput [] 2))]).1.mpr
      (by decide),
    (sameTxInputTypes_iff (.btc (Btc.exampleInput [1] 1)) []).2.2.1
      [some (.btc { UnspentOutputs := [], GasPricePerByte := 1 })]
      [some (.solana (Solana.exampleTokenInput []))]
      (.evm { Nonce := 0, ChainId := 1, GasFeeCap := 0, GasTipCap := 0, GasLimit := 0 })
      (by decide)⟩

/-! ### The EVM client: the replacement margin of a pending transaction -/

namespace Evm

/-- The helper of the example client, which drops the fraction of 1.15 times the amount,
returns an integer less than one unit away from that product. -/
theorem exampleClient_appliesMargin (pending : Option PendingTx)
    (estimate : Nat → CallMsg → Except String Nat) :
    (exampleClient pending estimate).AppliesMargin := by
  intro x hx
  show 115 * x - 100 < 100 * (x * 115 / 100) ∧ 100 * (x * 115 / 100) < 115 * x + 100
  unfold BigInt at *
  constructor <;> omega

/-- Claim C18, as stated, fails. With base fee 100, suggested tip 10 and a visible pending
transaction of maximum fee 333 and maximum priority fee 33, the helper dropping the fraction
of the product, the call returns the fee cap 382 and the tip cap 37, which are below 1.15
times the pending values (382.95 and 37.95). -/
theorem fetchUnsimulatedInput_margin_rounds_down :
    (exampleClient (some examplePending) revertingEstimate).AppliesMargin ∧
      ∃ result,
        (exampleClient (some examplePending) revertingEstimate).FetchUnsimulatedInput
            "0xsender" = .ret result none ∧
          result.GasFeeCap = 382 ∧ result.GasTipCap = 37 ∧
          100 * result.GasFeeCap < 115 * examplePending.MaxFeePerGas ∧
          100 * result.GasTipCap < 115 * examplePending.MaxPriorityFeePerGas := by
  refine ⟨exampleClient_appliesMargin _ _, _, rfl, ?_, ?_, ?_, ?_⟩ <;> decide

/-- Claim C18, amended. On a gas-charging chain whose node answers the nonce, chain id,
header and tip requests, with a helper `MultiplyByFloat(x, 1.15)` that returns an integer less
than one unit away from 1.15 times `x`: when a pending transaction of the sender is visible
(its fees not negative), `FetchUnsimulatedInput` returns without error, for each cap, the
greater of the fresh value and the helper's value for the pending one; so each cap is more
than 1.15 times the pending value less one unit, is at least 1.15 times the pending value
whenever that product is a whole number, and is not lower than the freshly computed value;
nonce and chain id are those fetched. When the pool cannot be inspected or shows no
transaction of the sender, the freshly computed input is returned without error. -/
theorem fetchUnsimulatedInput_replacement_margin (client : Client) (sender : Address)
    (nonce : Nat) (chainId baseFee tip : BigInt)
    (hmargin : client.AppliesMargin)
    (hgas : client.Chain.NoGasFees = false)
    (hnonce : client.GetNonce sender = .ok nonce)
    (hchain : client.EthClient.ChainID = .ok chainId)
    (hhead : client.EthClient.HeaderByNumber = .ok (some baseFee))
    (htip : client.EthClient.SuggestGasTipCap = .ok tip) :
    (∀ info pending,
      client.EthClient.TxPoolContentFrom (client.fromAddr sender) = .ok info →
      info sender = some pending →
      0 ≤ pending.MaxFeePerGas → 0 ≤ pending.MaxPriorityFeePerGas →
      ∃ result, client.FetchUnsimulatedInput sender = .ret result none ∧
        result.GasFeeCap = max (client.freshInput nonce chainId baseFee tip).GasFeeCap
          (client.MultiplyByFloat115 pending.MaxFeePerGas) ∧
        result.GasTipCap = max (client.freshInput nonce chainId baseFee tip).GasTipCap
          (client.MultiplyByFloat115 pending.MaxPriorityFeePerGas) ∧
        115 * pending.MaxFeePerGas - 100 < 100 * result.GasFeeCap ∧
        115 * pending.MaxPriorityFeePerGas - 100 < 100 * result.GasTipCap ∧
        ((100 : Int) ∣ 115 * pending.MaxFeePerGas →
          115 * pending.MaxFeePerGas ≤ 100 * result.GasFeeCap) ∧
        ((100 : Int) ∣ 115 * pending.MaxPriorityFeePerGas →
          115 * pending.MaxPriorityFeePerGas ≤ 100 * result.GasTipCap) ∧
        (client.freshInput nonce chainId baseFee tip).GasFeeCap ≤ result.GasFeeCap ∧
        (client.freshInput nonce chainId baseFee tip).GasTipCap ≤ result.GasTipCap ∧
        result.Nonce = nonce ∧ result.ChainId = chainId) ∧
      (((∃ e, client.EthClient.TxPoolContentFrom (client.fromAddr sender) = .error e) ∨
          (∃ info, client.EthClient.TxPoolContentFrom (client.fromAddr sender) = .ok info ∧
            info sender = none)) →
        client.FetchUnsimulatedInput sender =
          .ret (client.freshInput nonce chainId baseFee tip) none) := by
  obtain ⟨hvisible, hnone⟩ := fetchUnsimulatedInput_adjusted client sender nonce chainId
    baseFee tip hgas hnonce hchain hhead htip
  refine ⟨?_, hnone⟩
  intro info pending hpool hinfo hfee0 htip0
  obtain ⟨result, hres, h1, h2, h3, h4, h5, h6, hN, hC⟩ := hvisible info pending hpool hinfo
  obtain ⟨hlowFee, -⟩ := hmargin pending.MaxFeePerGas hfee0
  obtain ⟨hlowTip, -⟩ := hmargin pending.MaxPriorityFeePerGas htip0
  have key : ∀ p m cap : Int, 115 * p - 100 < 100 * m → m ≤ cap →
      115 * p - 100 < 100 * cap ∧ ((100 : Int) ∣ 115 * p → 115 * p ≤ 100 * cap) := by
    intro p m cap hlow hle
    refine ⟨by omega, ?_⟩
    rintro ⟨k, hk⟩
    omega
  obtain ⟨hf1, hf2⟩ := key _ _ _ hlowFee h1
  obtain ⟨ht1, ht2⟩ := key _ _ _ hlowTip h2
  exact ⟨result, hres, h5, h6, hf1, ht1, hf2, ht2, h3, h4, hN, hC⟩

/-- Claim C18, witness. With base fee 100, suggested tip 10 and a pending transaction of
maximum fee 1000 and maximum priority fee 100, the fee cap 1150 and the tip cap 115 are
returned, which are 1.15 times the pending values; with no pending transaction the fresh
values 100 and 10 are returned. -/
theorem fetchUnsimulatedInput_replacement_margin_witness :
    (∃ result,
      (exampleClient (some { Hash := "0xabc", MaxFeePerGas := 1000, MaxPriorityFeePerGas := 100 })
        revertingEstimate).FetchUnsimulatedInput "0xsender" = .ret result none ∧
      result.GasFeeCap = 1150 ∧ result.GasTipCap = 115 ∧
      (115 * 1000 : Int) ≤ 100 * result.GasFeeCap ∧
      (115 * 100 : Int) ≤ 100 * result.GasTipCap) ∧
      (exampleClient none revertingEstimate).FetchUnsimulatedInput "0xsender" =
        .ret { Nonce := 7, ChainId := 1, GasFeeCap := 100, GasTipCap := 10, GasLimit := 0 }
          none := by
  constructor
  · obtain ⟨result, hres, h1, h2, -, -, h5, h6, -, -, -, -⟩ :=
      (fetchUnsimulatedInput_replacement_margin
        (exampleClient (some { Hash := "0xabc", MaxFeePerGas := 1000,
                               MaxPriorityFeePerGas := 100 }) revertingEstimate)
        "0xsender" 7 1 100 10 (exampleClient_appliesMargin _ _) rfl rfl rfl rfl rfl).1 _
        { Hash := "0xabc", MaxFeePerGas := 1000, MaxPriorityFeePerGas := 100 } rfl rfl
        (by decide) (by decide)
    exact ⟨result, hres, h1, h2, h5 (by decide), h6 (by decide)⟩
  · exact (fetchUnsimulatedInput_replacement_margin (exampleClient none revertingEstimate)
      "0xsender" 7 1 100 10 (exampleClient_appliesMargin _ _) rfl rfl rfl rfl rfl).2
      (Or.inr ⟨_, rfl, rfl⟩)

end Evm

end Crosschain
